import Mathlib

/-! Pool maintenance engine of the Odyssey connection pooler.

A shallow embedding of `sources/periodic.c`: the expiry engine
(`od_periodic_expire_mark`, `od_periodic_expire`) and the statistics engine
(`od_periodic_stats_server`, `od_periodic_stats`), together with the container
operations they drive.  C objects are values, pointers are object identifiers,
and every function takes the state it mutates and returns the new state.
`uint64_t` values are natural numbers reduced modulo `2^64` at every operation
that can wrap; `int64_t` values are integers obtained by the two's complement
reading of a `uint64_t`.
-/

namespace Odyssey

/-! ## Machine integers -/

/-- Difference of two `uint64_t` values, wrapping modulo `2^64`. -/
def u64_sub (a b : Nat) : Nat :=
  (((a : Int) - (b : Int)) % (2 ^ 64 : Int)).toNat

/-- Conversion of a `uint64_t` value to `int64_t` (two's complement). -/
def i64_of_u64 (a : Nat) : Int :=
  if a % 2 ^ 64 < 2 ^ 63 then ((a % 2 ^ 64 : Nat) : Int)
  else ((a % 2 ^ 64 : Nat) : Int) - (2 ^ 64 : Int)

/-- Conversion of an `int64_t` value to `uint64_t`. -/
def u64_of_i64 (a : Int) : Nat :=
  (a % (2 ^ 64 : Int)).toNat

/-- Unsigned division; a zero divisor is undefined behaviour, reported as `none`. -/
def u64_div (a b : Nat) : Option Nat :=
  if b = 0 then none else some (a / b)

/-- Signed division, truncating toward zero; a zero divisor is reported as `none`. -/
def i64_div (a b : Int) : Option Int :=
  if b = 0 then none else some (Int.tdiv a b)

/-! ## Data model -/

/-- Lifecycle state of a server connection (`od_serverstate_t`). -/
inductive od_serverstate_t where
  | OD_SUNDEF
  | OD_SIDLE
  | OD_SACTIVE
  | OD_SEXPIRE
  deriving DecidableEq

open od_serverstate_t

/-- The four `uint64_t` counters of `od_serverstat_t`. -/
structure od_serverstat_t where
  query_time : Nat
  count_request : Nat
  recv_client : Nat
  recv_server : Nat
  deriving DecidableEq

/-- Modelled from the spec: the declaration of `od_server_t` (sources/server.h) is
not among the sources.  A server carries its lifecycle state, the back-reference
to its owning route (`none` is `NULL`), the `idle_time` counter in seconds and its
statistics counters; `id` stands for the address of the object. -/
structure od_server_t where
  id : Nat
  state : od_serverstate_t
  route : Option Nat
  idle_time : Nat
  stats : od_serverstat_t
  deriving DecidableEq

/-- Modelled from the spec: the route configuration behind `route->scheme`
(sources/scheme.h is not among the sources): the `is_obsolete` flag, `pool_ttl`
(a non-negative number of seconds, 0 disables the time-to-live) and `version`. -/
structure od_schemeroute_t where
  is_obsolete : Bool
  pool_ttl : Nat
  version : Nat
  deriving DecidableEq

/-- Modelled from the spec: the client pool of a route; the maintenance engine
reads only its total count. -/
structure od_clientpool_t where
  count : Nat
  deriving DecidableEq

/-- Modelled from the spec: `od_clientpool_total`, the number of clients of a route. -/
def od_clientpool_total (pool : od_clientpool_t) : Nat :=
  pool.count

/-- Modelled from the spec: the server pool of a route (sources/server_pool.h is not
among the sources), one bucket per lifecycle state other than UNDEF. -/
structure od_serverpool_t where
  active : List od_server_t
  idle : List od_server_t
  expire : List od_server_t
  deriving DecidableEq

/-- Modelled from the spec: the O(1) counter `count_active` of a server pool. -/
def od_serverpool_t.count_active (pool : od_serverpool_t) : Nat :=
  pool.active.length

/-- Modelled from the spec: the O(1) counter `count_idle` of a server pool. -/
def od_serverpool_t.count_idle (pool : od_serverpool_t) : Nat :=
  pool.idle.length

/-- Modelled from the spec: the O(1) counter `count_expire` of a server pool. -/
def od_serverpool_t.count_expire (pool : od_serverpool_t) : Nat :=
  pool.expire.length

/-- Modelled from the spec: `od_serverpool_total`, servers across all states. -/
def od_serverpool_total (pool : od_serverpool_t) : Nat :=
  pool.count_active + pool.count_idle + pool.count_expire

/-- Modelled from the spec: `od_route_t` (sources/route.h is not among the sources).
`id` stands for the route identifier (database, user, version). -/
structure od_route_t where
  id : Nat
  scheme : od_schemeroute_t
  client_pool : od_clientpool_t
  server_pool : od_serverpool_t
  periodic_stats : od_serverstat_t
  periodic_stats_avg : od_serverstat_t
  deriving DecidableEq

/-- Modelled from the spec: the route pool, a list of routes; `count` is its length. -/
structure od_routepool_t where
  list : List od_route_t
  deriving DecidableEq

/-- Modelled from the spec: the `count` field of the route pool. -/
def od_routepool_t.count (pool : od_routepool_t) : Nat :=
  pool.list.length

/-- The router, as far as the maintenance engine uses it. -/
structure od_router_t where
  route_pool : od_routepool_t
  deriving DecidableEq

/-- Modelled from the spec: the configuration read through `instance`:
`is_shared`, `scheme.stats_interval` (a positive number of seconds) and
`scheme.log_stats`. -/
structure od_instance_t where
  is_shared : Bool
  stats_interval : Nat
  log_stats : Bool
  deriving DecidableEq

/-- Return codes of the collaborators the sweep calls on a server (given by its
identifier); `od_periodic_expire` ignores both. -/
structure od_backend_t where
  stream_attach_rc : Nat → Int
  terminate_rc : Nat → Int

/-- Calls made by the sweep to its external collaborators, in program order. -/
inductive od_event_t where
  | machine_io_attach (server : Nat)
  | od_server_stream_attach (server : Nat) (rc : Int)
  | od_backend_terminate (server : Nat) (rc : Int)
  | od_server_stream_detach (server : Nat)
  | od_backend_close (server : od_server_t)
  deriving DecidableEq

/-! ## Server pool and route pool operations -/

/-- The bucket of a server pool for a state; UNDEF has no bucket. -/
def od_serverpool_bucket (pool : od_serverpool_t) (state : od_serverstate_t) :
    List od_server_t :=
  match state with
  | OD_SUNDEF => []
  | OD_SIDLE => pool.idle
  | OD_SACTIVE => pool.active
  | OD_SEXPIRE => pool.expire

/-- Unlinking of a server object from whatever bucket holds it. -/
def od_serverpool_unlink (pool : od_serverpool_t) (server : od_server_t) :
    od_serverpool_t :=
  { active := pool.active.filter (fun s => s.id != server.id)
    idle := pool.idle.filter (fun s => s.id != server.id)
    expire := pool.expire.filter (fun s => s.id != server.id) }

/-- Modelled from the spec: `od_serverpool_set(pool, server, state)` moves a server
from its current state bucket to the bucket of the new state; with UNDEF the server
is removed from all buckets.  Nothing moves when the server already has the state. -/
def od_serverpool_set (pool : od_serverpool_t) (server : od_server_t)
    (state : od_serverstate_t) : od_serverpool_t :=
  if server.state = state then pool
  else
    let pool1 := od_serverpool_unlink pool server
    let server1 := { server with state := state }
    match state with
    | OD_SUNDEF => pool1
    | OD_SIDLE => { pool1 with idle := pool1.idle ++ [server1] }
    | OD_SACTIVE => { pool1 with active := pool1.active ++ [server1] }
    | OD_SEXPIRE => { pool1 with expire := pool1.expire ++ [server1] }

/-- A store through a server pointer: the object with the identifier of `server`
takes the field values of `server`, in whatever bucket it is linked. -/
def od_serverpool_store (pool : od_serverpool_t) (server : od_server_t) :
    od_serverpool_t :=
  { active := pool.active.map (fun s => if s.id = server.id then server else s)
    idle := pool.idle.map (fun s => if s.id = server.id then server else s)
    expire := pool.expire.map (fun s => if s.id = server.id then server else s) }

/-- Modelled from the spec: `od_serverpool_foreach(pool, state, fn, arg)` invokes
`fn(server, arg)` on every server that is in `state` when the traversal starts; the
state reachable through `arg` is threaded through the calls. -/
def od_serverpool_foreach {α : Type} (pool : od_serverpool_t) (state : od_serverstate_t)
    (callback : od_server_t → α → α) (arg : α) : α :=
  (od_serverpool_bucket pool state).foldl (fun a server => callback server a) arg

/-- Modelled from the spec: `od_routepool_server_foreach` fans `foreach(state)` across
all routes; the callback mutates the route that owns the server. -/
def od_routepool_server_foreach (pool : od_routepool_t) (state : od_serverstate_t)
    (callback : od_server_t → od_route_t → od_route_t) : od_routepool_t :=
  { list := pool.list.map
      (fun route => od_serverpool_foreach route.server_pool state callback route) }

/-- Modelled from the spec: the first server of a bucket is taken out of the bucket;
its state becomes UNDEF. -/
def od_serverpool_next (pool : od_serverpool_t) (state : od_serverstate_t) :
    Option (od_server_t × od_serverpool_t) :=
  match state with
  | OD_SUNDEF => none
  | OD_SIDLE =>
    match pool.idle with
    | [] => none
    | s :: rest => some ({ s with state := OD_SUNDEF }, { pool with idle := rest })
  | OD_SACTIVE =>
    match pool.active with
    | [] => none
    | s :: rest => some ({ s with state := OD_SUNDEF }, { pool with active := rest })
  | OD_SEXPIRE =>
    match pool.expire with
    | [] => none
    | s :: rest => some ({ s with state := OD_SUNDEF }, { pool with expire := rest })

/-- The route list part of `od_routepool_next`: the first route that has a server in
the state gives it up. -/
def od_routepool_next_list (routes : List od_route_t) (state : od_serverstate_t) :
    Option (od_server_t × List od_route_t) :=
  match routes with
  | [] => none
  | route :: rest =>
    match od_serverpool_next route.server_pool state with
    | some (server, pool1) => some (server, { route with server_pool := pool1 } :: rest)
    | none =>
      match od_routepool_next_list rest state with
      | some (server, rest1) => some (server, route :: rest1)
      | none => none

/-- Modelled from the spec: `od_routepool_next(pool, state)` returns any single server
in the given state across all routes, removing it from its state bucket (the returned
server has no bucket, its state is UNDEF); `none` when there is no such server. -/
def od_routepool_next (pool : od_routepool_t) (state : od_serverstate_t) :
    Option (od_server_t × od_routepool_t) :=
  match od_routepool_next_list pool.list state with
  | some (server, routes) => some (server, { list := routes })
  | none => none

/-- Modelled from the spec: `od_routepool_gc` deletes the routes that are obsolete,
have no clients and have no servers in any state. -/
def od_routepool_gc (pool : od_routepool_t) : od_routepool_t :=
  { list := pool.list.filter (fun route =>
      !(route.scheme.is_obsolete && od_clientpool_total route.client_pool == 0
        && od_serverpool_total route.server_pool == 0)) }

/-! ## Expiry engine -/

/-- The mark callback `od_periodic_expire_mark(server, arg)`.  The server is linked
in the pool of `route`, which is what `server->route` points to. -/
def od_periodic_expire_mark (server : od_server_t) (route : od_route_t) : od_route_t :=
  -- expire by server scheme obsoletion
  if route.scheme.is_obsolete && od_clientpool_total route.client_pool == 0 then
    { route with server_pool := od_serverpool_set route.server_pool server OD_SEXPIRE }
  -- expire by time-to-live
  else if route.scheme.pool_ttl == 0 then
    route
  else if server.idle_time < route.scheme.pool_ttl then
    let server1 : od_server_t := { server with idle_time := server.idle_time + 1 }
    { route with server_pool := od_serverpool_store route.server_pool server1 }
  else
    { route with server_pool := od_serverpool_set route.server_pool server OD_SEXPIRE }

/-- The statements `route = server->route; od_serverpool_set(&route->server_pool,
server, OD_SUNDEF)` of the sweep, on the route the back-reference names. -/
def od_routepool_detach (pool : od_routepool_t) (back : Option Nat) (server : od_server_t) :
    od_routepool_t :=
  { list := pool.list.map (fun route =>
      if back = some route.id then
        { route with server_pool := od_serverpool_set route.server_pool server OD_SUNDEF }
      else route) }

/-- The calls of one sweep iteration on the server in hand. -/
def od_periodic_expire_close (inst : od_instance_t) (backend : od_backend_t)
    (server : od_server_t) : List od_event_t :=
  (if inst.is_shared then [od_event_t.machine_io_attach server.id] else [])
    ++ [od_event_t.od_server_stream_attach server.id (backend.stream_attach_rc server.id),
        od_event_t.od_backend_terminate server.id (backend.terminate_rc server.id),
        od_event_t.od_server_stream_detach server.id,
        od_event_t.od_backend_close server]

/-- The sweep loop of `od_periodic_expire`; `fuel` bounds the number of iterations. -/
def od_periodic_expire_sweep (inst : od_instance_t) (backend : od_backend_t) :
    Nat → od_routepool_t × List od_event_t → od_routepool_t × List od_event_t
  | 0, st => st
  | fuel + 1, (pool, trace) =>
    match od_routepool_next pool OD_SEXPIRE with
    | none => (pool, trace)
    | some (server, pool1) =>
      let server1 := { server with idle_time := 0 }
      let back := server1.route
      let server2 := { server1 with route := none }
      let pool2 := od_routepool_detach pool1 back server2
      let server3 := { server2 with state := OD_SUNDEF }
      od_periodic_expire_sweep inst backend fuel
        (pool2, trace ++ od_periodic_expire_close inst backend server3)

/-- Number of servers in EXPIRE across all routes. -/
def od_routepool_count_expire (pool : od_routepool_t) : Nat :=
  (pool.list.map (fun route => route.server_pool.count_expire)).sum

/-- One call of `od_periodic_expire`: mark, sweep, then the route pool GC.  The sweep
gets one iteration per server that is in EXPIRE after the mark phase. -/
def od_periodic_expire (inst : od_instance_t) (backend : od_backend_t)
    (router : od_router_t) : od_router_t × List od_event_t :=
  -- mark
  let marked := od_routepool_server_foreach router.route_pool OD_SIDLE od_periodic_expire_mark
  -- sweep
  let swept := od_periodic_expire_sweep inst backend (od_routepool_count_expire marked)
    (marked, [])
  -- cleanup unused dynamic routes and obsolete db schemes
  ({ route_pool := od_routepool_gc swept.1 }, swept.2)

/-- Consecutive calls of `od_periodic_expire` with no activity in between; the calls
made to the collaborators accumulate. -/
def od_periodic_expire_ticks (inst : od_instance_t) (backend : od_backend_t) :
    Nat → od_router_t × List od_event_t → od_router_t × List od_event_t
  | 0, st => st
  | n + 1, (router, trace) =>
    od_periodic_expire_ticks inst backend n
      ((od_periodic_expire inst backend router).1,
        trace ++ (od_periodic_expire inst backend router).2)

/-! ## Statistics engine -/

/-- The accumulator after `memset(&stats, 0, sizeof(stats))`. -/
def od_serverstat_zero : od_serverstat_t :=
  { query_time := 0, count_request := 0, recv_client := 0, recv_server := 0 }

/-- The callback `od_periodic_stats_server(server, arg)`: four wrapping additions. -/
def od_periodic_stats_server (server : od_server_t) (stats : od_serverstat_t) :
    od_serverstat_t :=
  { query_time := (stats.query_time + server.stats.query_time) % 2 ^ 64
    count_request := (stats.count_request + server.stats.count_request) % 2 ^ 64
    recv_client := (stats.recv_client + server.stats.recv_client) % 2 ^ 64
    recv_server := (stats.recv_server + server.stats.recv_server) % 2 ^ 64 }

/-- The gathering step of `od_periodic_stats`: ACTIVE servers, then IDLE servers. -/
def od_periodic_stats_gather (route : od_route_t) : od_serverstat_t :=
  od_serverpool_foreach route.server_pool OD_SIDLE od_periodic_stats_server
    (od_serverpool_foreach route.server_pool OD_SACTIVE od_periodic_stats_server
      od_serverstat_zero)

/-- The signed difference `reqs_diff_sanity` between the gathered request count and
the previous snapshot. -/
def od_periodic_stats_sanity (route : od_route_t) : Int :=
  i64_of_u64 (u64_sub (od_periodic_stats_gather route).count_request
    route.periodic_stats.count_request)

/-- The body of the route loop of `od_periodic_stats`; `none` is a division by zero. -/
def od_periodic_stats_route (inst : od_instance_t) (route : od_route_t) :
    Option od_route_t :=
  let stats := od_periodic_stats_gather route
  let reqs_diff_sanity : Int :=
    i64_of_u64 (u64_sub stats.count_request route.periodic_stats.count_request)
  if 0 ≤ reqs_diff_sanity then do
    -- request count
    let reqs_prev ← u64_div route.periodic_stats.count_request inst.stats_interval
    let reqs_current ← u64_div stats.count_request inst.stats_interval
    let reqs_diff : Int := i64_of_u64 (u64_sub reqs_current reqs_prev)
    let reqs ← (i64_div reqs_diff (inst.stats_interval : Int)).map u64_of_i64
    -- recv client
    let recv_client_prev ← u64_div route.periodic_stats.recv_client inst.stats_interval
    let recv_client_current ← u64_div stats.recv_client inst.stats_interval
    let recv_client ← u64_div (u64_sub recv_client_current recv_client_prev)
      inst.stats_interval
    -- recv server
    let recv_server_prev ← u64_div route.periodic_stats.recv_server inst.stats_interval
    let recv_server_current ← u64_div stats.recv_server inst.stats_interval
    let recv_server ← u64_div (u64_sub recv_server_current recv_server_prev)
      inst.stats_interval
    -- query time
    let query_time ←
      if 0 < reqs_diff then
        u64_div (u64_sub stats.query_time route.periodic_stats.query_time)
          (u64_of_i64 reqs_diff)
      else some 0
    -- update stats
    some { route with
      periodic_stats := stats
      periodic_stats_avg :=
        { count_request := reqs, recv_client := recv_client,
          recv_server := recv_server, query_time := query_time } }
  else
    some { route with
      periodic_stats := stats
      periodic_stats_avg :=
        { count_request := 0, recv_client := 0, recv_server := 0, query_time := 0 } }

/-- The route loop of `od_periodic_stats`, in list order. -/
def od_periodic_stats_routes (inst : od_instance_t) :
    List od_route_t → Option (List od_route_t)
  | [] => some []
  | route :: rest => do
    let route1 ← od_periodic_stats_route inst route
    let rest1 ← od_periodic_stats_routes inst rest
    some (route1 :: rest1)

/-- One call of `od_periodic_stats(router)`; logging has no effect on the state. -/
def od_periodic_stats (inst : od_instance_t) (router : od_router_t) : Option od_router_t :=
  if router.route_pool.count = 0 then some router
  else
    (od_periodic_stats_routes inst router.route_pool.list).map
      (fun routes => { route_pool := { list := routes } })

/-! ## Periodic driver -/

/-- Calls of the driver loop of `od_periodic`, in program order. -/
inductive od_call_t where
  | expire
  | stats
  | sleep (ms : Nat)
  deriving DecidableEq

/-- The state the driver loop works on: the router reached through
`periodic->system`, the local `stats_tick`, and the calls made so far. -/
structure od_periodic_state_t where
  router : od_router_t
  stats_tick : Nat
  calls : List od_call_t
  trace : List od_event_t

/-- The state at the entry of `od_periodic`: `stats_tick = 0`, nothing called yet. -/
def od_periodic_enter (router : od_router_t) : od_periodic_state_t :=
  { router := router, stats_tick := 0, calls := [], trace := [] }

/-- One iteration of the `for (;;)` loop of `od_periodic`; `none` is a division by
zero inside the statistics. -/
def od_periodic_body (inst : od_instance_t) (backend : od_backend_t)
    (st : od_periodic_state_t) : Option od_periodic_state_t :=
  -- mark and sweep expired idle server connections
  let expired := od_periodic_expire inst backend st.router
  -- update stats
  let stats_tick := st.stats_tick + 1
  if inst.stats_interval ≤ stats_tick then
    (od_periodic_stats inst expired.1).map (fun router =>
      { router := router, stats_tick := 0,
        calls := st.calls ++ [od_call_t.expire, od_call_t.stats, od_call_t.sleep 1000],
        trace := st.trace ++ expired.2 })
  else
    some
      { router := expired.1, stats_tick := stats_tick,
        calls := st.calls ++ [od_call_t.expire, od_call_t.sleep 1000],
        trace := st.trace ++ expired.2 }

/-- The first `n` iterations of the loop of `od_periodic`, which never leaves it. -/
def od_periodic (inst : od_instance_t) (backend : od_backend_t) :
    Nat → od_periodic_state_t → Option od_periodic_state_t
  | 0, st => some st
  | n + 1, st => (od_periodic inst backend n st).bind (od_periodic_body inst backend)

/-- The schedule in the words of the specification: every iteration invokes the
expiry engine, then the statistics engine if the iteration number is a multiple of the
interval, then sleeps for 1000 ms. -/
def od_periodic_schedule (interval : Nat) : Nat → List od_call_t
  | 0 => []
  | n + 1 =>
    od_periodic_schedule interval n
      ++ ([od_call_t.expire] ++ (if interval ∣ n + 1 then [od_call_t.stats] else [])
        ++ [od_call_t.sleep 1000])

/-- Modelled from the spec: `od_periodic_t` (sources/periodic.h is not among the
sources) holds the back-reference to the system handle; `none` is a pointer not yet
set. -/
structure od_periodic_t where
  system : Option Nat
  deriving DecidableEq

/-- The function `od_periodic_init(periodic, system)`. -/
def od_periodic_init (periodic : od_periodic_t) (system : Nat) : od_periodic_t :=
  { periodic with system := some system }

/-- Lines written to the error log by `od_periodic_start`. -/
inductive od_log_t where
  | failed_to_start_periodic_coroutine
  deriving DecidableEq

/-- The function `od_periodic_start(periodic)`; `coroutine_id` is what
`machine_coroutine_create(od_periodic, periodic)` returned.  The result is the return
value together with the lines logged. -/
def od_periodic_start (coroutine_id : Int) : Int × List od_log_t :=
  if coroutine_id = -1 then
    (-1, [od_log_t.failed_to_start_periodic_coroutine])
  else
    (0, [])

/-! ## Observations on a server pool -/

/-- All servers linked in a pool, bucket after bucket. -/
def od_serverpool_servers (pool : od_serverpool_t) : List od_server_t :=
  pool.active ++ pool.idle ++ pool.expire

/-- The server object with a given identifier, as linked in the pool. -/
def od_serverpool_find (pool : od_serverpool_t) (id : Nat) : Option od_server_t :=
  (od_serverpool_servers pool).find? (fun s => s.id == id)

/-- The state bucket that holds the object with a given identifier; UNDEF when no
bucket holds it. -/
def od_serverpool_state_of (pool : od_serverpool_t) (id : Nat) : od_serverstate_t :=
  if pool.active.any (fun s => s.id == id) then OD_SACTIVE
  else if pool.idle.any (fun s => s.id == id) then OD_SIDLE
  else if pool.expire.any (fun s => s.id == id) then OD_SEXPIRE
  else OD_SUNDEF

/-- Data-model invariant of a server pool: every server object is linked in at most
one bucket, at most once, and its state field names the bucket that holds it. -/
def od_serverpool_wf (pool : od_serverpool_t) : Prop :=
  ((od_serverpool_servers pool).map (fun s => s.id)).Nodup
    ∧ (∀ s ∈ pool.active, s.state = OD_SACTIVE)
    ∧ (∀ s ∈ pool.idle, s.state = OD_SIDLE)
    ∧ (∀ s ∈ pool.expire, s.state = OD_SEXPIRE)

instance od_serverpool_wf_decidable (pool : od_serverpool_t) :
    Decidable (od_serverpool_wf pool) :=
  inferInstanceAs (Decidable
    (((od_serverpool_servers pool).map (fun (s : od_server_t) => s.id)).Nodup
      ∧ (∀ s ∈ pool.active, s.state = OD_SACTIVE)
      ∧ (∀ s ∈ pool.idle, s.state = OD_SIDLE)
      ∧ (∀ s ∈ pool.expire, s.state = OD_SEXPIRE)))

/-- The mark rules of the specification (section 4.3), evaluated in order on one IDLE
server: (1) obsolete scheme and no clients: EXPIRE; (2) `pool_ttl` zero: unchanged;
(3) `idle_time < pool_ttl`: one more idle second; (4) otherwise EXPIRE. -/
def od_mark_reference (scheme : od_schemeroute_t) (clients : Nat) (server : od_server_t) :
    od_server_t :=
  if scheme.is_obsolete = true ∧ clients = 0 then { server with state := OD_SEXPIRE }
  else if scheme.pool_ttl = 0 then server
  else if server.idle_time < scheme.pool_ttl then
    { server with idle_time := server.idle_time + 1 }
  else { server with state := OD_SEXPIRE }

/-! ## Descriptions of the outcome of a tick -/

/-- The servers in EXPIRE across the routes, in the order the sweep meets them. -/
def od_routepool_expire_servers : List od_route_t → List od_server_t
  | [] => []
  | route :: rest => route.server_pool.expire ++ od_routepool_expire_servers rest

/-- A route with its EXPIRE bucket emptied. -/
def od_route_clear_expire (route : od_route_t) : od_route_t :=
  { route with server_pool := { route.server_pool with expire := [] } }

/-- A server object as the sweep hands it to `od_backend_close`: idle time reset, no
route, no bucket. -/
def od_server_closed (server : od_server_t) : od_server_t :=
  { server with idle_time := 0, route := none, state := OD_SUNDEF }

/-- The calls of a sweep over the given servers, in order. -/
def od_sweep_trace (inst : od_instance_t) (backend : od_backend_t) :
    List od_server_t → List od_event_t
  | [] => []
  | server :: rest =>
    od_periodic_expire_close inst backend (od_server_closed server)
      ++ od_sweep_trace inst backend rest

/-- The mark phase on one route: the traversal of its IDLE bucket. -/
def od_periodic_expire_mark_route (route : od_route_t) : od_route_t :=
  od_serverpool_foreach route.server_pool OD_SIDLE od_periodic_expire_mark route

/-- The predicate of the route pool GC: obsolete, no clients, no servers. -/
def od_route_is_garbage (route : od_route_t) : Bool :=
  route.scheme.is_obsolete && od_clientpool_total route.client_pool == 0
    && od_serverpool_total route.server_pool == 0

/-! ## Descriptions of the statistics -/

/-- The sum of the four counters over the given servers, each modulo `2^64`: the
accumulator of section 4.4, step 2, in the words of the specification. -/
def od_serverstat_sum (servers : List od_server_t) : od_serverstat_t :=
  { query_time := (servers.map (fun s => s.stats.query_time)).sum % 2 ^ 64
    count_request := (servers.map (fun s => s.stats.count_request)).sum % 2 ^ 64
    recv_client := (servers.map (fun s => s.stats.recv_client)).sum % 2 ^ 64
    recv_server := (servers.map (fun s => s.stats.recv_server)).sum % 2 ^ 64 }

/-- The signed difference `reqs_diff` of `od_periodic_stats` between the request
counts divided by the interval. -/
def od_periodic_stats_reqs_diff (inst : od_instance_t) (route : od_route_t) : Int :=
  i64_of_u64 (u64_sub ((od_periodic_stats_gather route).count_request / inst.stats_interval)
    (route.periodic_stats.count_request / inst.stats_interval))

/-! ## Kinds of sweep calls -/

/-- Whether a call is an `od_backend_close`. -/
def od_event_is_close : od_event_t → Bool
  | od_event_t.od_backend_close _ => true
  | _ => false

/-- Whether a call is an `od_backend_terminate`. -/
def od_event_is_terminate : od_event_t → Bool
  | od_event_t.od_backend_terminate _ _ => true
  | _ => false

/-- Whether a call is a `machine_io_attach`. -/
def od_event_is_io_attach : od_event_t → Bool
  | od_event_t.machine_io_attach _ => true
  | _ => false

/-- The divisors of the divisions that the route body of `od_periodic_stats` executes,
in program order: nine divisions by `stats_interval` when the sanity gate passes, then
the division of the query time by `reqs_diff` under the guard `reqs_diff > 0`; none
when the gate fails. -/
def od_periodic_stats_divisors (inst : od_instance_t) (route : od_route_t) : List Int :=
  if 0 ≤ od_periodic_stats_sanity route then
    List.replicate 9 (inst.stats_interval : Int)
      ++ (if 0 < od_periodic_stats_reqs_diff inst route then
            [od_periodic_stats_reqs_diff inst route]
          else [])
  else []

/-! ## Concrete pool states -/

/-- A server object with the given identifier, state, owning route and idle time, and
with all counters zero. -/
def od_server_example (id : Nat) (state : od_serverstate_t) (route : Nat)
    (idle_time : Nat) : od_server_t :=
  { id := id, state := state, route := some route, idle_time := idle_time,
    stats := od_serverstat_zero }

/-- A route with the given identifier, scheme, number of clients and server pool, and
with zeroed statistics. -/
def od_route_example (id : Nat) (scheme : od_schemeroute_t) (clients : Nat)
    (pool : od_serverpool_t) : od_route_t :=
  { id := id, scheme := scheme, client_pool := { count := clients }, server_pool := pool,
    periodic_stats := od_serverstat_zero, periodic_stats_avg := od_serverstat_zero }

/-- An obsolete route that still has one client, with a time-to-live of 3 seconds, one
ACTIVE server and two IDLE servers, the second of which has been idle for 3 seconds. -/
def od_route_busy : od_route_t :=
  od_route_example 1 { is_obsolete := true, pool_ttl := 3, version := 0 } 1
    { active := [od_server_example 10 OD_SACTIVE 1 0]
      idle := [od_server_example 11 OD_SIDLE 1 1, od_server_example 12 OD_SIDLE 1 3]
      expire := [] }

/-- A configuration: not shared, statistics every 2 ticks. -/
def od_instance_example : od_instance_t :=
  { is_shared := false, stats_interval := 2, log_stats := false }

/-- Collaborators whose calls all succeed. -/
def od_backend_example : od_backend_t :=
  { stream_attach_rc := fun _ => 0, terminate_rc := fun _ => 0 }

/-- Scenario S2: an obsolete route without clients and with two IDLE servers. -/
def od_route_s2 : od_route_t :=
  od_route_example 2 { is_obsolete := true, pool_ttl := 0, version := 1 } 0
    { active := []
      idle := [od_server_example 21 OD_SIDLE 2 0, od_server_example 22 OD_SIDLE 2 5]
      expire := [] }

/-- A router with the busy obsolete route and the route of scenario S2. -/
def od_router_s2 : od_router_t :=
  { route_pool := { list := [od_route_busy, od_route_s2] } }

/-- Scenario S1: the IDLE server, with its idle time as a parameter. -/
def od_server_s1 (sid : Nat) (back : Option Nat) (stats : od_serverstat_t)
    (idle_time : Nat) : od_server_t :=
  { id := sid, state := OD_SIDLE, route := back, idle_time := idle_time, stats := stats }

/-- Scenario S1: a route that is not obsolete, with `pool_ttl = 3`, whose only servers
are the given IDLE ones. -/
def od_route_s1 (rid version clients : Nat) (ps psa : od_serverstat_t)
    (idle : List od_server_t) : od_route_t :=
  { id := rid, scheme := { is_obsolete := false, pool_ttl := 3, version := version },
    client_pool := { count := clients },
    server_pool := { active := [], idle := idle, expire := [] },
    periodic_stats := ps, periodic_stats_avg := psa }

/-- Scenario S1: the router, holding the one route. -/
def od_router_s1 (rid version clients : Nat) (ps psa : od_serverstat_t)
    (idle : List od_server_t) : od_router_t :=
  { route_pool := { list := [od_route_s1 rid version clients ps psa idle] } }

/-- Scenario S6: time-to-live disabled, one IDLE server with `idle_time = 1000`. -/
def od_route_s6 : od_route_t :=
  od_route_example 6 { is_obsolete := false, pool_ttl := 0, version := 0 } 0
    { active := [], idle := [od_server_example 61 OD_SIDLE 6 1000], expire := [] }

/-- Scenario S3: obsolete route held by one client, time-to-live disabled, one IDLE
server. -/
def od_route_s3 : od_route_t :=
  od_route_example 3 { is_obsolete := true, pool_ttl := 0, version := 0 } 1
    { active := [], idle := [od_server_example 31 OD_SIDLE 3 0], expire := [] }

/-- A router with the routes of scenarios S6, S3 and S2. -/
def od_router_s6 : od_router_t :=
  { route_pool := { list := [od_route_s6, od_route_s3, od_route_s2] } }

/-- A route with one ACTIVE server, one IDLE server at its time-to-live and one server
left in EXPIRE. -/
def od_route_mixed : od_route_t :=
  od_route_example 7 { is_obsolete := false, pool_ttl := 2, version := 0 } 1
    { active := [od_server_example 70 OD_SACTIVE 7 0]
      idle := [od_server_example 71 OD_SIDLE 7 2, od_server_example 72 OD_SIDLE 7 0]
      expire := [od_server_example 73 OD_SEXPIRE 7 9] }

/-- A router with the mixed route and the route of scenario S2. -/
def od_router_mixed : od_router_t :=
  { route_pool := { list := [od_route_mixed, od_route_s2] } }

/-- A server object with the given identifier, state, route and statistics counters. -/
def od_server_counting (id : Nat) (state : od_serverstate_t) (route : Nat)
    (query_time count_request recv_client recv_server : Nat) : od_server_t :=
  { id := id, state := state, route := some route, idle_time := 0,
    stats := { query_time := query_time, count_request := count_request,
               recv_client := recv_client, recv_server := recv_server } }

/-- Scenario S5: the previous snapshot summed `count_request = 100` and the averages
stood at 7 requests per second; one server has been closed since and the remaining
ACTIVE server counts 40 requests. -/
def od_route_s5 : od_route_t :=
  { id := 5, scheme := { is_obsolete := false, pool_ttl := 0, version := 0 },
    client_pool := { count := 1 },
    server_pool := { active := [od_server_counting 51 OD_SACTIVE 5 900 40 10 20],
                     idle := [], expire := [] },
    periodic_stats := { query_time := 2000, count_request := 100, recv_client := 30,
                        recv_server := 60 },
    periodic_stats_avg := { query_time := 20, count_request := 7, recv_client := 3,
                            recv_server := 6 } }

/-- Scenario S5: the router, holding the one route. -/
def od_router_s5 : od_router_t :=
  { route_pool := { list := [od_route_s5] } }

/-- Scenario S5 after the statistics run: the snapshot is refreshed, the averages are
zero. -/
def od_router_s5_after : od_router_t :=
  { route_pool := { list := [{ od_route_s5 with
      periodic_stats := { query_time := 900, count_request := 40, recv_client := 10,
                          recv_server := 20 }
      periodic_stats_avg := od_serverstat_zero }] } }

/-- Scenario S4: one ACTIVE server that has forwarded 10 requests totalling 5000
microseconds since the previous snapshot, which was all zero. -/
def od_route_s4 : od_route_t :=
  od_route_example 4 { is_obsolete := false, pool_ttl := 0, version := 0 } 1
    { active := [od_server_counting 41 OD_SACTIVE 4 5000 10 0 0], idle := [], expire := [] }

/-- A route whose only server has counted `2^63` requests since an all-zero snapshot. -/
def od_route_wide : od_route_t :=
  od_route_example 8 { is_obsolete := false, pool_ttl := 0, version := 0 } 1
    { active := [od_server_counting 81 OD_SACTIVE 8 0 (2 ^ 63) 0 0], idle := [],
      expire := [] }

/-- A configuration with statistics on every tick. -/
def od_instance_unit : od_instance_t :=
  { is_shared := false, stats_interval := 1, log_stats := false }

/-- Collaborators for which attaching a stream and sending Terminate fail. -/
def od_backend_failing : od_backend_t :=
  { stream_attach_rc := fun _ => -1, terminate_rc := fun _ => -1 }

/-- A shared-mode configuration. -/
def od_instance_shared : od_instance_t :=
  { is_shared := true, stats_interval := 2, log_stats := false }

/-- A route whose previous snapshot counted 1 request and whose only server now
counts 4. -/
def od_route_quantized : od_route_t :=
  { id := 9, scheme := { is_obsolete := false, pool_ttl := 0, version := 0 },
    client_pool := { count := 1 },
    server_pool := { active := [od_server_counting 91 OD_SACTIVE 9 0 4 0 0],
                     idle := [], expire := [] },
    periodic_stats := { query_time := 0, count_request := 1, recv_client := 0,
                        recv_server := 0 },
    periodic_stats_avg := od_serverstat_zero }

/-- The route with the quantized counters after a statistics run with interval 2. -/
def od_route_quantized_after : od_route_t :=
  { od_route_quantized with
    periodic_stats := { query_time := 0, count_request := 4, recv_client := 0,
                        recv_server := 0 }
    periodic_stats_avg := { query_time := 0, count_request := 1, recv_client := 0,
                            recv_server := 0 } }

/-- A router holding only the busy obsolete route (pool_ttl = 3, one client). -/
def od_router_busy : od_router_t :=
  { route_pool := { list := [od_route_busy] } }

/-- A route whose request count has grown by `2^63` since the previous snapshot while
`recv_client` has dropped from 1 to 0. -/
def od_route_wide_recv : od_route_t :=
  { id := 8, scheme := { is_obsolete := false, pool_ttl := 0, version := 0 },
    client_pool := { count := 1 },
    server_pool := { active := [od_server_counting 81 OD_SACTIVE 8 0 (2 ^ 63) 0 0],
                     idle := [], expire := [] },
    periodic_stats := { query_time := 0, count_request := 0, recv_client := 1,
                        recv_server := 0 },
    periodic_stats_avg := od_serverstat_zero }

/-- A route whose request count has grown from 0 to 5 while `recv_client` has dropped
from 1 to 0. -/
def od_route_wrap : od_route_t :=
  { id := 8, scheme := { is_obsolete := false, pool_ttl := 0, version := 0 },
    client_pool := { count := 1 },
    server_pool := { active := [od_server_counting 81 OD_SACTIVE 8 0 5 0 0],
                     idle := [], expire := [] },
    periodic_stats := { query_time := 0, count_request := 0, recv_client := 1,
                        recv_server := 0 },
    periodic_stats_avg := od_serverstat_zero }

/-- A configuration with a zero statistics interval. -/
def od_instance_zero : od_instance_t :=
  { is_shared := false, stats_interval := 0, log_stats := false }

/-- A router holding the regressed route of scenario S5 and the route of scenario S4,
whose request count has grown. -/
def od_router_s45 : od_router_t :=
  { route_pool := { list := [od_route_s5, od_route_s4] } }

end Odyssey

namespace Odyssey

open od_serverstate_t

/-! ## Lists of server objects -/

theorem filter_id_ne_of_not_mem (l : List od_server_t) (i : Nat)
    (h : ∀ t ∈ l, t.id ≠ i) : l.filter (fun t => t.id != i) = l := by
  rw [List.filter_eq_self]
  intro t ht
  simpa using h t ht

theorem map_store_of_not_mem (l : List od_server_t) (x : od_server_t)
    (h : ∀ t ∈ l, t.id ≠ x.id) :
    l.map (fun t => if t.id = x.id then x else t) = l := by
  induction l with
  | nil => rfl
  | cons a l ih =>
    have ha : a.id ≠ x.id := h a (List.mem_cons_self a l)
    have hl : ∀ t ∈ l, t.id ≠ x.id := fun t ht => h t (List.mem_cons_of_mem a ht)
    simp [ha, ih hl]

theorem nodup_ids_middle (l₁ l₂ : List od_server_t) (s : od_server_t)
    (h : ((l₁ ++ s :: l₂).map (fun t => t.id)).Nodup) :
    ∀ t ∈ l₁ ++ l₂, t.id ≠ s.id := by
  rw [List.map_append, List.map_cons, List.nodup_middle, List.nodup_cons,
    ← List.map_append] at h
  intro t ht heq
  exact h.1 (List.mem_map.mpr ⟨t, ht, heq⟩)

/-- In a well-formed pool the identifier of an idle server occurs nowhere else. -/
theorem od_serverpool_wf_split (A pre post E : List od_server_t) (s : od_server_t)
    (h : od_serverpool_wf { active := A, idle := pre ++ s :: post, expire := E }) :
    (∀ t ∈ A, t.id ≠ s.id) ∧ (∀ t ∈ pre, t.id ≠ s.id) ∧ (∀ t ∈ post, t.id ≠ s.id)
      ∧ (∀ t ∈ E, t.id ≠ s.id) := by
  obtain ⟨hnd, -, -, -⟩ := h
  have hre : od_serverpool_servers { active := A, idle := pre ++ s :: post, expire := E }
      = (A ++ pre) ++ s :: (post ++ E) := by
    simp [od_serverpool_servers]
  rw [hre] at hnd
  have key := nodup_ids_middle _ _ _ hnd
  refine ⟨fun t ht => key t ?_, fun t ht => key t ?_, fun t ht => key t ?_,
    fun t ht => key t ?_⟩ <;> simp [ht]

theorem od_serverpool_unlink_split (A pre post E : List od_server_t) (s : od_server_t)
    (h : od_serverpool_wf { active := A, idle := pre ++ s :: post, expire := E }) :
    od_serverpool_unlink { active := A, idle := pre ++ s :: post, expire := E } s
      = { active := A, idle := pre ++ post, expire := E } := by
  obtain ⟨hA, hpre, hpost, hE⟩ := od_serverpool_wf_split A pre post E s h
  simp [od_serverpool_unlink, List.filter_append, List.filter_cons,
    filter_id_ne_of_not_mem _ _ hA, filter_id_ne_of_not_mem _ _ hpre,
    filter_id_ne_of_not_mem _ _ hpost, filter_id_ne_of_not_mem _ _ hE]

theorem od_serverpool_store_split (A pre post E : List od_server_t) (s x : od_server_t)
    (hx : x.id = s.id)
    (h : od_serverpool_wf { active := A, idle := pre ++ s :: post, expire := E }) :
    od_serverpool_store { active := A, idle := pre ++ s :: post, expire := E } x
      = { active := A, idle := pre ++ x :: post, expire := E } := by
  obtain ⟨hA, hpre, hpost, hE⟩ := od_serverpool_wf_split A pre post E s h
  rw [← hx] at hA hpre hpost hE
  simp only [od_serverpool_store, List.map_append, List.map_cons, if_pos hx.symm,
    map_store_of_not_mem _ _ hA, map_store_of_not_mem _ _ hpre,
    map_store_of_not_mem _ _ hpost, map_store_of_not_mem _ _ hE]

/-! ## The mark callback on a well-formed pool -/

/-- One call of the mark callback on an idle server of a well-formed pool: the server
takes the value the four rules give it, and is re-linked at the tail of the EXPIRE
bucket exactly when that value has state EXPIRE. -/
theorem od_periodic_expire_mark_split (route : od_route_t) (A pre post E : List od_server_t)
    (s : od_server_t)
    (hp : route.server_pool = { active := A, idle := pre ++ s :: post, expire := E })
    (hwf : od_serverpool_wf route.server_pool) :
    od_periodic_expire_mark s route =
      { route with server_pool :=
          if (od_mark_reference route.scheme (od_clientpool_total route.client_pool) s).state
              = OD_SEXPIRE then
            { active := A, idle := pre ++ post,
              expire := E ++
                [od_mark_reference route.scheme (od_clientpool_total route.client_pool) s] }
          else
            { active := A,
              idle := pre ++
                od_mark_reference route.scheme (od_clientpool_total route.client_pool) s
                  :: post,
              expire := E } } := by
  obtain ⟨rid, scheme, clients, pool, ps, psa⟩ := route
  simp only at hp hwf ⊢
  subst hp
  have hs : s.state = OD_SIDLE := hwf.2.2.1 s (by simp)
  have hunlink := od_serverpool_unlink_split A pre post E s hwf
  have hset : od_serverpool_set { active := A, idle := pre ++ s :: post, expire := E } s
      OD_SEXPIRE =
        { active := A, idle := pre ++ post, expire := E ++ [{ s with state := OD_SEXPIRE }] } := by
    simp [od_serverpool_set, hs, hunlink]
  have hst := od_serverpool_store_split A pre post E s
    { s with idle_time := s.idle_time + 1 } rfl hwf
  unfold od_periodic_expire_mark od_mark_reference
  simp only [hset, hst]
  by_cases h1 : scheme.is_obsolete = true ∧ od_clientpool_total clients = 0
  · have h1b : (scheme.is_obsolete && od_clientpool_total clients == 0) = true := by
      simp [h1.1, h1.2]
    rw [if_pos h1b, if_pos h1]
    simp
  · have h1b : ¬ ((scheme.is_obsolete && od_clientpool_total clients == 0) = true) := by
      simpa using h1
    rw [if_neg h1b, if_neg h1]
    by_cases h2 : scheme.pool_ttl = 0
    · have h2b : (scheme.pool_ttl == 0) = true := by simp [h2]
      rw [if_pos h2b, if_pos h2]
      simp [hs]
    · have h2b : ¬ ((scheme.pool_ttl == 0) = true) := by simpa using h2
      rw [if_neg h2b, if_neg h2]
      by_cases h3 : s.idle_time < scheme.pool_ttl
      · rw [if_pos h3, if_pos h3]
        simp [hs]
      · rw [if_neg h3, if_neg h3]
        simp

theorem od_mark_reference_id (scheme : od_schemeroute_t) (clients : Nat) (s : od_server_t) :
    (od_mark_reference scheme clients s).id = s.id := by
  unfold od_mark_reference
  split_ifs <;> rfl

theorem od_mark_reference_route (scheme : od_schemeroute_t) (clients : Nat)
    (s : od_server_t) : (od_mark_reference scheme clients s).route = s.route := by
  unfold od_mark_reference
  split_ifs <;> rfl

theorem od_mark_reference_stats (scheme : od_schemeroute_t) (clients : Nat)
    (s : od_server_t) : (od_mark_reference scheme clients s).stats = s.stats := by
  unfold od_mark_reference
  split_ifs <;> rfl

/-- An idle server comes out of the four rules either IDLE or in EXPIRE. -/
theorem od_mark_reference_state (scheme : od_schemeroute_t) (clients : Nat)
    (s : od_server_t) (hs : s.state = OD_SIDLE) :
    (od_mark_reference scheme clients s).state = OD_SIDLE
      ∨ (od_mark_reference scheme clients s).state = OD_SEXPIRE := by
  unfold od_mark_reference
  split_ifs <;> simp [hs]

theorem filter_id_eq_nil (l : List od_server_t) (i : Nat) (h : ∀ t ∈ l, t.id ≠ i) :
    l.filter (fun t => t.id == i) = [] := by
  induction l with
  | nil => rfl
  | cons a l ih =>
    have ha : a.id ≠ i := h a (List.mem_cons_self a l)
    have hl : ∀ t ∈ l, t.id ≠ i := fun t ht => h t (List.mem_cons_of_mem a ht)
    simp [List.filter_cons, ha, ih hl]

theorem any_id_eq_false (l : List od_server_t) (i : Nat) (h : ∀ t ∈ l, t.id ≠ i) :
    l.any (fun t => t.id == i) = false := by
  induction l with
  | nil => rfl
  | cons a l ih =>
    have ha : a.id ≠ i := h a (List.mem_cons_self a l)
    have hl : ∀ t ∈ l, t.id ≠ i := fun t ht => h t (List.mem_cons_of_mem a ht)
    simp [ha, ih hl]

theorem od_serverpool_find_eq_head (pool : od_serverpool_t) (i : Nat) :
    od_serverpool_find pool i
      = ((od_serverpool_servers pool).filter (fun t => t.id == i)).head? := by
  unfold od_serverpool_find
  rw [List.filter_head?]

/-- Well-formedness survives the re-linking of an idle server into EXPIRE. -/
theorem od_serverpool_wf_move (A pre post E : List od_server_t) (s r : od_server_t)
    (hid : r.id = s.id) (hst : r.state = OD_SEXPIRE)
    (h : od_serverpool_wf { active := A, idle := pre ++ s :: post, expire := E }) :
    od_serverpool_wf { active := A, idle := pre ++ post, expire := E ++ [r] } := by
  obtain ⟨hnd, hA, hI, hE⟩ := h
  refine ⟨?_, hA, ?_, ?_⟩
  · refine (List.Perm.nodup_iff ?_).mp hnd
    simp only [od_serverpool_servers, List.map_append, List.map_cons, List.map_nil, hid]
    rw [List.perm_iff_count]
    intro a
    simp only [List.count_append, List.count_cons, List.count_nil]
    omega
  · intro t ht
    apply hI
    simp only [List.mem_append, List.mem_cons] at ht ⊢
    tauto
  · intro t ht
    simp only [List.mem_append, List.mem_singleton] at ht
    rcases ht with ht | ht
    · exact hE t ht
    · rw [ht]
      exact hst

/-- Well-formedness survives a store to an idle server that keeps it IDLE. -/
theorem od_serverpool_wf_store (A pre post E : List od_server_t) (s r : od_server_t)
    (hid : r.id = s.id) (hst : r.state = OD_SIDLE)
    (h : od_serverpool_wf { active := A, idle := pre ++ s :: post, expire := E }) :
    od_serverpool_wf { active := A, idle := pre ++ r :: post, expire := E } := by
  obtain ⟨hnd, hA, hI, hE⟩ := h
  refine ⟨?_, hA, ?_, hE⟩
  · simpa only [od_serverpool_servers, List.map_append, List.map_cons, hid] using hnd
  · intro t ht
    simp only [List.mem_append, List.mem_cons] at ht
    rcases ht with ht | ht | ht
    · exact hI t (by simp [ht])
    · rw [ht]
      exact hst
    · exact hI t (by simp [ht])

/-- The mark traversal of the IDLE bucket of a well-formed pool, started after the
servers `kept` have been visited and left IDLE: every remaining server takes the value
the four rules give it; those that come out in EXPIRE are appended to the EXPIRE
bucket in traversal order and the others keep their place. -/
theorem od_periodic_expire_mark_foldl (rid : Nat) (scheme : od_schemeroute_t)
    (clients : od_clientpool_t) (ps psa : od_serverstat_t) (A : List od_server_t)
    (rest : List od_server_t) :
    ∀ (kept E : List od_server_t),
      od_serverpool_wf { active := A, idle := kept ++ rest, expire := E } →
      rest.foldl (fun a server => od_periodic_expire_mark server a)
          { id := rid, scheme := scheme, client_pool := clients,
            server_pool := { active := A, idle := kept ++ rest, expire := E },
            periodic_stats := ps, periodic_stats_avg := psa }
        = { id := rid, scheme := scheme, client_pool := clients,
            server_pool :=
              { active := A,
                idle := kept ++ (rest.map
                  (od_mark_reference scheme (od_clientpool_total clients))).filter
                    (fun t => t.state != OD_SEXPIRE),
                expire := E ++ (rest.map
                  (od_mark_reference scheme (od_clientpool_total clients))).filter
                    (fun t => t.state == OD_SEXPIRE) },
            periodic_stats := ps, periodic_stats_avg := psa } := by
  induction rest with
  | nil => intro kept E _; simp
  | cons s rest ih =>
    intro kept E hwf
    have hs : s.state = OD_SIDLE := hwf.2.2.1 s (by simp)
    have hsplit := od_periodic_expire_mark_split
      { id := rid, scheme := scheme, client_pool := clients,
        server_pool := { active := A, idle := kept ++ s :: rest, expire := E },
        periodic_stats := ps, periodic_stats_avg := psa } A kept rest E s rfl hwf
    simp only at hsplit
    have hrid := od_mark_reference_id scheme (od_clientpool_total clients) s
    rw [List.foldl_cons, hsplit]
    rcases od_mark_reference_state scheme (od_clientpool_total clients) s hs with hI | hX
    · have hwf1 := od_serverpool_wf_store A kept rest E s _ hrid hI hwf
      have hre : kept ++ od_mark_reference scheme (od_clientpool_total clients) s :: rest
          = (kept ++ [od_mark_reference scheme (od_clientpool_total clients) s]) ++ rest := by
        simp
      rw [hre] at hwf1
      have := ih (kept ++ [od_mark_reference scheme (od_clientpool_total clients) s]) E hwf1
      simp only [hI, reduceCtorEq, if_false, hre, this]
      simp [List.filter_cons, hI]
    · have hwf1 := od_serverpool_wf_move A kept rest E s _ hrid hX hwf
      have := ih kept (E ++ [od_mark_reference scheme (od_clientpool_total clients) s]) hwf1
      simp only [hX, if_true, this]
      simp [List.filter_cons, hX]

/-! ## The sweep loop -/

theorem od_serverpool_set_undef (pool : od_serverpool_t) (server : od_server_t)
    (h : server.state = OD_SUNDEF) : od_serverpool_set pool server OD_SUNDEF = pool := by
  simp [od_serverpool_set, h]

/-- The detach statement of the sweep finds the server already out of every bucket. -/
theorem od_routepool_detach_undef (pool : od_routepool_t) (back : Option Nat)
    (server : od_server_t) (h : server.state = OD_SUNDEF) :
    od_routepool_detach pool back server = pool := by
  obtain ⟨routes⟩ := pool
  simp only [od_routepool_detach, od_serverpool_set_undef _ _ h, od_routepool_t.mk.injEq]
  induction routes with
  | nil => rfl
  | cons r rs ih =>
    rw [List.map_cons, ih]
    split_ifs <;> rfl

theorem od_routepool_count_expire_eq (routes : List od_route_t) :
    od_routepool_count_expire { list := routes }
      = (od_routepool_expire_servers routes).length := by
  induction routes with
  | nil => rfl
  | cons r rs ih =>
    simp only [od_routepool_count_expire, List.map_cons, List.sum_cons,
      od_routepool_expire_servers, List.length_append] at ih ⊢
    rw [ih]
    rfl

theorem od_routepool_next_list_none (routes : List od_route_t)
    (h : od_routepool_expire_servers routes = []) :
    od_routepool_next_list routes OD_SEXPIRE = none
      ∧ routes.map od_route_clear_expire = routes := by
  induction routes with
  | nil => exact ⟨rfl, rfl⟩
  | cons r rs ih =>
    simp only [od_routepool_expire_servers, List.append_eq_nil] at h
    obtain ⟨ih1, ih2⟩ := ih h.2
    obtain ⟨rid, scheme, clients, ⟨A, I, E⟩, ps, psa⟩ := r
    simp only at h
    constructor
    · simp [od_routepool_next_list, od_serverpool_next, h.1, ih1]
    · simp [od_route_clear_expire, h.1, ih2]

/-- A successful `od_routepool_next` for EXPIRE takes the first server the sweep order
lists, gives it state UNDEF, and changes nothing but the EXPIRE bucket it came from. -/
theorem od_routepool_next_list_some (routes : List od_route_t) (s0 : od_server_t)
    (rest : List od_server_t) (h : od_routepool_expire_servers routes = s0 :: rest) :
    ∃ routes1, od_routepool_next_list routes OD_SEXPIRE
        = some ({ s0 with state := OD_SUNDEF }, routes1)
      ∧ od_routepool_expire_servers routes1 = rest
      ∧ routes1.map od_route_clear_expire = routes.map od_route_clear_expire := by
  induction routes with
  | nil => simp [od_routepool_expire_servers] at h
  | cons r rs ih =>
    obtain ⟨rid, scheme, clients, ⟨A, I, E⟩, ps, psa⟩ := r
    simp only [od_routepool_expire_servers] at h
    cases E with
    | nil =>
      simp only [List.nil_append] at h
      obtain ⟨routes1, h1, h2, h3⟩ := ih h
      refine ⟨
        { id := rid, scheme := scheme, client_pool := clients,
          server_pool := { active := A, idle := I, expire := [] },
          periodic_stats := ps, periodic_stats_avg := psa } :: routes1, ?_, ?_, ?_⟩
      · simp only [od_routepool_next_list, od_serverpool_next, h1]
      · simpa [od_routepool_expire_servers] using h2
      · simp [h3]
    | cons e E =>
      simp only [List.cons_append, List.cons.injEq] at h
      obtain ⟨he, hrest⟩ := h
      subst he
      refine ⟨
        { id := rid, scheme := scheme, client_pool := clients,
          server_pool := { active := A, idle := I, expire := E },
          periodic_stats := ps, periodic_stats_avg := psa } :: rs, ?_, ?_, ?_⟩
      · simp only [od_routepool_next_list, od_serverpool_next]
      · simpa [od_routepool_expire_servers] using hrest
      · simp [od_route_clear_expire]

/-- The sweep loop with enough iterations: every EXPIRE bucket ends empty, nothing
else changes in the route pool, and each server that was in EXPIRE goes through the
closing calls, in sweep order. -/
theorem od_periodic_expire_sweep_eq (inst : od_instance_t) (backend : od_backend_t)
    (fuel : Nat) :
    ∀ (routes : List od_route_t) (trace : List od_event_t),
      (od_routepool_expire_servers routes).length ≤ fuel →
      od_periodic_expire_sweep inst backend fuel ({ list := routes }, trace)
        = ({ list := routes.map od_route_clear_expire },
            trace ++ od_sweep_trace inst backend (od_routepool_expire_servers routes)) := by
  induction fuel with
  | zero =>
    intro routes trace h
    have h0 : od_routepool_expire_servers routes = [] :=
      List.length_eq_zero.mp (Nat.le_zero.mp h)
    simp [od_periodic_expire_sweep, h0, (od_routepool_next_list_none routes h0).2,
      od_sweep_trace]
  | succ fuel ih =>
    intro routes trace h
    cases hx : od_routepool_expire_servers routes with
    | nil =>
      obtain ⟨h1, h2⟩ := od_routepool_next_list_none routes hx
      simp [od_periodic_expire_sweep, od_routepool_next, h1, h2, od_sweep_trace]
    | cons s0 rest =>
      obtain ⟨routes1, h1, h2, h3⟩ := od_routepool_next_list_some routes s0 rest hx
      rw [hx] at h
      have hfuel : (od_routepool_expire_servers routes1).length ≤ fuel := by
        rw [h2]
        simpa using h
      simp only [od_periodic_expire_sweep, od_routepool_next, h1]
      rw [od_routepool_detach_undef _ _ _ rfl, ih routes1 _ hfuel, h2, h3]
      simp [od_sweep_trace, od_server_closed, List.append_assoc]

/-- One call of `od_periodic_expire`, phase by phase: the mark traversal of every
route, the emptying of every EXPIRE bucket with the closing calls for the servers in
them, and the removal of the routes the GC predicate selects. -/
theorem od_periodic_expire_eq (inst : od_instance_t) (backend : od_backend_t)
    (router : od_router_t) :
    od_periodic_expire inst backend router
      = ({ route_pool := { list :=
            ((router.route_pool.list.map od_periodic_expire_mark_route).map
              od_route_clear_expire).filter (fun route => !od_route_is_garbage route) } },
          od_sweep_trace inst backend (od_routepool_expire_servers
            (router.route_pool.list.map od_periodic_expire_mark_route))) := by
  unfold od_periodic_expire
  simp only [od_routepool_server_foreach]
  rw [od_periodic_expire_sweep_eq inst backend _ _ []
    (le_of_eq (od_routepool_count_expire_eq _).symm)]
  simp only [od_routepool_gc, List.nil_append]
  rfl

/-! ## The mark phase on a route -/

/-- The mark callback changes nothing of a route but its server pool. -/
theorem od_periodic_expire_mark_frame (server : od_server_t) (route : od_route_t) :
    ∃ pool, od_periodic_expire_mark server route = { route with server_pool := pool } := by
  unfold od_periodic_expire_mark
  split_ifs
  · exact ⟨_, rfl⟩
  · exact ⟨route.server_pool, rfl⟩
  · exact ⟨_, rfl⟩
  · exact ⟨_, rfl⟩

theorem od_periodic_expire_mark_foldl_frame (servers : List od_server_t) :
    ∀ route : od_route_t, ∃ pool,
      servers.foldl (fun a server => od_periodic_expire_mark server a) route
        = { route with server_pool := pool } := by
  induction servers with
  | nil => intro route; exact ⟨route.server_pool, rfl⟩
  | cons s rest ih =>
    intro route
    obtain ⟨pool1, h1⟩ := od_periodic_expire_mark_frame s route
    obtain ⟨pool2, h2⟩ := ih (od_periodic_expire_mark s route)
    refine ⟨pool2, ?_⟩
    rw [List.foldl_cons, h2, h1]

/-- The mark phase changes nothing of a route but its server pool. -/
theorem od_periodic_expire_mark_route_frame (route : od_route_t) :
    ∃ pool, od_periodic_expire_mark_route route = { route with server_pool := pool } :=
  od_periodic_expire_mark_foldl_frame route.server_pool.idle route

/-- The mark phase on a route whose pool is well-formed, bucket by bucket. -/
theorem od_periodic_expire_mark_route_eq (route : od_route_t)
    (hwf : od_serverpool_wf route.server_pool) :
    od_periodic_expire_mark_route route =
      { route with server_pool :=
          { active := route.server_pool.active,
            idle := (route.server_pool.idle.map
              (od_mark_reference route.scheme (od_clientpool_total route.client_pool))).filter
                (fun t => t.state != OD_SEXPIRE),
            expire := route.server_pool.expire ++ (route.server_pool.idle.map
              (od_mark_reference route.scheme (od_clientpool_total route.client_pool))).filter
                (fun t => t.state == OD_SEXPIRE) } } := by
  obtain ⟨rid, scheme, clients, ⟨A, I, E⟩, ps, psa⟩ := route
  have h := od_periodic_expire_mark_foldl rid scheme clients ps psa A I [] E
    (by simpa using hwf)
  simpa [od_periodic_expire_mark_route, od_serverpool_foreach, od_serverpool_bucket] using h

/-- With the time-to-live disabled, the mark phase leaves a route that is not being
drained exactly as it is. -/
theorem od_periodic_expire_mark_route_ttl_zero (route : od_route_t)
    (httl : route.scheme.pool_ttl = 0)
    (hbusy : route.scheme.is_obsolete = false ∨ 0 < od_clientpool_total route.client_pool) :
    od_periodic_expire_mark_route route = route := by
  have hstep : ∀ s, od_periodic_expire_mark s route = route := by
    intro s
    have h1 : (route.scheme.is_obsolete && od_clientpool_total route.client_pool == 0)
        = false := by
      rcases hbusy with h | h
      · simp [h]
      · have : od_clientpool_total route.client_pool ≠ 0 := by omega
        simp [this]
    simp [od_periodic_expire_mark, h1, httl]
  unfold od_periodic_expire_mark_route od_serverpool_foreach
  generalize od_serverpool_bucket route.server_pool OD_SIDLE = servers
  induction servers with
  | nil => rfl
  | cons s rest ih => rw [List.foldl_cons, hstep s, ih]

/-! ## Well-formedness across a tick -/

/-- The mark phase keeps the server pool of a route well-formed. -/
theorem od_periodic_expire_mark_route_wf (route : od_route_t)
    (hwf : od_serverpool_wf route.server_pool) :
    od_serverpool_wf (od_periodic_expire_mark_route route).server_pool := by
  rw [od_periodic_expire_mark_route_eq route hwf]
  obtain ⟨hnd, hA, hI, hE⟩ := hwf
  generalize hf : od_mark_reference route.scheme (od_clientpool_total route.client_pool)
    = f
  have hfid : ∀ s, (f s).id = s.id := by
    intro s
    rw [← hf]
    exact od_mark_reference_id _ _ s
  have hfst : ∀ s ∈ route.server_pool.idle,
      (f s).state = OD_SIDLE ∨ (f s).state = OD_SEXPIRE := by
    intro s hs
    rw [← hf]
    exact od_mark_reference_state _ _ s (hI s hs)
  refine ⟨?_, hA, ?_, ?_⟩
  · refine (List.Perm.nodup_iff ?_).mp hnd
    have hperm := (List.filter_append_perm (fun t : od_server_t => t.state == OD_SEXPIRE)
      (route.server_pool.idle.map f)).map (fun t : od_server_t => t.id)
    have hmapid : ((route.server_pool.idle.map f).map (fun t : od_server_t => t.id))
        = route.server_pool.idle.map (fun t : od_server_t => t.id) := by
      rw [List.map_map]
      apply List.map_congr_left
      intro s _
      exact hfid s
    rw [hmapid] at hperm
    have hcount := fun a => hperm.count_eq a
    simp only [od_serverpool_servers, List.map_append]
    rw [List.perm_iff_count]
    intro a
    have := hcount a
    simp only [List.map_append, List.count_append] at this
    simp only [List.count_append]
    have hbne : (fun t : od_server_t => t.state != OD_SEXPIRE)
        = (fun t : od_server_t => !(t.state == OD_SEXPIRE)) := rfl
    rw [hbne]
    omega
  · intro t ht
    simp only [List.mem_filter, List.mem_map] at ht
    obtain ⟨⟨s, hs, rfl⟩, hne⟩ := ht
    rcases hfst s hs with h | h
    · exact h
    · simp [h] at hne
  · intro t ht
    simp only [List.mem_append, List.mem_filter, List.mem_map] at ht
    rcases ht with ht | ⟨-, hx⟩
    · exact hE t ht
    · simpa using hx

theorem od_route_clear_expire_wf (route : od_route_t)
    (hwf : od_serverpool_wf route.server_pool) :
    od_serverpool_wf (od_route_clear_expire route).server_pool := by
  obtain ⟨hnd, hA, hI, -⟩ := hwf
  refine ⟨?_, hA, hI, ?_⟩
  · simp only [od_route_clear_expire, od_serverpool_servers, List.append_nil]
    simp only [od_serverpool_servers, List.map_append] at hnd
    rw [List.map_append]
    exact (List.nodup_append.mp hnd).1
  · intro t ht
    simp [od_route_clear_expire] at ht

/-- One call of `od_periodic_expire` keeps every server pool well-formed. -/
theorem od_periodic_expire_wf (inst : od_instance_t) (backend : od_backend_t)
    (router : od_router_t)
    (hwf : ∀ r ∈ router.route_pool.list, od_serverpool_wf r.server_pool) :
    ∀ r ∈ (od_periodic_expire inst backend router).1.route_pool.list,
      od_serverpool_wf r.server_pool := by
  rw [od_periodic_expire_eq]
  intro r hr
  simp only [List.mem_filter, List.mem_map, exists_exists_and_eq_and] at hr
  obtain ⟨⟨r0, hr0, rfl⟩, -⟩ := hr
  exact od_route_clear_expire_wf _ (od_periodic_expire_mark_route_wf r0 (hwf r0 hr0))

theorem od_serverpool_wf_idle_inj (pool : od_serverpool_t) (hwf : od_serverpool_wf pool)
    (s t : od_server_t) (hs : s ∈ pool.idle) (ht : t ∈ pool.idle) (hid : s.id = t.id) :
    s = t := by
  have hnd := hwf.1
  simp only [od_serverpool_servers, List.map_append] at hnd
  have h1 := (List.nodup_append.mp (List.nodup_append.mp hnd).1).2.1
  exact List.inj_on_of_nodup_map h1 hs ht hid

/-- In a well-formed pool a server in EXPIRE is in no other bucket. -/
theorem od_serverpool_wf_expire_only (pool : od_serverpool_t) (hwf : od_serverpool_wf pool)
    (s : od_server_t) (hs : s ∈ pool.expire) :
    od_serverpool_state_of { pool with expire := [] } s.id = OD_SUNDEF := by
  have hnd := hwf.1
  simp only [od_serverpool_servers, List.map_append] at hnd
  have hdisj := (List.nodup_append.mp hnd).2.2
  have hsid : s.id ∈ pool.expire.map (fun t => t.id) := List.mem_map.mpr ⟨s, hs, rfl⟩
  have hA : ∀ t ∈ pool.active, t.id ≠ s.id := by
    intro t ht heq
    refine hdisj ?_ hsid
    rw [← heq]
    exact List.mem_append_left _ (List.mem_map.mpr ⟨t, ht, rfl⟩)
  have hI : ∀ t ∈ pool.idle, t.id ≠ s.id := by
    intro t ht heq
    refine hdisj ?_ hsid
    rw [← heq]
    exact List.mem_append_right _ (List.mem_map.mpr ⟨t, ht, rfl⟩)
  simp [od_serverpool_state_of, any_id_eq_false _ _ hA, any_id_eq_false _ _ hI]

/-! ## Membership in the sweep -/

theorem mem_od_routepool_expire_servers (routes : List od_route_t) (route : od_route_t)
    (s : od_server_t) (hr : route ∈ routes) (hs : s ∈ route.server_pool.expire) :
    s ∈ od_routepool_expire_servers routes := by
  induction routes with
  | nil => cases hr
  | cons r rs ih =>
    simp only [od_routepool_expire_servers, List.mem_append]
    rcases List.mem_cons.mp hr with h | h
    · left
      rw [← h]
      exact hs
    · right
      exact ih h

theorem mem_od_routepool_expire_servers_iff (routes : List od_route_t) (s : od_server_t) :
    s ∈ od_routepool_expire_servers routes
      ↔ ∃ route ∈ routes, s ∈ route.server_pool.expire := by
  induction routes with
  | nil => simp [od_routepool_expire_servers]
  | cons r rs ih => simp [od_routepool_expire_servers, ih]

/-- Every server of a sweep is handed to `od_backend_close`. -/
theorem od_sweep_trace_close (inst : od_instance_t) (backend : od_backend_t)
    (servers : List od_server_t) (s : od_server_t) (hs : s ∈ servers) :
    od_event_t.od_backend_close (od_server_closed s)
      ∈ od_sweep_trace inst backend servers := by
  induction servers with
  | nil => cases hs
  | cons x xs ih =>
    simp only [od_sweep_trace, List.mem_append]
    rcases List.mem_cons.mp hs with h | h
    · left
      rw [← h]
      simp [od_periodic_expire_close]
    · right
      exact ih h

/-- Every close call of a sweep is for one of its servers. -/
theorem od_sweep_trace_close_inv (inst : od_instance_t) (backend : od_backend_t)
    (servers : List od_server_t) (c : od_server_t)
    (hc : od_event_t.od_backend_close c ∈ od_sweep_trace inst backend servers) :
    ∃ s ∈ servers, c = od_server_closed s := by
  induction servers with
  | nil => simp [od_sweep_trace] at hc
  | cons x xs ih =>
    simp only [od_sweep_trace, List.mem_append] at hc
    rcases hc with h | h
    · refine ⟨x, List.mem_cons_self x xs, ?_⟩
      unfold od_periodic_expire_close at h
      split_ifs at h <;> simpa using h
    · obtain ⟨s, hs, hcs⟩ := ih h
      exact ⟨s, List.mem_cons_of_mem x hs, hcs⟩

theorem od_server_closed_mark_reference (scheme : od_schemeroute_t) (clients : Nat)
    (s : od_server_t) :
    od_server_closed (od_mark_reference scheme clients s) = od_server_closed s := by
  unfold od_mark_reference od_server_closed
  split_ifs <;> rfl

/-! ## Claims on the mark callback -/

/-- C1: one call of od_periodic_expire_mark on an IDLE server of a well-formed route
does what the ordered four-rule reference does.  The server object, looked up in the
pool afterwards, has the field values the four rules give it and is linked in the
bucket its new state names; every other server object is as before (same value, same
bucket) and the ACTIVE bucket and the other fields of the route are untouched.  In
particular, on an obsolete route that still has clients the server is moved to EXPIRE
if and only if pool_ttl > 0 and idle_time >= pool_ttl. -/
theorem od_periodic_expire_mark_four_rules (route : od_route_t) (server : od_server_t)
    (hwf : od_serverpool_wf route.server_pool)
    (hmem : server ∈ route.server_pool.idle) :
    od_serverpool_find (od_periodic_expire_mark server route).server_pool server.id
        = some (od_mark_reference route.scheme (od_clientpool_total route.client_pool) server)
      ∧ od_serverpool_state_of (od_periodic_expire_mark server route).server_pool server.id
        = (od_mark_reference route.scheme (od_clientpool_total route.client_pool)
            server).state
      ∧ (∀ i, i ≠ server.id →
          od_serverpool_find (od_periodic_expire_mark server route).server_pool i
              = od_serverpool_find route.server_pool i
            ∧ od_serverpool_state_of (od_periodic_expire_mark server route).server_pool i
              = od_serverpool_state_of route.server_pool i)
      ∧ (od_periodic_expire_mark server route).server_pool.active = route.server_pool.active
      ∧ od_periodic_expire_mark server route
        = { route with server_pool := (od_periodic_expire_mark server route).server_pool }
      ∧ (route.scheme.is_obsolete = true → 0 < od_clientpool_total route.client_pool →
          (od_serverpool_state_of (od_periodic_expire_mark server route).server_pool
              server.id = OD_SEXPIRE
            ↔ 0 < route.scheme.pool_ttl ∧ route.scheme.pool_ttl ≤ server.idle_time)) := by
  obtain ⟨rid, scheme, clients, ⟨A, I, E⟩, ps, psa⟩ := route
  simp only at hwf hmem ⊢
  obtain ⟨pre, post, hidle⟩ := List.append_of_mem hmem
  subst hidle
  have hsplit := od_periodic_expire_mark_split
    { id := rid, scheme := scheme, client_pool := clients,
      server_pool := { active := A, idle := pre ++ server :: post, expire := E },
      periodic_stats := ps, periodic_stats_avg := psa } A pre post E server rfl hwf
  simp only at hsplit
  have hs : server.state = OD_SIDLE := hwf.2.2.1 server hmem
  obtain ⟨hA, hpre, hpost, hE⟩ := od_serverpool_wf_split A pre post E server hwf
  have hrid := od_mark_reference_id scheme (od_clientpool_total clients) server
  have hrst := od_mark_reference_state scheme (od_clientpool_total clients) server hs
  have hbusy : scheme.is_obsolete = true → 0 < od_clientpool_total clients →
      ((od_mark_reference scheme (od_clientpool_total clients) server).state = OD_SEXPIRE
        ↔ 0 < scheme.pool_ttl ∧ scheme.pool_ttl ≤ server.idle_time) := by
    intro _ hc
    unfold od_mark_reference
    have hc0 : od_clientpool_total clients ≠ 0 := by omega
    split_ifs with h1 h2 h3
    · exact absurd h1.2 hc0
    · simp [hs, h2]
    · simp only [hs]
      constructor
      · intro h
        cases h
      · intro h
        omega
    · simp only [true_iff]
      omega
  generalize od_mark_reference scheme (od_clientpool_total clients) server
    = ref at hsplit hrid hrst hbusy ⊢
  rw [hsplit]
  simp only
  have hstate : od_serverpool_state_of
      (if ref.state = OD_SEXPIRE then
        { active := A, idle := pre ++ post, expire := E ++ [ref] }
      else { active := A, idle := pre ++ ref :: post, expire := E }) server.id
        = ref.state := by
    rcases hrst with hI | hX
    · simp [hI, od_serverpool_state_of, any_id_eq_false _ _ hA, hrid]
    · simp [hX, od_serverpool_state_of, any_id_eq_false _ _ hA, any_id_eq_false _ _ hpre,
        any_id_eq_false _ _ hpost, hrid]
  refine ⟨?_, hstate, ?_, ?_, trivial, ?_⟩
  · rw [od_serverpool_find_eq_head]
    rcases hrst with hI | hX
    · simp [hI, od_serverpool_servers, List.filter_append, List.filter_cons,
        filter_id_eq_nil _ _ hA, filter_id_eq_nil _ _ hpre, hrid]
    · simp [hX, od_serverpool_servers, List.filter_append, List.filter_cons,
        filter_id_eq_nil _ _ hA, filter_id_eq_nil _ _ hpre, filter_id_eq_nil _ _ hpost,
        filter_id_eq_nil _ _ hE, hrid]
  · intro i hi
    have hi1 : (server.id == i) = false := by simpa using fun h => hi h.symm
    have hi2 : (ref.id == i) = false := by rw [hrid]; exact hi1
    constructor
    · rw [od_serverpool_find_eq_head, od_serverpool_find_eq_head]
      rcases hrst with hI | hX
      · simp [hI, od_serverpool_servers, List.filter_append, List.filter_cons, hi1, hi2]
      · simp [hX, od_serverpool_servers, List.filter_append, List.filter_cons, hi1, hi2]
    · rcases hrst with hI | hX
      · simp [hI, od_serverpool_state_of, hi1, hi2]
      · simp [hX, od_serverpool_state_of, hi1, hi2]
  · split_ifs <;> rfl
  · intro hob hc
    rw [hstate]
    exact hbusy hob hc

/-- C1, at a concrete input: on the obsolete route with one client and pool_ttl = 3, the
IDLE server with idle_time = 3 is moved to EXPIRE with its idle_time unchanged. -/
theorem od_periodic_expire_mark_four_rules_witness :
    od_serverpool_wf od_route_busy.server_pool
      ∧ od_server_example 12 OD_SIDLE 1 3 ∈ od_route_busy.server_pool.idle
      ∧ od_serverpool_find
          (od_periodic_expire_mark (od_server_example 12 OD_SIDLE 1 3)
            od_route_busy).server_pool 12
        = some (od_server_example 12 OD_SEXPIRE 1 3) :=
  ⟨by decide, by decide,
    (od_periodic_expire_mark_four_rules od_route_busy (od_server_example 12 OD_SIDLE 1 3)
      (by decide) (by decide)).1⟩

/-! ## Claims on a tick of the expiry engine -/

/-- C2: for a route that is obsolete, has no clients and whose servers are all IDLE
(any number of them, any pool_ttl, any idle times), a single call of
od_periodic_expire hands every one of its servers to od_backend_close (detached:
idle time 0, no route, state UNDEF), and the route pool GC at the end of the same call
removes the route: no route with its identifier is left in the route pool. -/
theorem od_periodic_expire_obsolete_drain (inst : od_instance_t) (backend : od_backend_t)
    (router : od_router_t) (route : od_route_t)
    (hmem : route ∈ router.route_pool.list)
    (hids : (router.route_pool.list.map (fun r => r.id)).Nodup)
    (hwf : od_serverpool_wf route.server_pool)
    (hobs : route.scheme.is_obsolete = true)
    (hcl : od_clientpool_total route.client_pool = 0)
    (hact : route.server_pool.active = [])
    (hexp : route.server_pool.expire = []) :
    (∀ s ∈ route.server_pool.idle,
        od_event_t.od_backend_close (od_server_closed s)
          ∈ (od_periodic_expire inst backend router).2)
      ∧ (∀ r ∈ (od_periodic_expire inst backend router).1.route_pool.list,
          r.id ≠ route.id) := by
  have href : ∀ s, od_mark_reference route.scheme (od_clientpool_total route.client_pool) s
      = { s with state := OD_SEXPIRE } := by
    intro s
    simp [od_mark_reference, hobs, hcl]
  have hmark := od_periodic_expire_mark_route_eq route hwf
  have hfun : od_mark_reference route.scheme (od_clientpool_total route.client_pool)
      = fun s => { s with state := OD_SEXPIRE } := funext href
  rw [hfun, hact, hexp] at hmark
  have hfilter1 : ((route.server_pool.idle.map
      (fun s : od_server_t => { s with state := OD_SEXPIRE })).filter
        (fun t => t.state != OD_SEXPIRE)) = [] := by
    rw [List.filter_eq_nil_iff]
    intro t ht
    obtain ⟨s, -, rfl⟩ := List.mem_map.mp ht
    simp
  have hfilter2 : ((route.server_pool.idle.map
      (fun s : od_server_t => { s with state := OD_SEXPIRE })).filter
        (fun t => t.state == OD_SEXPIRE))
      = route.server_pool.idle.map
          (fun s : od_server_t => { s with state := OD_SEXPIRE }) := by
    rw [List.filter_eq_self]
    intro t ht
    obtain ⟨s, -, rfl⟩ := List.mem_map.mp ht
    simp
  rw [hfilter1, hfilter2, List.nil_append] at hmark
  rw [od_periodic_expire_eq]
  constructor
  · intro s hs
    have h1 : ({ s with state := OD_SEXPIRE } : od_server_t)
        ∈ (od_periodic_expire_mark_route route).server_pool.expire := by
      rw [hmark]
      exact List.mem_map.mpr ⟨s, hs, rfl⟩
    have h2 := mem_od_routepool_expire_servers
      (router.route_pool.list.map od_periodic_expire_mark_route) _ _
      (List.mem_map.mpr ⟨route, hmem, rfl⟩) h1
    have h3 := od_sweep_trace_close inst backend _ _ h2
    exact h3
  · intro r hr heq
    simp only [List.mem_filter, List.mem_map, exists_exists_and_eq_and] at hr
    obtain ⟨⟨r2, hr2, hr2eq⟩, hkeep⟩ := hr
    obtain ⟨pool2, hframe⟩ := od_periodic_expire_mark_route_frame r2
    have hid : r2.id = route.id := by
      rw [← heq, ← hr2eq, hframe]
      rfl
    have hsame : r2 = route := List.inj_on_of_nodup_map hids hr2 hmem hid
    rw [hsame, hmark] at hr2eq
    rw [← hr2eq] at hkeep
    simp [od_route_is_garbage, od_route_clear_expire, od_serverpool_total, hobs, hcl,
      od_serverpool_t.count_active, od_serverpool_t.count_idle,
      od_serverpool_t.count_expire] at hkeep

/-- C2, at scenario S2 (n = 2): the hypotheses hold there and both servers of the
obsolete route are closed by the tick. -/
theorem od_periodic_expire_obsolete_drain_witness :
    od_route_s2 ∈ od_router_s2.route_pool.list
      ∧ (od_router_s2.route_pool.list.map (fun r => r.id)).Nodup
      ∧ od_serverpool_wf od_route_s2.server_pool
      ∧ od_event_t.od_backend_close (od_server_closed (od_server_example 21 OD_SIDLE 2 0))
          ∈ (od_periodic_expire od_instance_example od_backend_example od_router_s2).2
      ∧ od_event_t.od_backend_close (od_server_closed (od_server_example 22 OD_SIDLE 2 5))
          ∈ (od_periodic_expire od_instance_example od_backend_example od_router_s2).2
      ∧ od_route_s2.id
          ∉ (od_periodic_expire od_instance_example od_backend_example
              od_router_s2).1.route_pool.list.map (fun r => r.id) :=
  have h := od_periodic_expire_obsolete_drain od_instance_example od_backend_example
    od_router_s2 od_route_s2 (by decide) (by decide) (by decide) rfl rfl rfl rfl
  ⟨by decide, by decide, by decide, h.1 _ (by decide), h.1 _ (by decide),
    fun hin => by
      obtain ⟨r, hr, hid⟩ := List.mem_map.mp hin
      exact h.2 r hr hid⟩

/-- One tick of scenario S1 while the idle time is below the time-to-live. -/
theorem od_periodic_expire_s1_step (inst : od_instance_t) (backend : od_backend_t)
    (rid version clients sid : Nat) (back : Option Nat) (stats ps psa : od_serverstat_t)
    (k : Nat) (hk : k < 3) :
    od_periodic_expire inst backend
        (od_router_s1 rid version clients ps psa [od_server_s1 sid back stats k])
      = (od_router_s1 rid version clients ps psa [od_server_s1 sid back stats (k + 1)],
          []) := by
  simp [od_periodic_expire_eq, od_router_s1, od_route_s1, od_server_s1,
    od_periodic_expire_mark_route, od_serverpool_foreach, od_serverpool_bucket,
    od_periodic_expire_mark, od_clientpool_total, od_serverpool_store, hk,
    od_route_clear_expire, od_route_is_garbage, od_routepool_expire_servers,
    od_sweep_trace]

/-- One tick of scenario S1 once the idle time has reached the time-to-live. -/
theorem od_periodic_expire_s1_last (inst : od_instance_t) (backend : od_backend_t)
    (rid version clients sid : Nat) (back : Option Nat) (stats ps psa : od_serverstat_t) :
    od_periodic_expire inst backend
        (od_router_s1 rid version clients ps psa [od_server_s1 sid back stats 3])
      = (od_router_s1 rid version clients ps psa [],
          od_periodic_expire_close inst backend
            (od_server_closed (od_server_s1 sid back stats 3))) := by
  simp [od_periodic_expire_eq, od_router_s1, od_route_s1, od_server_s1,
    od_periodic_expire_mark_route, od_serverpool_foreach, od_serverpool_bucket,
    od_periodic_expire_mark, od_clientpool_total, od_serverpool_set, od_serverpool_unlink,
    od_route_clear_expire, od_route_is_garbage, od_routepool_expire_servers,
    od_sweep_trace, od_server_closed]

/-- C3, as stated, fails on scenario S1: after 3 calls of od_periodic_expire the
server is still IDLE (with idle_time 3), count_idle is 1 and not 0, and nothing has been
closed. -/
theorem od_periodic_expire_s1_three_ticks_counterexample :
    ((od_periodic_expire_ticks od_instance_example od_backend_example 3
        (od_router_s1 3 0 0 od_serverstat_zero od_serverstat_zero
          [od_server_s1 31 (some 3) od_serverstat_zero 0], [])).1.route_pool.list.map
      (fun r => (r.server_pool.count_idle,
        r.server_pool.idle.map (fun s => (s.state, s.idle_time))))
        = [(1, [(OD_SIDLE, 3)])])
      ∧ (od_periodic_expire_ticks od_instance_example od_backend_example 3
        (od_router_s1 3 0 0 od_serverstat_zero od_serverstat_zero
          [od_server_s1 31 (some 3) od_serverstat_zero 0], [])).2 = []
      ∧ ¬ ((od_periodic_expire_ticks od_instance_example od_backend_example 3
        (od_router_s1 3 0 0 od_serverstat_zero od_serverstat_zero
          [od_server_s1 31 (some 3) od_serverstat_zero 0], [])).1.route_pool.list.map
            (fun r => r.server_pool.count_idle) = [0]) := by
  decide

/-- C3, amended: in scenario S1 (route not obsolete, pool_ttl = 3, one IDLE server with
idle_time = 0, no activity) three calls of od_periodic_expire bring idle_time to 3 and
leave the server IDLE (count_idle = 1, nothing closed); the fourth call moves it to
EXPIRE and the sweep closes it, after which count_idle = 0 and the route is still in
the pool. -/
theorem od_periodic_expire_s1_idle_expiry (inst : od_instance_t) (backend : od_backend_t)
    (rid version clients sid : Nat) (back : Option Nat) (stats ps psa : od_serverstat_t) :
    od_periodic_expire_ticks inst backend 3
        (od_router_s1 rid version clients ps psa [od_server_s1 sid back stats 0], [])
        = (od_router_s1 rid version clients ps psa [od_server_s1 sid back stats 3], [])
      ∧ (od_route_s1 rid version clients ps psa
          [od_server_s1 sid back stats 3]).server_pool.count_idle = 1
      ∧ od_periodic_expire_ticks inst backend 4
        (od_router_s1 rid version clients ps psa [od_server_s1 sid back stats 0], [])
        = (od_router_s1 rid version clients ps psa [],
            od_periodic_expire_close inst backend
              (od_server_closed (od_server_s1 sid back stats 3)))
      ∧ (od_route_s1 rid version clients ps psa []).server_pool.count_idle = 0
      ∧ od_event_t.od_backend_close (od_server_closed (od_server_s1 sid back stats 3))
          ∈ (od_periodic_expire_ticks inst backend 4
              (od_router_s1 rid version clients ps psa [od_server_s1 sid back stats 0],
                [])).2 := by
  have h0 := od_periodic_expire_s1_step inst backend rid version clients sid back stats
    ps psa 0 (by decide)
  have h1 := od_periodic_expire_s1_step inst backend rid version clients sid back stats
    ps psa 1 (by decide)
  have h2 := od_periodic_expire_s1_step inst backend rid version clients sid back stats
    ps psa 2 (by decide)
  have h3 := od_periodic_expire_s1_last inst backend rid version clients sid back stats
    ps psa
  have e3 : od_periodic_expire_ticks inst backend 3
      (od_router_s1 rid version clients ps psa [od_server_s1 sid back stats 0], [])
      = (od_router_s1 rid version clients ps psa [od_server_s1 sid back stats 3], []) := by
    simp [od_periodic_expire_ticks, h0, h1, h2]
  have e4 : od_periodic_expire_ticks inst backend 4
      (od_router_s1 rid version clients ps psa [od_server_s1 sid back stats 0], [])
      = (od_router_s1 rid version clients ps psa [],
          od_periodic_expire_close inst backend
            (od_server_closed (od_server_s1 sid back stats 3))) := by
    simp [od_periodic_expire_ticks, h0, h1, h2, h3]
  refine ⟨e3, rfl, e4, rfl, ?_⟩
  rw [e4]
  simp [od_periodic_expire_close]

/-- C4: a server that is IDLE in a route before one call of od_periodic_expire and
still IDLE in that route after it (the same object, nothing else having touched it) has
its idle_time increased by exactly 1 when the route's pool_ttl > 0 and unchanged when
pool_ttl = 0; its other fields are as before. -/
theorem od_periodic_expire_idle_time_step (inst : od_instance_t) (backend : od_backend_t)
    (router : od_router_t) (route route1 : od_route_t) (s s1 : od_server_t)
    (hmem : route ∈ router.route_pool.list)
    (hids : (router.route_pool.list.map (fun r => r.id)).Nodup)
    (hwf : od_serverpool_wf route.server_pool)
    (hs : s ∈ route.server_pool.idle)
    (hmem1 : route1 ∈ (od_periodic_expire inst backend router).1.route_pool.list)
    (hid1 : route1.id = route.id)
    (hs1 : s1 ∈ route1.server_pool.idle)
    (hsid : s1.id = s.id) :
    (0 < route.scheme.pool_ttl → s1.idle_time = s.idle_time + 1)
      ∧ (route.scheme.pool_ttl = 0 → s1.idle_time = s.idle_time)
      ∧ s1.state = OD_SIDLE ∧ s1.route = s.route ∧ s1.stats = s.stats := by
  rw [od_periodic_expire_eq] at hmem1
  simp only [List.mem_filter, List.mem_map, exists_exists_and_eq_and] at hmem1
  obtain ⟨⟨r2, hr2, hr2eq⟩, -⟩ := hmem1
  obtain ⟨pool2, hframe⟩ := od_periodic_expire_mark_route_frame r2
  have hid : r2.id = route.id := by
    rw [← hid1, ← hr2eq, hframe]
    rfl
  have hsame : r2 = route := List.inj_on_of_nodup_map hids hr2 hmem hid
  rw [hsame, od_periodic_expire_mark_route_eq route hwf] at hr2eq
  rw [← hr2eq] at hs1
  simp only [od_route_clear_expire, List.mem_filter, List.mem_map] at hs1
  obtain ⟨⟨s2, hs2, hs2eq⟩, hne⟩ := hs1
  have hs2id : s2.id = s.id := by
    rw [← hsid, ← hs2eq, od_mark_reference_id]
  have hs2s : s2 = s := od_serverpool_wf_idle_inj _ hwf s2 s hs2 hs hs2id
  rw [hs2s] at hs2eq
  have hst : s.state = OD_SIDLE := hwf.2.2.1 s hs
  rw [← hs2eq] at hne ⊢
  unfold od_mark_reference at hne ⊢
  split_ifs at hne ⊢ with h1 h2 h3
  · simp at hne
  · refine ⟨fun h => ?_, fun _ => rfl, hst, rfl, rfl⟩
    omega
  · refine ⟨fun _ => rfl, fun h => ?_, hst, rfl, rfl⟩
    omega
  · simp at hne

/-- C4, at a concrete input: on the busy route (pool_ttl = 3) the IDLE server with
idle_time = 1 is still IDLE after one tick, with idle_time = 2. -/
theorem od_periodic_expire_idle_time_step_witness :
    od_route_busy ∈ od_router_s2.route_pool.list
      ∧ od_server_example 11 OD_SIDLE 1 1 ∈ od_route_busy.server_pool.idle
      ∧ (od_server_example 11 OD_SIDLE 1 2).idle_time
        = (od_server_example 11 OD_SIDLE 1 1).idle_time + 1 :=
  ⟨by decide, by decide,
    (od_periodic_expire_idle_time_step od_instance_example od_backend_example od_router_s2
      od_route_busy
      (od_route_example 1 { is_obsolete := true, pool_ttl := 3, version := 0 } 1
        { active := [od_server_example 10 OD_SACTIVE 1 0]
          idle := [od_server_example 11 OD_SIDLE 1 2]
          expire := [] })
      (od_server_example 11 OD_SIDLE 1 1) (od_server_example 11 OD_SIDLE 1 2)
      (by decide) (by decide) (by decide) (by decide) (by decide) rfl (by decide) rfl).1
      (by decide)⟩

/-- One tick keeps a route with the time-to-live disabled that is not being drained:
its image, with the same identifier, scheme, clients and IDLE and ACTIVE buckets, is
in the route pool afterwards. -/
theorem od_periodic_expire_ttl_disabled_step (inst : od_instance_t)
    (backend : od_backend_t) (router : od_router_t) (route : od_route_t)
    (hmem : route ∈ router.route_pool.list)
    (httl : route.scheme.pool_ttl = 0)
    (hbusy : route.scheme.is_obsolete = false ∨ 0 < od_clientpool_total route.client_pool) :
    od_route_clear_expire route
      ∈ (od_periodic_expire inst backend router).1.route_pool.list := by
  rw [od_periodic_expire_eq]
  simp only [List.mem_filter, List.mem_map, exists_exists_and_eq_and]
  refine ⟨⟨route, hmem, ?_⟩, ?_⟩
  · rw [od_periodic_expire_mark_route_ttl_zero route httl hbusy]
  · rcases hbusy with h | h
    · simp [od_route_is_garbage, od_route_clear_expire, h]
    · have : od_clientpool_total route.client_pool ≠ 0 := by omega
      simp [od_route_is_garbage, od_route_clear_expire, this]

/-- C5: for a route with pool_ttl = 0 that is not obsolete or has at least one client,
and for every number n of consecutive od_periodic_expire ticks, the route is still in
the route pool after the n ticks (same identifier, scheme and clients) and its IDLE
bucket is exactly as before: every IDLE server is still IDLE with its idle_time (and
every other field) unchanged. -/
theorem od_periodic_expire_ttl_disabled (inst : od_instance_t) (backend : od_backend_t)
    (n : Nat) (router : od_router_t) (trace : List od_event_t) (route : od_route_t)
    (hmem : route ∈ router.route_pool.list)
    (httl : route.scheme.pool_ttl = 0)
    (hbusy : route.scheme.is_obsolete = false ∨ 0 < od_clientpool_total route.client_pool) :
    ∃ route1 ∈ (od_periodic_expire_ticks inst backend n (router, trace)).1.route_pool.list,
      route1.id = route.id ∧ route1.scheme = route.scheme
        ∧ route1.client_pool = route.client_pool
        ∧ route1.server_pool.idle = route.server_pool.idle
        ∧ route1.server_pool.active = route.server_pool.active := by
  induction n generalizing router trace route with
  | zero => exact ⟨route, hmem, rfl, rfl, rfl, rfl, rfl⟩
  | succ n ih =>
    have hstep := od_periodic_expire_ttl_disabled_step inst backend router route hmem httl
      hbusy
    obtain ⟨route1, h1, h2, h3, h4, h5, h6⟩ :=
      ih (od_periodic_expire inst backend router).1
        (trace ++ (od_periodic_expire inst backend router).2)
        (od_route_clear_expire route) hstep httl hbusy
    exact ⟨route1, h1, h2, h3, h4, h5, h6⟩

/-- C5, at scenarios S6 (idle_time = 1000, not obsolete) and S3 (obsolete, one client):
the hypotheses hold and after 5 ticks, respectively 1 tick, the route is in the pool
with its IDLE bucket unchanged. -/
theorem od_periodic_expire_ttl_disabled_witness :
    (od_route_s6 ∈ od_router_s6.route_pool.list
      ∧ od_route_s6.scheme.pool_ttl = 0
      ∧ od_route_s6.scheme.is_obsolete = false
      ∧ ∃ route1 ∈ (od_periodic_expire_ticks od_instance_example od_backend_example 5
            (od_router_s6, [])).1.route_pool.list,
          route1.id = 6 ∧ route1.scheme = od_route_s6.scheme
            ∧ route1.client_pool = od_route_s6.client_pool
            ∧ route1.server_pool.idle = [od_server_example 61 OD_SIDLE 6 1000]
            ∧ route1.server_pool.active = [])
      ∧ (od_route_s3 ∈ od_router_s6.route_pool.list
        ∧ od_route_s3.scheme.is_obsolete = true
        ∧ 0 < od_clientpool_total od_route_s3.client_pool
        ∧ ∃ route1 ∈ (od_periodic_expire_ticks od_instance_example od_backend_example 1
              (od_router_s6, [])).1.route_pool.list,
            route1.id = 3 ∧ route1.scheme = od_route_s3.scheme
              ∧ route1.client_pool = od_route_s3.client_pool
              ∧ route1.server_pool.idle = [od_server_example 31 OD_SIDLE 3 0]
              ∧ route1.server_pool.active = []) :=
  ⟨⟨by decide, rfl, rfl,
      od_periodic_expire_ttl_disabled od_instance_example od_backend_example 5
        od_router_s6 [] od_route_s6 (by decide) rfl (Or.inl rfl)⟩,
    ⟨by decide, rfl, by decide,
      od_periodic_expire_ttl_disabled od_instance_example od_backend_example 1
        od_router_s6 [] od_route_s3 (by decide) rfl (Or.inr (by decide))⟩⟩

/-- C6: after one call of od_periodic_expire, from any pool state, the EXPIRE bucket of
every route is empty; the servers handed to od_backend_close are exactly those that
were in EXPIRE after the mark phase (placed there by it or left from before), each with
idle_time 0, state UNDEF and no route; and when the server pools were well-formed,
such a server is in no bucket of its route after the sweep and every server still in a
pool has state IDLE or ACTIVE. -/
theorem od_periodic_expire_state_partition (inst : od_instance_t) (backend : od_backend_t)
    (router : od_router_t) :
    (∀ r ∈ (od_periodic_expire inst backend router).1.route_pool.list,
        r.server_pool.expire = [])
      ∧ (∀ s ∈ od_routepool_expire_servers
            (od_routepool_server_foreach router.route_pool OD_SIDLE
              od_periodic_expire_mark).list,
          od_event_t.od_backend_close (od_server_closed s)
            ∈ (od_periodic_expire inst backend router).2)
      ∧ (∀ c, od_event_t.od_backend_close c ∈ (od_periodic_expire inst backend router).2 →
          c.idle_time = 0 ∧ c.state = OD_SUNDEF ∧ c.route = none
            ∧ ∃ s ∈ od_routepool_expire_servers
                (od_routepool_server_foreach router.route_pool OD_SIDLE
                  od_periodic_expire_mark).list, c = od_server_closed s)
      ∧ ((∀ r ∈ router.route_pool.list, od_serverpool_wf r.server_pool) →
          (∀ r ∈ router.route_pool.list,
            ∀ s ∈ (od_periodic_expire_mark_route r).server_pool.expire,
              od_serverpool_state_of
                (od_route_clear_expire (od_periodic_expire_mark_route r)).server_pool s.id
                  = OD_SUNDEF)
            ∧ (∀ r ∈ (od_periodic_expire inst backend router).1.route_pool.list,
                ∀ s ∈ od_serverpool_servers r.server_pool,
                  s.state = OD_SIDLE ∨ s.state = OD_SACTIVE)) := by
  have hmarked : (od_routepool_server_foreach router.route_pool OD_SIDLE
      od_periodic_expire_mark).list
        = router.route_pool.list.map od_periodic_expire_mark_route := rfl
  rw [hmarked, od_periodic_expire_eq]
  refine ⟨?_, ?_, ?_, ?_⟩
  · intro r hr
    simp only [List.mem_filter, List.mem_map, exists_exists_and_eq_and] at hr
    obtain ⟨⟨r0, -, rfl⟩, -⟩ := hr
    rfl
  · intro s hs
    exact od_sweep_trace_close inst backend _ s hs
  · intro c hc
    obtain ⟨s, hs, rfl⟩ := od_sweep_trace_close_inv inst backend _ c hc
    exact ⟨rfl, rfl, rfl, s, hs, rfl⟩
  · intro hwf
    constructor
    · intro r hr s hs
      exact od_serverpool_wf_expire_only _
        (od_periodic_expire_mark_route_wf r (hwf r hr)) s hs
    · intro r hr s hs
      have hwf1 := od_periodic_expire_wf inst backend router hwf
      rw [od_periodic_expire_eq] at hwf1
      have hr1 := hr
      simp only [List.mem_filter, List.mem_map, exists_exists_and_eq_and] at hr1
      obtain ⟨⟨r0, -, hr0⟩, -⟩ := hr1
      have hexp : r.server_pool.expire = [] := by
        rw [← hr0]
        rfl
      obtain ⟨-, hA, hI, -⟩ := hwf1 r hr
      simp only [od_serverpool_servers, hexp, List.append_nil, List.mem_append] at hs
      rcases hs with hs | hs
      · exact Or.inr (hA s hs)
      · exact Or.inl (hI s hs)

/-- C6, at a concrete input: the router with the mixed route has well-formed pools;
after one tick the server left in EXPIRE (73) and the IDLE server at its time-to-live
(71) have been closed and the servers still pooled are IDLE or ACTIVE. -/
theorem od_periodic_expire_state_partition_witness :
    (∀ r ∈ od_router_mixed.route_pool.list, od_serverpool_wf r.server_pool)
      ∧ od_event_t.od_backend_close (od_server_closed (od_server_example 73 OD_SEXPIRE 7 9))
          ∈ (od_periodic_expire od_instance_example od_backend_example od_router_mixed).2
      ∧ od_event_t.od_backend_close (od_server_closed (od_server_example 71 OD_SEXPIRE 7 2))
          ∈ (od_periodic_expire od_instance_example od_backend_example od_router_mixed).2
      ∧ (∀ r ∈ (od_periodic_expire od_instance_example od_backend_example
            od_router_mixed).1.route_pool.list,
          ∀ s ∈ od_serverpool_servers r.server_pool,
            s.state = OD_SIDLE ∨ s.state = OD_SACTIVE) :=
  have h := od_periodic_expire_state_partition od_instance_example od_backend_example
    od_router_mixed
  ⟨by decide, h.2.1 _ (by decide), h.2.1 _ (by decide), (h.2.2.2 (by decide)).2⟩

/-! ## Machine arithmetic -/

theorem u64_sub_of_le (a b : Nat) (hle : b ≤ a) (ha : a < 2 ^ 64) : u64_sub a b = a - b := by
  unfold u64_sub
  have h1 : ((a : Int) - (b : Int)) = ((a - b : Nat) : Int) := by omega
  rw [h1]
  have h2 : (((a - b : Nat) : Int) % (2 ^ 64 : Int)) = ((a - b : Nat) : Int) := by
    apply Int.emod_eq_of_lt <;> omega
  rw [h2]
  simp

theorem u64_sub_lt (a b : Nat) : u64_sub a b < 2 ^ 64 := by
  unfold u64_sub
  have h1 := Int.emod_lt_of_pos ((a : Int) - (b : Int)) (by norm_num : (0 : Int) < 2 ^ 64)
  have h2 := Int.emod_nonneg ((a : Int) - (b : Int)) (by norm_num : (2 ^ 64 : Int) ≠ 0)
  omega

theorem i64_of_u64_of_lt (a : Nat) (ha : a < 2 ^ 63) : i64_of_u64 a = (a : Int) := by
  unfold i64_of_u64
  have h : a % 2 ^ 64 = a := Nat.mod_eq_of_lt (by omega)
  rw [h, if_pos ha]

theorem i64_of_u64_neg (a : Nat) (h1 : 2 ^ 63 ≤ a) (h2 : a < 2 ^ 64) : i64_of_u64 a < 0 := by
  unfold i64_of_u64
  have h : a % 2 ^ 64 = a := Nat.mod_eq_of_lt h2
  rw [h, if_neg (by omega)]
  omega

theorem u64_of_i64_natCast (a : Nat) (ha : a < 2 ^ 64) : u64_of_i64 (a : Int) = a := by
  unfold u64_of_i64
  have h2 : ((a : Int) % (2 ^ 64 : Int)) = (a : Int) := by
    apply Int.emod_eq_of_lt <;> omega
  rw [h2]
  simp

theorem u64_of_i64_of_u64 (a : Nat) : u64_of_i64 (i64_of_u64 a) = a % 2 ^ 64 := by
  unfold u64_of_i64 i64_of_u64
  have hlt : a % 2 ^ 64 < 2 ^ 64 := Nat.mod_lt _ (by norm_num)
  split_ifs with h <;> omega

theorem i64_of_u64_pos (a : Nat) (h : 0 < i64_of_u64 a) :
    0 < a % 2 ^ 64 ∧ a % 2 ^ 64 < 2 ^ 63 ∧ i64_of_u64 a = ((a % 2 ^ 64 : Nat) : Int) := by
  unfold i64_of_u64 at h ⊢
  have hlt : a % 2 ^ 64 < 2 ^ 64 := Nat.mod_lt _ (by norm_num)
  split_ifs at h ⊢ with h1
  · exact ⟨by omega, h1, rfl⟩
  · omega

/-! ## The statistics of a route -/

theorem od_periodic_stats_foldl (servers : List od_server_t) :
    ∀ a b c d : Nat,
      servers.foldl (fun acc server => od_periodic_stats_server server acc)
          { query_time := a % 2 ^ 64, count_request := b % 2 ^ 64,
            recv_client := c % 2 ^ 64, recv_server := d % 2 ^ 64 }
        = { query_time := (a + (servers.map (fun s => s.stats.query_time)).sum) % 2 ^ 64,
            count_request :=
              (b + (servers.map (fun s => s.stats.count_request)).sum) % 2 ^ 64,
            recv_client := (c + (servers.map (fun s => s.stats.recv_client)).sum) % 2 ^ 64,
            recv_server :=
              (d + (servers.map (fun s => s.stats.recv_server)).sum) % 2 ^ 64 } := by
  induction servers with
  | nil => intro a b c d; simp
  | cons s rest ih =>
    intro a b c d
    have hstep : od_periodic_stats_server s
        { query_time := a % 2 ^ 64, count_request := b % 2 ^ 64,
          recv_client := c % 2 ^ 64, recv_server := d % 2 ^ 64 }
        = { query_time := (a + s.stats.query_time) % 2 ^ 64,
            count_request := (b + s.stats.count_request) % 2 ^ 64,
            recv_client := (c + s.stats.recv_client) % 2 ^ 64,
            recv_server := (d + s.stats.recv_server) % 2 ^ 64 } := by
      simp only [od_periodic_stats_server, Nat.mod_add_mod]
    rw [List.foldl_cons, hstep, ih]
    simp only [List.map_cons, List.sum_cons, Nat.add_assoc]

/-- The gathering step computes the sums, modulo `2^64`, over the ACTIVE and the IDLE
servers of the route. -/
theorem od_periodic_stats_gather_eq (route : od_route_t) :
    od_periodic_stats_gather route
      = od_serverstat_sum (route.server_pool.active ++ route.server_pool.idle) := by
  have h0 : od_serverstat_zero
      = { query_time := 0 % 2 ^ 64, count_request := 0 % 2 ^ 64,
          recv_client := 0 % 2 ^ 64, recv_server := 0 % 2 ^ 64 } := rfl
  unfold od_periodic_stats_gather od_serverpool_foreach od_serverpool_bucket
  simp only [h0, od_periodic_stats_foldl, od_serverstat_sum, List.map_append,
    List.sum_append, Nat.zero_add]

theorem od_periodic_stats_gather_lt (route : od_route_t) :
    (od_periodic_stats_gather route).query_time < 2 ^ 64
      ∧ (od_periodic_stats_gather route).count_request < 2 ^ 64
      ∧ (od_periodic_stats_gather route).recv_client < 2 ^ 64
      ∧ (od_periodic_stats_gather route).recv_server < 2 ^ 64 := by
  rw [od_periodic_stats_gather_eq]
  refine ⟨?_, ?_, ?_, ?_⟩ <;> exact Nat.mod_lt _ (by norm_num)

/-- The route body when the request count has regressed: no division is executed, the
snapshot is stored and the four averages are the initial zeros. -/
theorem od_periodic_stats_route_regressed (inst : od_instance_t) (route : od_route_t)
    (h : od_periodic_stats_sanity route < 0) :
    od_periodic_stats_route inst route
      = some { route with
          periodic_stats := od_periodic_stats_gather route
          periodic_stats_avg :=
            { count_request := 0, recv_client := 0, recv_server := 0, query_time := 0 } } := by
  unfold od_periodic_stats_sanity at h
  unfold od_periodic_stats_route
  simp only [if_neg (not_le.mpr h)]

/-- The route body when the sanity gate passes and the interval is not zero. -/
theorem od_periodic_stats_route_passed (inst : od_instance_t) (route : od_route_t)
    (h : 0 ≤ od_periodic_stats_sanity route) (hI : 0 < inst.stats_interval) :
    od_periodic_stats_route inst route
      = some { route with
          periodic_stats := od_periodic_stats_gather route
          periodic_stats_avg :=
            { count_request :=
                u64_of_i64 (Int.tdiv (od_periodic_stats_reqs_diff inst route)
                  (inst.stats_interval : Int)),
              recv_client :=
                u64_sub ((od_periodic_stats_gather route).recv_client / inst.stats_interval)
                  (route.periodic_stats.recv_client / inst.stats_interval)
                  / inst.stats_interval,
              recv_server :=
                u64_sub ((od_periodic_stats_gather route).recv_server / inst.stats_interval)
                  (route.periodic_stats.recv_server / inst.stats_interval)
                  / inst.stats_interval,
              query_time :=
                if 0 < od_periodic_stats_reqs_diff inst route then
                  u64_sub (od_periodic_stats_gather route).query_time
                    route.periodic_stats.query_time
                    / u64_of_i64 (od_periodic_stats_reqs_diff inst route)
                else 0 } } := by
  unfold od_periodic_stats_sanity at h
  have hI0 : inst.stats_interval ≠ 0 := by omega
  have hI1 : (inst.stats_interval : Int) ≠ 0 := by omega
  unfold od_periodic_stats_route od_periodic_stats_reqs_diff
  simp only [if_pos h, u64_div, i64_div, if_neg hI0, if_neg hI1, Option.map_some',
    Option.bind_eq_bind, Option.some_bind]
  split_ifs with hpos hz
  · exfalso
    rw [u64_of_i64_of_u64] at hz
    have := (i64_of_u64_pos _ hpos).1
    omega
  · simp
  · simp

/-- Whatever the route body returns, it has stored the gathered snapshot and has left
the rest of the route, its averages apart, as it was. -/
theorem od_periodic_stats_route_snapshot (inst : od_instance_t) (route route1 : od_route_t)
    (h : od_periodic_stats_route inst route = some route1) :
    route1.periodic_stats = od_periodic_stats_gather route
      ∧ route1 = { route with
          periodic_stats := route1.periodic_stats
          periodic_stats_avg := route1.periodic_stats_avg } := by
  rcases lt_or_le (od_periodic_stats_sanity route) 0 with hneg | hpos
  · rw [od_periodic_stats_route_regressed inst route hneg] at h
    cases h
    exact ⟨rfl, rfl⟩
  · rcases Nat.eq_zero_or_pos inst.stats_interval with hz | hI
    · unfold od_periodic_stats_sanity at hpos
      unfold od_periodic_stats_route at h
      simp [if_pos hpos, u64_div, hz] at h
    · rw [od_periodic_stats_route_passed inst route hpos hI] at h
      cases h
      exact ⟨rfl, rfl⟩

/-- With a positive interval the route body always returns. -/
theorem od_periodic_stats_route_total (inst : od_instance_t) (route : od_route_t)
    (hI : 0 < inst.stats_interval) :
    ∃ route1, od_periodic_stats_route inst route = some route1 := by
  rcases lt_or_le (od_periodic_stats_sanity route) 0 with hneg | hpos
  · exact ⟨_, od_periodic_stats_route_regressed inst route hneg⟩
  · exact ⟨_, od_periodic_stats_route_passed inst route hpos hI⟩

theorem od_periodic_stats_routes_total (inst : od_instance_t) (routes : List od_route_t)
    (hI : 0 < inst.stats_interval) :
    ∃ routes1, od_periodic_stats_routes inst routes = some routes1 := by
  induction routes with
  | nil => exact ⟨[], rfl⟩
  | cons r rs ih =>
    obtain ⟨r1, hr1⟩ := od_periodic_stats_route_total inst r hI
    obtain ⟨rs1, hrs1⟩ := ih
    exact ⟨r1 :: rs1, by simp [od_periodic_stats_routes, hr1, hrs1]⟩

/-- The route loop visits every route once, in order. -/
theorem od_periodic_stats_routes_visits (inst : od_instance_t) (routes : List od_route_t) :
    ∀ routes1, od_periodic_stats_routes inst routes = some routes1 →
      List.Forall₂ (fun r r1 => od_periodic_stats_route inst r = some r1) routes routes1 := by
  induction routes with
  | nil =>
    intro routes1 h
    simp only [od_periodic_stats_routes, Option.some.injEq] at h
    rw [← h]
    exact List.Forall₂.nil
  | cons r rs ih =>
    intro routes1 h
    unfold od_periodic_stats_routes at h
    cases hr : od_periodic_stats_route inst r with
    | none => simp [hr] at h
    | some r1 =>
      cases hrs : od_periodic_stats_routes inst rs with
      | none => simp [hr, hrs] at h
      | some rs1 =>
        simp only [hr, hrs, Option.bind_eq_bind, Option.some_bind,
          Option.some.injEq] at h
        rw [← h]
        exact List.Forall₂.cons hr (ih rs1 hrs)

/-- One statistics run visits every route of the route pool once, in order. -/
theorem od_periodic_stats_visits (inst : od_instance_t) (router router1 : od_router_t)
    (h : od_periodic_stats inst router = some router1) :
    List.Forall₂ (fun r r1 => od_periodic_stats_route inst r = some r1)
      router.route_pool.list router1.route_pool.list := by
  unfold od_periodic_stats at h
  split_ifs at h with h0
  · cases h
    have hnil : router.route_pool.list = [] := List.length_eq_zero.mp h0
    rw [hnil]
    exact List.Forall₂.nil
  · cases hrs : od_periodic_stats_routes inst router.route_pool.list with
    | none => simp [hrs] at h
    | some rs1 =>
      simp only [hrs, Option.map_some', Option.some.injEq] at h
      rw [← h]
      exact od_periodic_stats_routes_visits inst _ rs1 hrs

/-- C7: for every route visited by od_periodic_stats, the snapshot stored in
periodic_stats is, counter by counter, the sum modulo 2^64 over the servers of the
route's ACTIVE and IDLE buckets, whatever the EXPIRE bucket holds; it is stored on
every run that returns, also when the request count has regressed, and with a
positive stats_interval every run returns.  The run changes nothing else of a route
but its averages. -/
theorem od_periodic_stats_snapshot (inst : od_instance_t) (router : od_router_t) :
    (0 < inst.stats_interval → ∃ router1, od_periodic_stats inst router = some router1)
      ∧ (∀ router1, od_periodic_stats inst router = some router1 →
          List.Forall₂ (fun r r1 =>
              r1.periodic_stats
                  = od_serverstat_sum (r.server_pool.active ++ r.server_pool.idle)
                ∧ r1 = { r with periodic_stats := r1.periodic_stats
                                periodic_stats_avg := r1.periodic_stats_avg })
            router.route_pool.list router1.route_pool.list)
      ∧ (∀ (r : od_route_t) (e : List od_server_t),
          od_periodic_stats_gather
              { r with server_pool := { r.server_pool with expire := e } }
            = od_periodic_stats_gather r) := by
  refine ⟨?_, ?_, ?_⟩
  · intro hI
    unfold od_periodic_stats
    split_ifs
    · exact ⟨router, rfl⟩
    · obtain ⟨rs1, hrs1⟩ := od_periodic_stats_routes_total inst router.route_pool.list hI
      exact ⟨_, by rw [hrs1]; rfl⟩
  · intro router1 h
    refine (od_periodic_stats_visits inst router router1 h).imp ?_
    intro r r1 hr
    have hsnap := od_periodic_stats_route_snapshot inst r r1 hr
    rw [od_periodic_stats_gather_eq] at hsnap
    exact hsnap
  · intro r e
    rfl

/-- C7, at scenario S5 (previous sum 100, current sum 40): the run returns and the
stored count_request is 40. -/
theorem od_periodic_stats_snapshot_witness :
    0 < od_instance_example.stats_interval
      ∧ od_periodic_stats od_instance_example od_router_s5 = some od_router_s5_after
      ∧ (od_router_s5_after.route_pool.list.map
          (fun r => r.periodic_stats.count_request)) = [40]
      ∧ (∃ router1, od_periodic_stats od_instance_example od_router_s5 = some router1)
      ∧ List.Forall₂ (fun r r1 =>
            r1.periodic_stats
                = od_serverstat_sum (r.server_pool.active ++ r.server_pool.idle)
              ∧ r1 = { r with periodic_stats := r1.periodic_stats
                              periodic_stats_avg := r1.periodic_stats_avg })
          od_router_s5.route_pool.list od_router_s5_after.route_pool.list :=
  ⟨by decide, by decide, by decide,
    (od_periodic_stats_snapshot od_instance_example od_router_s5).1 (by decide),
    (od_periodic_stats_snapshot od_instance_example od_router_s5).2.1 od_router_s5_after
      (by decide)⟩

/-- Every route of the pool has its image under the route body in the pool that a
statistics run returns. -/
theorem od_periodic_stats_visits_mem (inst : od_instance_t) (router router1 : od_router_t)
    (h : od_periodic_stats inst router = some router1) (route : od_route_t)
    (hmem : route ∈ router.route_pool.list) :
    ∃ route1 ∈ router1.route_pool.list, od_periodic_stats_route inst route = some route1 := by
  have hvis := od_periodic_stats_visits inst router router1 h
  generalize router.route_pool.list = l at hvis hmem
  generalize router1.route_pool.list = l1 at hvis
  induction hvis with
  | nil => cases hmem
  | cons hab _ ih =>
    rcases List.mem_cons.mp hmem with heq | hin
    · rw [heq]
      exact ⟨_, List.mem_cons_self _ _, hab⟩
    · obtain ⟨r1, hr1, hr1eq⟩ := ih hin
      exact ⟨r1, List.mem_cons_of_mem _ hr1, hr1eq⟩

/-! ## The rates of a route whose counters have not decreased -/

theorem div_sub_div_le (a b n : Nat) (hn : 0 < n) : a / n - b / n ≤ a - b := by
  rcases Nat.lt_or_ge a b with hlt | hge
  · have : a / n ≤ b / n := Nat.div_le_div_right (le_of_lt hlt)
    omega
  · obtain ⟨d, rfl⟩ := Nat.exists_eq_add_of_le hge
    have h1 : (b + d) / n ≤ b / n + d := by
      rw [Nat.div_le_iff_le_mul_add_pred hn]
      have h2 := Nat.div_add_mod b n
      have h3 := Nat.mod_lt b hn
      have h4 : d ≤ n * d := Nat.le_mul_of_pos_left d hn
      have h5 : n * (b / n + d) = n * (b / n) + n * d := Nat.mul_add _ _ _
      omega
    omega

/-- When the request count has not decreased, by less than `2^63`, the sanity gate
passes and both signed differences are the plain differences. -/
theorem od_periodic_stats_monotone (inst : od_instance_t) (route : od_route_t)
    (hI : 0 < inst.stats_interval)
    (hreq : route.periodic_stats.count_request
      ≤ (od_periodic_stats_gather route).count_request)
    (hgap : (od_periodic_stats_gather route).count_request
      - route.periodic_stats.count_request < 2 ^ 63) :
    0 ≤ od_periodic_stats_sanity route
      ∧ od_periodic_stats_reqs_diff inst route
        = (((od_periodic_stats_gather route).count_request / inst.stats_interval
            - route.periodic_stats.count_request / inst.stats_interval : Nat) : Int) := by
  have hlt := (od_periodic_stats_gather_lt route).2.1
  constructor
  · unfold od_periodic_stats_sanity
    rw [u64_sub_of_le _ _ hreq hlt, i64_of_u64_of_lt _ hgap]
    omega
  · unfold od_periodic_stats_reqs_diff
    have hdiv : route.periodic_stats.count_request / inst.stats_interval
        ≤ (od_periodic_stats_gather route).count_request / inst.stats_interval :=
      Nat.div_le_div_right hreq
    have hdlt : (od_periodic_stats_gather route).count_request / inst.stats_interval
        < 2 ^ 64 := lt_of_le_of_lt (Nat.div_le_self _ _) hlt
    have hle := div_sub_div_le (od_periodic_stats_gather route).count_request
      route.periodic_stats.count_request inst.stats_interval hI
    rw [u64_sub_of_le _ _ hdiv hdlt, i64_of_u64_of_lt _ (by omega)]

/-! ## Claims on the statistics engine -/

/-- C8, as stated, fails on scenario S5: the request count has regressed (100, then
40), and od_periodic_stats does not leave periodic_stats_avg as it was (7 requests per
second, and so on) but overwrites the four fields with 0. -/
theorem od_periodic_stats_regression_counterexample :
    od_periodic_stats_sanity od_route_s5 < 0
      ∧ od_periodic_stats od_instance_example od_router_s5 = some od_router_s5_after
      ∧ od_router_s5.route_pool.list.map (fun r => r.periodic_stats_avg.count_request) = [7]
      ∧ od_router_s5_after.route_pool.list.map
          (fun r => r.periodic_stats_avg.count_request) = [0]
      ∧ od_router_s5_after.route_pool.list.map (fun r => r.periodic_stats_avg)
          ≠ od_router_s5.route_pool.list.map (fun r => r.periodic_stats_avg) := by
  decide

/-- C8, amended: for every route whose summed count_request over ACTIVE and IDLE
servers is smaller than the previous snapshot's (the signed 64-bit difference is
negative), whatever the interval, od_periodic_stats refreshes periodic_stats with the
new sums and stores 0 in all four fields of periodic_stats_avg, leaving the rest of the
route as it was; the route so updated is in the route pool of every run that visits
it. -/
theorem od_periodic_stats_regression (inst : od_instance_t) (route : od_route_t)
    (h : od_periodic_stats_sanity route < 0) :
    od_periodic_stats_route inst route
        = some { route with
            periodic_stats :=
              od_serverstat_sum (route.server_pool.active ++ route.server_pool.idle)
            periodic_stats_avg :=
              { count_request := 0, recv_client := 0, recv_server := 0, query_time := 0 } }
      ∧ (∀ router router1, route ∈ router.route_pool.list →
          od_periodic_stats inst router = some router1 →
          { route with
              periodic_stats :=
                od_serverstat_sum (route.server_pool.active ++ route.server_pool.idle)
              periodic_stats_avg :=
                { count_request := 0, recv_client := 0, recv_server := 0, query_time := 0 } }
            ∈ router1.route_pool.list) := by
  have hbody := od_periodic_stats_route_regressed inst route h
  rw [od_periodic_stats_gather_eq] at hbody
  refine ⟨hbody, ?_⟩
  intro router router1 hmem hrun
  obtain ⟨r1, hr1, hr1eq⟩ := od_periodic_stats_visits_mem inst router router1 hrun route hmem
  rw [hbody] at hr1eq
  cases hr1eq
  exact hr1

/-- A sum that is smaller than the previous count, by at most `2^63`, makes the
signed difference of the sanity gate negative. -/
theorem od_periodic_stats_sanity_neg (route : od_route_t)
    (hlt : (od_periodic_stats_gather route).count_request
      < route.periodic_stats.count_request)
    (hprev : route.periodic_stats.count_request < 2 ^ 64)
    (hgap : route.periodic_stats.count_request
      - (od_periodic_stats_gather route).count_request ≤ 2 ^ 63) :
    od_periodic_stats_sanity route < 0 := by
  unfold od_periodic_stats_sanity
  apply i64_of_u64_neg
  · unfold u64_sub
    omega
  · exact u64_sub_lt _ _

/-- C8 amended, at scenario S5: the signed difference is negative there, and the run
stores the sums 900, 40, 10, 20 and zero averages. -/
theorem od_periodic_stats_regression_witness :
    od_periodic_stats_sanity od_route_s5 < 0
      ∧ od_periodic_stats_route od_instance_example od_route_s5
        = some { od_route_s5 with
            periodic_stats := { query_time := 900, count_request := 40, recv_client := 10,
                                recv_server := 20 }
            periodic_stats_avg :=
              { count_request := 0, recv_client := 0, recv_server := 0, query_time := 0 } } :=
  ⟨by decide, (od_periodic_stats_regression od_instance_example od_route_s5 (by decide)).1⟩

/-- C9, as stated, fails when the request count has grown by 2^63 or more: with
stats_interval = 1, an all-zero previous snapshot and a server that counts 2^63
requests, no counter has decreased, yet the signed sanity difference is negative and
the stored rate is 0, not ((2^63 / 1) - (0 / 1)) / 1 = 2^63. -/
theorem od_periodic_stats_rate_law_counterexample :
    od_route_wide.periodic_stats.count_request
        ≤ (od_periodic_stats_gather od_route_wide).count_request
      ∧ od_route_wide.periodic_stats.recv_client
        ≤ (od_periodic_stats_gather od_route_wide).recv_client
      ∧ od_route_wide.periodic_stats.recv_server
        ≤ (od_periodic_stats_gather od_route_wide).recv_server
      ∧ (od_periodic_stats_route od_instance_unit od_route_wide).map
          (fun r => r.periodic_stats_avg.count_request) = some 0
      ∧ ((od_periodic_stats_gather od_route_wide).count_request
            / od_instance_unit.stats_interval
          - od_route_wide.periodic_stats.count_request / od_instance_unit.stats_interval)
          / od_instance_unit.stats_interval = 2 ^ 63 := by
  decide

/-- C9, amended: for stats_interval = I >= 1 and every route whose summed counters
have not decreased since the previous snapshot (count_request, recv_client and
recv_server), the request count having grown by less than 2^63, od_periodic_stats
stores periodic_stats_avg.count_request = ((curr.count_request / I) -
(prev.count_request / I)) / I with truncating division, and likewise for recv_client
and recv_server; with prev.count_request = 0 the stored rate is
(curr.count_request / I) / I. -/
theorem od_periodic_stats_rate_law (inst : od_instance_t) (route : od_route_t)
    (hI : 1 ≤ inst.stats_interval)
    (hreq : route.periodic_stats.count_request
      ≤ (od_serverstat_sum
          (route.server_pool.active ++ route.server_pool.idle)).count_request)
    (hgap : (od_serverstat_sum
          (route.server_pool.active ++ route.server_pool.idle)).count_request
        - route.periodic_stats.count_request < 2 ^ 63)
    (hrc : route.periodic_stats.recv_client
      ≤ (od_serverstat_sum
          (route.server_pool.active ++ route.server_pool.idle)).recv_client)
    (hrs : route.periodic_stats.recv_server
      ≤ (od_serverstat_sum
          (route.server_pool.active ++ route.server_pool.idle)).recv_server) :
    ∃ route1, od_periodic_stats_route inst route = some route1
      ∧ route1.periodic_stats_avg.count_request
        = ((od_serverstat_sum
              (route.server_pool.active ++ route.server_pool.idle)).count_request
              / inst.stats_interval
            - route.periodic_stats.count_request / inst.stats_interval)
          / inst.stats_interval
      ∧ route1.periodic_stats_avg.recv_client
        = ((od_serverstat_sum
              (route.server_pool.active ++ route.server_pool.idle)).recv_client
              / inst.stats_interval
            - route.periodic_stats.recv_client / inst.stats_interval)
          / inst.stats_interval
      ∧ route1.periodic_stats_avg.recv_server
        = ((od_serverstat_sum
              (route.server_pool.active ++ route.server_pool.idle)).recv_server
              / inst.stats_interval
            - route.periodic_stats.recv_server / inst.stats_interval)
          / inst.stats_interval
      ∧ (route.periodic_stats.count_request = 0 →
          route1.periodic_stats_avg.count_request
            = (od_serverstat_sum
                (route.server_pool.active ++ route.server_pool.idle)).count_request
              / inst.stats_interval / inst.stats_interval) := by
  rw [← od_periodic_stats_gather_eq] at hreq hgap hrc hrs ⊢
  have hI0 : 0 < inst.stats_interval := hI
  obtain ⟨hsan, hdiff⟩ := od_periodic_stats_monotone inst route hI0 hreq hgap
  obtain ⟨-, hlt_cr, hlt_rc, hlt_rs⟩ := od_periodic_stats_gather_lt route
  have hrate : ∀ a b : Nat, b ≤ a → a < 2 ^ 64 →
      u64_sub (a / inst.stats_interval) (b / inst.stats_interval) / inst.stats_interval
        = (a / inst.stats_interval - b / inst.stats_interval) / inst.stats_interval := by
    intro a b hba ha
    rw [u64_sub_of_le _ _ (Nat.div_le_div_right hba)
      (lt_of_le_of_lt (Nat.div_le_self _ _) ha)]
  have hreqs : u64_of_i64 (Int.tdiv (od_periodic_stats_reqs_diff inst route)
      (inst.stats_interval : Int))
      = ((od_periodic_stats_gather route).count_request / inst.stats_interval
          - route.periodic_stats.count_request / inst.stats_interval)
        / inst.stats_interval := by
    rw [hdiff, ← Int.ofNat_tdiv]
    apply u64_of_i64_natCast
    have h1 : ((od_periodic_stats_gather route).count_request / inst.stats_interval
          - route.periodic_stats.count_request / inst.stats_interval)
        / inst.stats_interval
        ≤ (od_periodic_stats_gather route).count_request :=
      le_trans (Nat.div_le_self _ _)
        (le_trans (Nat.sub_le _ _) (Nat.div_le_self _ _))
    omega
  refine ⟨_, od_periodic_stats_route_passed inst route hsan hI0, hreqs,
    hrate _ _ hrc hlt_rc, hrate _ _ hrs hlt_rs, ?_⟩
  intro hzero
  simp only [hreqs, hzero, Nat.zero_div, Nat.sub_zero]

/-- C9 amended, at scenario S4: I = 2, previous snapshot zero, 10 new requests; the
hypotheses hold there and the stored rps is ((10 / 2) - (0 / 2)) / 2 = 2. -/
theorem od_periodic_stats_rate_law_witness :
    1 ≤ od_instance_example.stats_interval
      ∧ (od_periodic_stats_route od_instance_example od_route_s4).map
          (fun r => r.periodic_stats_avg.count_request) = some 2
      ∧ ∃ route1, od_periodic_stats_route od_instance_example od_route_s4 = some route1
          ∧ route1.periodic_stats_avg.count_request = (10 / 2 - 0 / 2) / 2 :=
  ⟨by decide, by decide,
    (od_periodic_stats_rate_law od_instance_example od_route_s4 (by decide) (by decide)
      (by decide) (by decide) (by decide)).imp (fun _ h => ⟨h.1, h.2.1⟩)⟩

/-- C10, as stated, fails on scenario S4: with stats_interval = 2, an all-zero previous
snapshot and 10 new requests totalling 5000 microseconds, req_diff is 10 and the claim
gives 5000 / 10 = 500, but od_periodic_stats divides by the quantized difference
10 / 2 - 0 / 2 = 5 and stores 1000. -/
theorem od_periodic_stats_query_time_counterexample :
    (od_periodic_stats_route od_instance_example od_route_s4).map
        (fun r => r.periodic_stats_avg.query_time) = some 1000
      ∧ ((od_periodic_stats_gather od_route_s4).query_time
            - od_route_s4.periodic_stats.query_time)
          / ((od_periodic_stats_gather od_route_s4).count_request
            - od_route_s4.periodic_stats.count_request) = 500
      ∧ od_periodic_stats_sanity od_route_s4 = 10
      ∧ od_periodic_stats_reqs_diff od_instance_example od_route_s4 = 5 := by
  decide

/-- C10, amended: for stats_interval = I >= 1 and every route, od_periodic_stats stores
periodic_stats_avg.query_time = (curr.query_time - prev.query_time) / reqs_diff, the
subtraction taken modulo 2^64, where reqs_diff is the signed 64-bit difference of the
quantized counts curr.count_request / I - prev.count_request / I, when the sanity
difference curr.count_request - prev.count_request is not negative and reqs_diff > 0,
and stores 0 otherwise.  When neither count_request (grown by less than 2^63) nor
query_time has decreased, this is (curr.query_time - prev.query_time) /
(curr.count_request / I - prev.count_request / I) if that divisor is positive, else 0. -/
theorem od_periodic_stats_query_time (inst : od_instance_t) (route : od_route_t)
    (hI : 1 ≤ inst.stats_interval) :
    ∃ route1, od_periodic_stats_route inst route = some route1
      ∧ route1.periodic_stats_avg.query_time
        = (if 0 ≤ od_periodic_stats_sanity route
              ∧ 0 < od_periodic_stats_reqs_diff inst route then
            u64_sub (od_periodic_stats_gather route).query_time
                route.periodic_stats.query_time
              / (od_periodic_stats_reqs_diff inst route).toNat
          else 0)
      ∧ (route.periodic_stats.count_request
            ≤ (od_periodic_stats_gather route).count_request →
          (od_periodic_stats_gather route).count_request
            - route.periodic_stats.count_request < 2 ^ 63 →
          route.periodic_stats.query_time ≤ (od_periodic_stats_gather route).query_time →
          route1.periodic_stats_avg.query_time
            = (if route.periodic_stats.count_request / inst.stats_interval
                  < (od_periodic_stats_gather route).count_request / inst.stats_interval then
                ((od_periodic_stats_gather route).query_time
                    - route.periodic_stats.query_time)
                  / ((od_periodic_stats_gather route).count_request / inst.stats_interval
                    - route.periodic_stats.count_request / inst.stats_interval)
              else 0)) := by
  have hI0 : 0 < inst.stats_interval := hI
  have hdivisor : 0 < od_periodic_stats_reqs_diff inst route →
      u64_of_i64 (od_periodic_stats_reqs_diff inst route)
        = (od_periodic_stats_reqs_diff inst route).toNat := by
    intro hpos
    unfold od_periodic_stats_reqs_diff at hpos ⊢
    obtain ⟨-, -, heq⟩ := i64_of_u64_pos _ hpos
    rw [u64_of_i64_of_u64, heq]
    omega
  rcases lt_or_le (od_periodic_stats_sanity route) 0 with hneg | hpass
  · refine ⟨_, od_periodic_stats_route_regressed inst route hneg, ?_, ?_⟩
    · rw [if_neg]
      intro hc
      omega
    · intro hreq hgap _
      have := (od_periodic_stats_monotone inst route hI0 hreq hgap).1
      omega
  · refine ⟨_, od_periodic_stats_route_passed inst route hpass hI0, ?_, ?_⟩
    · by_cases hpos : 0 < od_periodic_stats_reqs_diff inst route
      · simp only [if_pos hpos, hpass, true_and, hdivisor hpos]
      · simp only [if_neg hpos, hpos, and_false, if_false]
    · intro hreq hgap hqt
      have hdiff := (od_periodic_stats_monotone inst route hI0 hreq hgap).2
      have hqlt := (od_periodic_stats_gather_lt route).1
      by_cases hlt : route.periodic_stats.count_request / inst.stats_interval
          < (od_periodic_stats_gather route).count_request / inst.stats_interval
      · have hpos : 0 < od_periodic_stats_reqs_diff inst route := by
          rw [hdiff]
          omega
        simp only [if_pos hpos, if_pos hlt, hdivisor hpos, u64_sub_of_le _ _ hqt hqlt]
        rw [hdiff]
        simp
      · have hpos : ¬ 0 < od_periodic_stats_reqs_diff inst route := by
          rw [hdiff]
          omega
        simp only [if_neg hpos, if_neg hlt]

/-- C10 amended, at scenario S4: I = 2, 10 new requests totalling 5000 microseconds;
the stored average query time is 5000 / (10 / 2 - 0 / 2) = 1000. -/
theorem od_periodic_stats_query_time_witness :
    1 ≤ od_instance_example.stats_interval
      ∧ (od_periodic_stats_route od_instance_example od_route_s4).map
          (fun r => r.periodic_stats_avg.query_time) = some 1000
      ∧ ∃ route1, od_periodic_stats_route od_instance_example od_route_s4 = some route1
          ∧ route1.periodic_stats_avg.query_time
            = (if 0 ≤ od_periodic_stats_sanity od_route_s4
                  ∧ 0 < od_periodic_stats_reqs_diff od_instance_example od_route_s4 then
                u64_sub (od_periodic_stats_gather od_route_s4).query_time
                    od_route_s4.periodic_stats.query_time
                  / (od_periodic_stats_reqs_diff od_instance_example od_route_s4).toNat
              else 0) :=
  ⟨by decide, by decide,
    (od_periodic_stats_query_time od_instance_example od_route_s4 (by decide)).imp
      (fun _ h => ⟨h.1, h.2.1⟩)⟩

/-! ## The driver loop -/

/-- With a positive interval a statistics run always returns. -/
theorem od_periodic_stats_total (inst : od_instance_t) (router : od_router_t)
    (hI : 0 < inst.stats_interval) :
    ∃ router1, od_periodic_stats inst router = some router1 := by
  unfold od_periodic_stats
  split_ifs
  · exact ⟨router, rfl⟩
  · obtain ⟨rs1, hrs1⟩ := od_periodic_stats_routes_total inst router.route_pool.list hI
    exact ⟨_, by rw [hrs1]; rfl⟩

/-- The tick counter after one more iteration, in terms of the iteration number. -/
theorem od_periodic_tick_succ (n interval : Nat) (hI : 0 < interval) :
    (interval ≤ n % interval + 1 ↔ interval ∣ n + 1)
      ∧ (interval ∣ n + 1 → (n + 1) % interval = 0)
      ∧ (¬ interval ∣ n + 1 → (n + 1) % interval = n % interval + 1) := by
  have hlt := Nat.mod_lt n hI
  have hdm := Nat.div_add_mod n interval
  by_cases hr : n % interval + 1 < interval
  · have hmod : (n + 1) % interval = n % interval + 1 := by
      have h1 : n + 1 = interval * (n / interval) + (n % interval + 1) := by omega
      rw [h1, Nat.mul_add_mod, Nat.mod_eq_of_lt hr]
    have hnd : ¬ interval ∣ n + 1 := by
      intro hd
      have := Nat.mod_eq_zero_of_dvd hd
      omega
    refine ⟨⟨fun h => ?_, fun h => absurd h hnd⟩, fun h => absurd h hnd, fun _ => hmod⟩
    omega
  · have heq : n % interval + 1 = interval := by omega
    have hd : interval ∣ n + 1 := by
      refine ⟨n / interval + 1, ?_⟩
      rw [Nat.mul_add, Nat.mul_one]
      omega
    refine ⟨⟨fun _ => hd, fun _ => by omega⟩, fun _ => Nat.mod_eq_zero_of_dvd hd,
      fun h => absurd hd h⟩

/-- The calls of a schedule, counted by kind. -/
theorem od_periodic_schedule_count (interval n : Nat) :
    (od_periodic_schedule interval n).count od_call_t.expire = n
      ∧ (od_periodic_schedule interval n).count od_call_t.stats = n / interval
      ∧ (od_periodic_schedule interval n).count (od_call_t.sleep 1000) = n := by
  induction n with
  | zero => simp [od_periodic_schedule]
  | succ n ih =>
    obtain ⟨h1, h2, h3⟩ := ih
    refine ⟨?_, ?_, ?_⟩
    · simp only [od_periodic_schedule, List.count_append, h1]
      split_ifs <;> simp
    · simp only [od_periodic_schedule, List.count_append, h2, Nat.succ_div]
      split_ifs <;> simp
    · simp only [od_periodic_schedule, List.count_append, h3]
      split_ifs <;> simp

/-- The first n iterations of the driver loop with a positive interval: the loop gets
through them, its calls follow the schedule and the tick counter is n modulo the
interval. -/
theorem od_periodic_run (inst : od_instance_t) (backend : od_backend_t)
    (router : od_router_t) (hI : 0 < inst.stats_interval) (n : Nat) :
    ∃ st, od_periodic inst backend n (od_periodic_enter router) = some st
      ∧ st.calls = od_periodic_schedule inst.stats_interval n
      ∧ st.stats_tick = n % inst.stats_interval := by
  induction n with
  | zero => exact ⟨od_periodic_enter router, rfl, rfl, by simp [od_periodic_enter]⟩
  | succ n ih =>
    obtain ⟨st, hst, hcalls, htick⟩ := ih
    obtain ⟨hiff, hdvd, hndvd⟩ := od_periodic_tick_succ n inst.stats_interval hI
    by_cases hd : inst.stats_interval ∣ n + 1
    · have hcond : inst.stats_interval ≤ st.stats_tick + 1 := by
        rw [htick]
        exact hiff.mpr hd
      obtain ⟨router1, hr1⟩ := od_periodic_stats_total inst
        (od_periodic_expire inst backend st.router).1 hI
      have hbody : od_periodic_body inst backend st = some
          { router := router1, stats_tick := 0,
            calls := st.calls ++ [od_call_t.expire, od_call_t.stats, od_call_t.sleep 1000],
            trace := st.trace ++ (od_periodic_expire inst backend st.router).2 } := by
        simp only [od_periodic_body, if_pos hcond, hr1, Option.map_some']
      have hrun : od_periodic inst backend (n + 1) (od_periodic_enter router)
          = od_periodic_body inst backend st := by
        simp only [od_periodic, hst, Option.some_bind]
      rw [hbody] at hrun
      refine ⟨_, hrun, ?_, ?_⟩
      · simp [od_periodic_schedule, hcalls, if_pos hd]
      · exact (hdvd hd).symm
    · have hcond : ¬ inst.stats_interval ≤ st.stats_tick + 1 := by
        rw [htick]
        exact fun h => hd (hiff.mp h)
      have hbody : od_periodic_body inst backend st = some
          { router := (od_periodic_expire inst backend st.router).1,
            stats_tick := st.stats_tick + 1,
            calls := st.calls ++ [od_call_t.expire, od_call_t.sleep 1000],
            trace := st.trace ++ (od_periodic_expire inst backend st.router).2 } := by
        simp only [od_periodic_body, if_neg hcond]
      have hrun : od_periodic inst backend (n + 1) (od_periodic_enter router)
          = od_periodic_body inst backend st := by
        simp only [od_periodic, hst, Option.some_bind]
      rw [hbody] at hrun
      refine ⟨_, hrun, ?_, ?_⟩
      · simp [od_periodic_schedule, hcalls, if_neg hd]
      · simp only [htick]
        exact (hndvd hd).symm

/-- C11: for stats_interval = I >= 1 and every n, the od_periodic loop gets through its
first n iterations; its calls are, iteration by iteration, the expiry engine, then the
statistics engine exactly on the iterations I, 2I, 3I, ..., then the sleep; so the
expiry engine has been invoked exactly n times and the statistics engine exactly
floor(n / I) times, and the tick counter, which is n mod I after n iterations, is 0
after each statistics run and stays in [0, I). -/
theorem od_periodic_driver_schedule (inst : od_instance_t) (backend : od_backend_t)
    (router : od_router_t) (hI : 1 ≤ inst.stats_interval) (n : Nat) :
    ∃ st, od_periodic inst backend n (od_periodic_enter router) = some st
      ∧ st.calls = od_periodic_schedule inst.stats_interval n
      ∧ st.calls.count od_call_t.expire = n
      ∧ st.calls.count od_call_t.stats = n / inst.stats_interval
      ∧ st.stats_tick = n % inst.stats_interval
      ∧ st.stats_tick < inst.stats_interval
      ∧ (inst.stats_interval ∣ n → st.stats_tick = 0) := by
  obtain ⟨st, hst, hcalls, htick⟩ := od_periodic_run inst backend router hI n
  obtain ⟨hc1, hc2, -⟩ := od_periodic_schedule_count inst.stats_interval n
  refine ⟨st, hst, hcalls, ?_, ?_, htick, ?_, ?_⟩
  · rw [hcalls, hc1]
  · rw [hcalls, hc2]
  · rw [htick]
    exact Nat.mod_lt n hI
  · intro hd
    rw [htick]
    exact Nat.mod_eq_zero_of_dvd hd

/-- C11, at a concrete input: with stats_interval = 2, the first 5 iterations on the
router of scenario S5 call the expiry engine 5 times and the statistics engine twice,
on iterations 2 and 4. -/
theorem od_periodic_driver_schedule_witness :
    1 ≤ od_instance_example.stats_interval
      ∧ ∃ st, od_periodic od_instance_example od_backend_example 5
            (od_periodic_enter od_router_s5) = some st
          ∧ st.calls
            = [od_call_t.expire, od_call_t.sleep 1000,
               od_call_t.expire, od_call_t.stats, od_call_t.sleep 1000,
               od_call_t.expire, od_call_t.sleep 1000,
               od_call_t.expire, od_call_t.stats, od_call_t.sleep 1000,
               od_call_t.expire, od_call_t.sleep 1000]
          ∧ st.calls.count od_call_t.expire = 5
          ∧ st.calls.count od_call_t.stats = 5 / 2
          ∧ st.stats_tick = 1 :=
  ⟨by decide,
    (od_periodic_driver_schedule od_instance_example od_backend_example od_router_s5
      (by decide) 5).imp
      (fun _ h => ⟨h.1, h.2.1.trans (by decide), h.2.2.1, h.2.2.2.1, h.2.2.2.2.1⟩)⟩

/-! ## The calls of the sweep -/

theorem od_sweep_trace_filter_close (inst : od_instance_t) (backend : od_backend_t)
    (servers : List od_server_t) :
    (od_sweep_trace inst backend servers).filter od_event_is_close
      = servers.map (fun s => od_event_t.od_backend_close (od_server_closed s)) := by
  induction servers with
  | nil => rfl
  | cons s rest ih =>
    simp only [od_sweep_trace, List.filter_append, ih, List.map_cons]
    cases hsh : inst.is_shared <;>
      simp [od_periodic_expire_close, hsh, List.filter_cons, od_event_is_close]

theorem od_sweep_trace_filter_terminate (inst : od_instance_t) (backend : od_backend_t)
    (servers : List od_server_t) :
    (od_sweep_trace inst backend servers).filter od_event_is_terminate
      = servers.map (fun s => od_event_t.od_backend_terminate s.id
          (backend.terminate_rc s.id)) := by
  induction servers with
  | nil => rfl
  | cons s rest ih =>
    simp only [od_sweep_trace, List.filter_append, ih, List.map_cons]
    cases hsh : inst.is_shared <;>
      simp [od_periodic_expire_close, hsh, List.filter_cons, od_event_is_terminate,
        od_server_closed]

theorem od_sweep_trace_filter_io_attach (inst : od_instance_t) (backend : od_backend_t)
    (servers : List od_server_t) :
    (od_sweep_trace inst backend servers).filter od_event_is_io_attach
      = if inst.is_shared then servers.map (fun s => od_event_t.machine_io_attach s.id)
        else [] := by
  induction servers with
  | nil => simp [od_sweep_trace]
  | cons s rest ih =>
    simp only [od_sweep_trace, List.filter_append, ih, List.map_cons]
    cases hsh : inst.is_shared <;>
      simp [od_periodic_expire_close, hsh, List.filter_cons, od_event_is_io_attach,
        od_server_closed]

/-- The calls for one server of a sweep are consecutive in the trace. -/
theorem od_sweep_trace_block (inst : od_instance_t) (backend : od_backend_t)
    (servers : List od_server_t) (s : od_server_t) (hs : s ∈ servers) :
    ∃ pre post, od_sweep_trace inst backend servers
      = pre ++ od_periodic_expire_close inst backend (od_server_closed s) ++ post := by
  induction servers with
  | nil => cases hs
  | cons x xs ih =>
    rcases List.mem_cons.mp hs with h | h
    · exact ⟨[], od_sweep_trace inst backend xs, by rw [h]; simp [od_sweep_trace]⟩
    · obtain ⟨pre, post, hpp⟩ := ih h
      refine ⟨od_periodic_expire_close inst backend (od_server_closed x) ++ pre, post, ?_⟩
      simp only [od_sweep_trace, hpp, List.append_assoc]

/-- C12: in the sweep of od_periodic_expire, for every server popped from EXPIRE and
whatever od_server_stream_attach and od_backend_terminate return, the calls on that
server are consecutive and in this order: machine_io_attach exactly when is_shared is
set, then the stream attach, one Terminate attempt, the stream detach and last
od_backend_close.  Over the whole sweep there is exactly one close and one Terminate
per popped server (no retry), in sweep order, and the route pool that comes out of the
sweep and the GC does not depend on what the attempts returned. -/
theorem od_periodic_expire_sweep_calls (inst : od_instance_t) (backend : od_backend_t)
    (router : od_router_t) :
    ((od_periodic_expire inst backend router).2.filter od_event_is_close
        = (od_routepool_expire_servers
            (od_routepool_server_foreach router.route_pool OD_SIDLE
              od_periodic_expire_mark).list).map
            (fun s => od_event_t.od_backend_close (od_server_closed s)))
      ∧ ((od_periodic_expire inst backend router).2.filter od_event_is_terminate
        = (od_routepool_expire_servers
            (od_routepool_server_foreach router.route_pool OD_SIDLE
              od_periodic_expire_mark).list).map
            (fun s => od_event_t.od_backend_terminate s.id (backend.terminate_rc s.id)))
      ∧ ((od_periodic_expire inst backend router).2.filter od_event_is_io_attach
        = if inst.is_shared then
            (od_routepool_expire_servers
              (od_routepool_server_foreach router.route_pool OD_SIDLE
                od_periodic_expire_mark).list).map
              (fun s => od_event_t.machine_io_attach s.id)
          else [])
      ∧ (∀ s ∈ od_routepool_expire_servers
            (od_routepool_server_foreach router.route_pool OD_SIDLE
              od_periodic_expire_mark).list,
          ∃ pre post, (od_periodic_expire inst backend router).2
            = pre
              ++ ((if inst.is_shared then [od_event_t.machine_io_attach s.id] else [])
                ++ [od_event_t.od_server_stream_attach s.id (backend.stream_attach_rc s.id),
                    od_event_t.od_backend_terminate s.id (backend.terminate_rc s.id),
                    od_event_t.od_server_stream_detach s.id,
                    od_event_t.od_backend_close (od_server_closed s)])
              ++ post)
      ∧ (∀ backend1 : od_backend_t,
          (od_periodic_expire inst backend1 router).1
            = (od_periodic_expire inst backend router).1) := by
  have hmarked : (od_routepool_server_foreach router.route_pool OD_SIDLE
      od_periodic_expire_mark).list
        = router.route_pool.list.map od_periodic_expire_mark_route := rfl
  rw [hmarked, od_periodic_expire_eq]
  refine ⟨od_sweep_trace_filter_close inst backend _,
    od_sweep_trace_filter_terminate inst backend _,
    od_sweep_trace_filter_io_attach inst backend _, ?_, ?_⟩
  · intro s hs
    obtain ⟨pre, post, hpp⟩ := od_sweep_trace_block inst backend _ s hs
    exact ⟨pre, post, hpp⟩
  · intro backend1
    rw [od_periodic_expire_eq]

/-- C12, at a concrete input: in shared mode, with stream attach and Terminate both
failing, the tick on the router with the mixed route still closes the two servers in
EXPIRE, each after one io attach and one Terminate attempt, and leaves the same route
pool as with succeeding collaborators. -/
theorem od_periodic_expire_sweep_calls_witness :
    (od_periodic_expire od_instance_shared od_backend_failing od_router_mixed).2
        = [od_event_t.machine_io_attach 73,
           od_event_t.od_server_stream_attach 73 (-1),
           od_event_t.od_backend_terminate 73 (-1),
           od_event_t.od_server_stream_detach 73,
           od_event_t.od_backend_close (od_server_closed (od_server_example 73 OD_SEXPIRE 7 9)),
           od_event_t.machine_io_attach 71,
           od_event_t.od_server_stream_attach 71 (-1),
           od_event_t.od_backend_terminate 71 (-1),
           od_event_t.od_server_stream_detach 71,
           od_event_t.od_backend_close (od_server_closed (od_server_example 71 OD_SIDLE 7 2)),
           od_event_t.machine_io_attach 21,
           od_event_t.od_server_stream_attach 21 (-1),
           od_event_t.od_backend_terminate 21 (-1),
           od_event_t.od_server_stream_detach 21,
           od_event_t.od_backend_close (od_server_closed (od_server_example 21 OD_SIDLE 2 0)),
           od_event_t.machine_io_attach 22,
           od_event_t.od_server_stream_attach 22 (-1),
           od_event_t.od_backend_terminate 22 (-1),
           od_event_t.od_server_stream_detach 22,
           od_event_t.od_backend_close (od_server_closed (od_server_example 22 OD_SIDLE 2 5))]
      ∧ (od_periodic_expire od_instance_shared od_backend_example od_router_mixed).1
        = (od_periodic_expire od_instance_shared od_backend_failing od_router_mixed).1 :=
  ⟨by decide,
    (od_periodic_expire_sweep_calls od_instance_shared od_backend_failing
      od_router_mixed).2.2.2.2 od_backend_example⟩

/-! ## Start of the driver -/

/-- C13: od_periodic_start returns -1 if and only if machine_coroutine_create returned
-1, and returns 0 otherwise (the failure, and only the failure, is logged);
od_periodic_init stores the given system handle in periodic->system and changes
nothing else. -/
theorem od_periodic_start_init (coroutine_id : Int) (periodic : od_periodic_t)
    (system : Nat) :
    ((od_periodic_start coroutine_id).1 = -1 ↔ coroutine_id = -1)
      ∧ ((od_periodic_start coroutine_id).1 = 0 ↔ coroutine_id ≠ -1)
      ∧ ((od_periodic_start coroutine_id).2
          = if coroutine_id = -1 then [od_log_t.failed_to_start_periodic_coroutine] else [])
      ∧ (od_periodic_init periodic system).system = some system
      ∧ od_periodic_init periodic system = { periodic with system := some system } := by
  unfold od_periodic_start od_periodic_init
  by_cases h : coroutine_id = -1
  · simp [h]
  · simp [h]

/-- C13, at concrete inputs: a failed spawn gives -1, a coroutine identifier of 7 (or of
-2) gives 0. -/
theorem od_periodic_start_init_witness :
    (od_periodic_start (-1)).1 = -1 ∧ (od_periodic_start 7).1 = 0
      ∧ (od_periodic_start (-2)).1 = 0 :=
  ⟨(od_periodic_start_init (-1) { system := none } 0).1.mpr rfl,
    (od_periodic_start_init 7 { system := none } 0).2.1.mpr (by decide),
    (od_periodic_start_init (-2) { system := none } 0).2.1.mpr (by decide)⟩

/-! ## Quantization of the rates -/

/-- C14: the double-division rate of od_periodic_stats is not the single division by
I squared: with stats_interval I = 2, prev.count_request = 1 and curr.count_request = 4
the stored rate is ((4 / 2) - (1 / 2)) / 2 = 1, while (4 - 1) / (2 * 2) = 0. -/
theorem od_periodic_stats_double_division :
    ∃ (inst : od_instance_t) (route route1 : od_route_t),
      2 ≤ inst.stats_interval
        ∧ route.periodic_stats.count_request
          ≤ (od_periodic_stats_gather route).count_request
        ∧ od_periodic_stats_route inst route = some route1
        ∧ route1.periodic_stats_avg.count_request
          = ((od_periodic_stats_gather route).count_request / inst.stats_interval
              - route.periodic_stats.count_request / inst.stats_interval)
            / inst.stats_interval
        ∧ route1.periodic_stats_avg.count_request
          ≠ ((od_periodic_stats_gather route).count_request
              - route.periodic_stats.count_request)
            / (inst.stats_interval * inst.stats_interval)
        ∧ inst.stats_interval = 2
        ∧ route.periodic_stats.count_request = 1
        ∧ (od_periodic_stats_gather route).count_request = 4 :=
  ⟨od_instance_example, od_route_quantized, od_route_quantized_after,
    by decide, by decide, by decide, by decide, by decide, rfl, rfl, by decide⟩

/-- The quotient difference against the quotient of the difference. -/
theorem div_sub_div_bounds (a b n : Nat) (hn : 0 < n) (hba : b ≤ a) :
    (a - b) / n ≤ a / n - b / n ∧ a / n - b / n ≤ (a - b) / n + 1 := by
  obtain ⟨d, rfl⟩ := Nat.exists_eq_add_of_le hba
  have h := Nat.add_div (a := b) (b := d) hn
  have hd : b + d - b = d := by omega
  rw [hd]
  generalize (b + d) / n = x at h ⊢
  generalize b / n = p at h ⊢
  generalize d / n = q at h ⊢
  split_ifs at h <;> omega

/-- The double division is the single division by the square, or one more. -/
theorem quantization_bounds (a b n : Nat) (hn : 0 < n) (hba : b ≤ a) :
    (a - b) / (n * n) ≤ (a / n - b / n) / n
      ∧ (a / n - b / n) / n ≤ (a - b) / (n * n) + 1 := by
  obtain ⟨h1, h2⟩ := div_sub_div_bounds a b n hn hba
  rw [← Nat.div_div_eq_div_mul]
  constructor
  · exact Nat.div_le_div_right h1
  · have h3 : (a / n - b / n) / n ≤ ((a - b) / n + 1) / n := Nat.div_le_div_right h2
    have h4 : ((a - b) / n + 1) / n ≤ (a - b) / n / n + 1 := by
      rw [Nat.succ_div]
      generalize (a - b) / n / n = y
      split_ifs <;> omega
    generalize (a / n - b / n) / n = u at h3 ⊢
    generalize ((a - b) / n + 1) / n = v at h3 h4
    generalize (a - b) / n / n = w at h4 ⊢
    omega

/-- The rates the route body stores when the request count has not decreased and has
grown by less than `2^63`: the request rate is the plain double division, the byte
rates are the wrapping differences of the quotients divided by the interval. -/
theorem od_periodic_stats_rates (inst : od_instance_t) (route : od_route_t)
    (hI : 0 < inst.stats_interval)
    (hreq : route.periodic_stats.count_request
      ≤ (od_periodic_stats_gather route).count_request)
    (hgap : (od_periodic_stats_gather route).count_request
      - route.periodic_stats.count_request < 2 ^ 63) :
    ∃ route1, od_periodic_stats_route inst route = some route1
      ∧ route1.periodic_stats_avg.count_request
        = ((od_periodic_stats_gather route).count_request / inst.stats_interval
            - route.periodic_stats.count_request / inst.stats_interval)
          / inst.stats_interval
      ∧ route1.periodic_stats_avg.recv_client
        = u64_sub ((od_periodic_stats_gather route).recv_client / inst.stats_interval)
            (route.periodic_stats.recv_client / inst.stats_interval)
          / inst.stats_interval
      ∧ route1.periodic_stats_avg.recv_server
        = u64_sub ((od_periodic_stats_gather route).recv_server / inst.stats_interval)
            (route.periodic_stats.recv_server / inst.stats_interval)
          / inst.stats_interval := by
  obtain ⟨hsan, hdiff⟩ := od_periodic_stats_monotone inst route hI hreq hgap
  have hlt_cr := (od_periodic_stats_gather_lt route).2.1
  refine ⟨_, od_periodic_stats_route_passed inst route hsan hI, ?_, rfl, rfl⟩
  simp only
  rw [hdiff, ← Int.ofNat_tdiv]
  apply u64_of_i64_natCast
  have h1 : ((od_periodic_stats_gather route).count_request / inst.stats_interval
        - route.periodic_stats.count_request / inst.stats_interval)
      / inst.stats_interval
      ≤ (od_periodic_stats_gather route).count_request :=
    le_trans (Nat.div_le_self _ _) (le_trans (Nat.sub_le _ _) (Nat.div_le_self _ _))
  omega

/-- C15: for every stats_interval I >= 1 and counters 0 <= prev <= curr < 2^63, the rps
stored by od_periodic_stats is ((curr / I) - (prev / I)) / I; it is not negative (also
when read as a signed 64-bit value), it is at most curr - prev, and it lies between
floor((curr - prev) / I^2) and floor((curr - prev) / I^2) + 1. -/
theorem od_periodic_stats_quantization (inst : od_instance_t) (route : od_route_t)
    (hI : 1 ≤ inst.stats_interval)
    (hreq : route.periodic_stats.count_request
      ≤ (od_periodic_stats_gather route).count_request)
    (hcurr : (od_periodic_stats_gather route).count_request < 2 ^ 63) :
    ∃ route1, od_periodic_stats_route inst route = some route1
      ∧ route1.periodic_stats_avg.count_request
        = ((od_periodic_stats_gather route).count_request / inst.stats_interval
            - route.periodic_stats.count_request / inst.stats_interval)
          / inst.stats_interval
      ∧ 0 ≤ i64_of_u64 route1.periodic_stats_avg.count_request
      ∧ route1.periodic_stats_avg.count_request
        ≤ (od_periodic_stats_gather route).count_request
          - route.periodic_stats.count_request
      ∧ ((od_periodic_stats_gather route).count_request
            - route.periodic_stats.count_request)
          / (inst.stats_interval * inst.stats_interval)
        ≤ route1.periodic_stats_avg.count_request
      ∧ route1.periodic_stats_avg.count_request
        ≤ ((od_periodic_stats_gather route).count_request
            - route.periodic_stats.count_request)
          / (inst.stats_interval * inst.stats_interval) + 1 := by
  have hI0 : 0 < inst.stats_interval := hI
  obtain ⟨route1, hrun, hrps, -, -⟩ :=
    od_periodic_stats_rates inst route hI0 hreq (by omega)
  obtain ⟨hlow, hhigh⟩ := quantization_bounds (od_periodic_stats_gather route).count_request
    route.periodic_stats.count_request inst.stats_interval hI0 hreq
  have hle : route1.periodic_stats_avg.count_request
      ≤ (od_periodic_stats_gather route).count_request
        - route.periodic_stats.count_request := by
    rw [hrps]
    exact le_trans (Nat.div_le_self _ _) (div_sub_div_le _ _ _ hI0)
  refine ⟨route1, hrun, hrps, ?_, hle, ?_, ?_⟩
  · rw [i64_of_u64_of_lt _ (by omega)]
    omega
  · rw [hrps]
    exact hlow
  · rw [hrps]
    exact hhigh

/-- C15, at the route with the quantized counters (I = 2, prev = 1, curr = 4): the
hypotheses hold and the stored rps, 1, lies between floor(3 / 4) = 0 and 1. -/
theorem od_periodic_stats_quantization_witness :
    1 ≤ od_instance_example.stats_interval
      ∧ od_route_quantized.periodic_stats.count_request
        ≤ (od_periodic_stats_gather od_route_quantized).count_request
      ∧ (od_periodic_stats_gather od_route_quantized).count_request < 2 ^ 63
      ∧ ∃ route1, od_periodic_stats_route od_instance_example od_route_quantized
            = some route1
          ∧ route1.periodic_stats_avg.count_request ≤ (4 - 1) / (2 * 2) + 1 :=
  ⟨by decide, by decide, by decide,
    (od_periodic_stats_quantization od_instance_example od_route_quantized (by decide)
      (by decide) (by decide)).imp (fun _ h => ⟨h.1, h.2.2.2.2.2⟩)⟩

/-! ## The bucket of a server in a well-formed pool -/

theorem od_serverpool_state_of_idle (pool : od_serverpool_t) (hwf : od_serverpool_wf pool)
    (t : od_server_t) (ht : t ∈ pool.idle) :
    od_serverpool_state_of pool t.id = OD_SIDLE := by
  obtain ⟨A, I, E⟩ := pool
  simp only at ht
  obtain ⟨pre, post, hI⟩ := List.append_of_mem ht
  subst hI
  obtain ⟨hA, -, -, -⟩ := od_serverpool_wf_split A pre post E t hwf
  simp [od_serverpool_state_of, any_id_eq_false _ _ hA]

theorem od_serverpool_state_of_expire (pool : od_serverpool_t)
    (hwf : od_serverpool_wf pool) (t : od_server_t) (ht : t ∈ pool.expire) :
    od_serverpool_state_of pool t.id = OD_SEXPIRE := by
  have hnd := hwf.1
  simp only [od_serverpool_servers, List.map_append] at hnd
  have hdisj := (List.nodup_append.mp hnd).2.2
  have htid : t.id ∈ pool.expire.map (fun x => x.id) := List.mem_map.mpr ⟨t, ht, rfl⟩
  have hA : ∀ x ∈ pool.active, x.id ≠ t.id := by
    intro x hx heq
    refine hdisj ?_ htid
    rw [← heq]
    exact List.mem_append_left _ (List.mem_map.mpr ⟨x, hx, rfl⟩)
  have hI : ∀ x ∈ pool.idle, x.id ≠ t.id := by
    intro x hx heq
    refine hdisj ?_ htid
    rw [← heq]
    exact List.mem_append_right _ (List.mem_map.mpr ⟨x, hx, rfl⟩)
  have hE : pool.expire.any (fun x => x.id == t.id) = true := by
    rw [List.any_eq_true]
    exact ⟨t, ht, by simp⟩
  simp [od_serverpool_state_of, any_id_eq_false _ _ hA, any_id_eq_false _ _ hI, hE]

/-! ## The tick at which a server expires -/

/-- The traces of consecutive ticks only grow. -/
theorem od_periodic_expire_ticks_trace (inst : od_instance_t) (backend : od_backend_t)
    (n : Nat) :
    ∀ (router : od_router_t) (trace : List od_event_t),
      ∃ more, (od_periodic_expire_ticks inst backend n (router, trace)).2
        = trace ++ more := by
  induction n with
  | zero => intro router trace; exact ⟨[], by simp [od_periodic_expire_ticks]⟩
  | succ n ih =>
    intro router trace
    obtain ⟨more, hmore⟩ := ih (od_periodic_expire inst backend router).1
      (trace ++ (od_periodic_expire inst backend router).2)
    exact ⟨(od_periodic_expire inst backend router).2 ++ more, by
      simp only [od_periodic_expire_ticks, hmore, List.append_assoc]⟩

/-- What the four rules give an idle server below the time-to-live, and at it, on a
route that is not being drained. -/
theorem od_mark_reference_ttl (scheme : od_schemeroute_t) (clients : Nat) (s : od_server_t)
    (hbusy : scheme.is_obsolete = false ∨ 0 < clients) (httl : 0 < scheme.pool_ttl) :
    (s.idle_time < scheme.pool_ttl →
        od_mark_reference scheme clients s = { s with idle_time := s.idle_time + 1 })
      ∧ (scheme.pool_ttl ≤ s.idle_time →
        od_mark_reference scheme clients s = { s with state := OD_SEXPIRE }) := by
  have h1 : ¬ (scheme.is_obsolete = true ∧ clients = 0) := by
    rintro ⟨ho, hc⟩
    rcases hbusy with h | h
    · rw [h] at ho
      cases ho
    · omega
  have h2 : scheme.pool_ttl ≠ 0 := by omega
  constructor
  · intro hlt
    simp [od_mark_reference, h1, h2, hlt]
  · intro hge
    have h3 : ¬ s.idle_time < scheme.pool_ttl := by omega
    simp [od_mark_reference, h1, h2, h3]

/-- One mark pass over a well-formed route that is not being drained: an idle server
below the time-to-live stays in the IDLE bucket with one more idle second; an idle
server at the time-to-live is in the EXPIRE bucket afterwards. -/
theorem od_periodic_expire_mark_route_ttl (route : od_route_t) (s : od_server_t)
    (hwf : od_serverpool_wf route.server_pool)
    (hbusy : route.scheme.is_obsolete = false ∨ 0 < od_clientpool_total route.client_pool)
    (httl : 0 < route.scheme.pool_ttl)
    (hs : s ∈ route.server_pool.idle) :
    (s.idle_time < route.scheme.pool_ttl →
        ({ s with idle_time := s.idle_time + 1 } : od_server_t)
          ∈ (od_periodic_expire_mark_route route).server_pool.idle)
      ∧ (route.scheme.pool_ttl ≤ s.idle_time →
        ({ s with state := OD_SEXPIRE } : od_server_t)
          ∈ (od_periodic_expire_mark_route route).server_pool.expire) := by
  obtain ⟨href1, href2⟩ := od_mark_reference_ttl route.scheme
    (od_clientpool_total route.client_pool) s hbusy httl
  have hst : s.state = OD_SIDLE := hwf.2.2.1 s hs
  rw [od_periodic_expire_mark_route_eq route hwf]
  constructor
  · intro hlt
    simp only [List.mem_filter, List.mem_map]
    refine ⟨⟨s, hs, href1 hlt⟩, ?_⟩
    simp [hst]
  · intro hge
    simp only [List.mem_append, List.mem_filter, List.mem_map]
    right
    exact ⟨⟨s, hs, href2 hge⟩, by simp⟩

/-- One tick on a route that is not being drained keeps an idle server that is below
the time-to-live: the image of the route is in the pool, well-formed, with the server
in its IDLE bucket and one more idle second. -/
theorem od_periodic_expire_idle_step (inst : od_instance_t) (backend : od_backend_t)
    (router : od_router_t) (route : od_route_t) (s : od_server_t)
    (hmem : route ∈ router.route_pool.list)
    (hwf : od_serverpool_wf route.server_pool)
    (hbusy : route.scheme.is_obsolete = false ∨ 0 < od_clientpool_total route.client_pool)
    (hs : s ∈ route.server_pool.idle)
    (hlt : s.idle_time < route.scheme.pool_ttl) :
    ∃ route1 ∈ (od_periodic_expire inst backend router).1.route_pool.list,
      route1.id = route.id ∧ route1.scheme = route.scheme
        ∧ route1.client_pool = route.client_pool
        ∧ od_serverpool_wf route1.server_pool
        ∧ ({ s with idle_time := s.idle_time + 1 } : od_server_t)
          ∈ route1.server_pool.idle := by
  have httl : 0 < route.scheme.pool_ttl := by omega
  obtain ⟨pool1, hframe⟩ := od_periodic_expire_mark_route_frame route
  have hin := (od_periodic_expire_mark_route_ttl route s hwf hbusy httl hs).1 hlt
  have hwf1 := od_route_clear_expire_wf _ (od_periodic_expire_mark_route_wf route hwf)
  refine ⟨od_route_clear_expire (od_periodic_expire_mark_route route), ?_, ?_, ?_, ?_,
    hwf1, hin⟩
  · rw [od_periodic_expire_eq]
    simp only [List.mem_filter, List.mem_map, exists_exists_and_eq_and]
    refine ⟨⟨route, hmem, rfl⟩, ?_⟩
    rw [hframe]
    rcases hbusy with h | h
    · simp [od_route_is_garbage, od_route_clear_expire, h]
    · have : od_clientpool_total route.client_pool ≠ 0 := by omega
      simp [od_route_is_garbage, od_route_clear_expire, this]
  · rw [hframe]
    rfl
  · rw [hframe]
    rfl
  · rw [hframe]
    rfl

/-- Consecutive ticks, the last one taken apart. -/
theorem od_periodic_expire_ticks_succ (inst : od_instance_t) (backend : od_backend_t)
    (n : Nat) :
    ∀ st : od_router_t × List od_event_t,
      od_periodic_expire_ticks inst backend (n + 1) st
        = ((od_periodic_expire inst backend
              (od_periodic_expire_ticks inst backend n st).1).1,
            (od_periodic_expire_ticks inst backend n st).2
              ++ (od_periodic_expire inst backend
                  (od_periodic_expire_ticks inst backend n st).1).2) := by
  induction n with
  | zero => intro st; rfl
  | succ n ih =>
    intro st
    obtain ⟨router, trace⟩ := st
    have h := ih ((od_periodic_expire inst backend router).1,
      trace ++ (od_periodic_expire inst backend router).2)
    exact h

/-- While its idle time stays within the time-to-live, an idle server of a route that
is not being drained is carried from tick to tick, one idle second more each time. -/
theorem od_periodic_expire_idle_ticks (inst : od_instance_t) (backend : od_backend_t)
    (j : Nat) :
    ∀ (router : od_router_t) (trace : List od_event_t) (route : od_route_t)
      (s : od_server_t),
      route ∈ router.route_pool.list →
      od_serverpool_wf route.server_pool →
      (route.scheme.is_obsolete = false ∨ 0 < od_clientpool_total route.client_pool) →
      s ∈ route.server_pool.idle →
      s.idle_time + j ≤ route.scheme.pool_ttl →
      ∃ r ∈ (od_periodic_expire_ticks inst backend j (router, trace)).1.route_pool.list,
        r.id = route.id ∧ r.scheme = route.scheme ∧ r.client_pool = route.client_pool
          ∧ od_serverpool_wf r.server_pool
          ∧ ({ s with idle_time := s.idle_time + j } : od_server_t)
            ∈ r.server_pool.idle := by
  induction j with
  | zero =>
    intro router trace route s hmem hwf _ hs _
    exact ⟨route, hmem, rfl, rfl, rfl, hwf, hs⟩
  | succ j ih =>
    intro router trace route s hmem hwf hbusy hs hj
    obtain ⟨route1, hmem1, hid1, hsch1, hcl1, hwf1, hs1⟩ :=
      od_periodic_expire_idle_step inst backend router route s hmem hwf hbusy hs
        (by omega)
    have hbusy1 : route1.scheme.is_obsolete = false
        ∨ 0 < od_clientpool_total route1.client_pool := by
      rw [hsch1, hcl1]
      exact hbusy
    obtain ⟨r, hr, h1, h2, h3, h4, h5⟩ :=
      ih (od_periodic_expire inst backend router).1
        (trace ++ (od_periodic_expire inst backend router).2) route1
        { s with idle_time := s.idle_time + 1 } hmem1 hwf1 hbusy1 hs1
        (by rw [hsch1]; simp only; omega)
    refine ⟨r, hr, h1.trans hid1, h2.trans hsch1, h3.trans hcl1, h4, ?_⟩
    have heq : ({ s with idle_time := s.idle_time + (j + 1) } : od_server_t)
        = { s with idle_time := s.idle_time + 1 + j } := by
      congr 1
      omega
    rw [heq]
    exact h5

/-- C16: on a route that is not being drained (not obsolete, or with clients) with
pool_ttl = T > 0, an IDLE server with idle_time = k <= T that is not used in between
stays IDLE through the first T - k subsequent ticks, with idle_time k + j <= T after
j of them (each of these mark passes adds one idle second and leaves it in the IDLE
bucket), and the mark pass of tick T - k + 1 moves it to the EXPIRE bucket, whose sweep
closes it. -/
theorem od_periodic_expire_exact_tick (inst : od_instance_t) (backend : od_backend_t)
    (router : od_router_t) (route : od_route_t) (s : od_server_t)
    (hmem : route ∈ router.route_pool.list)
    (hwf : od_serverpool_wf route.server_pool)
    (hbusy : route.scheme.is_obsolete = false ∨ 0 < od_clientpool_total route.client_pool)
    (httl : 0 < route.scheme.pool_ttl)
    (hs : s ∈ route.server_pool.idle)
    (hk : s.idle_time ≤ route.scheme.pool_ttl) :
    (∀ j, j ≤ route.scheme.pool_ttl - s.idle_time →
        ∃ r ∈ (od_periodic_expire_ticks inst backend j (router, [])).1.route_pool.list,
          r.id = route.id ∧ r.scheme = route.scheme ∧ r.client_pool = route.client_pool
            ∧ ({ s with idle_time := s.idle_time + j } : od_server_t) ∈ r.server_pool.idle
            ∧ s.idle_time + j ≤ route.scheme.pool_ttl
            ∧ (j < route.scheme.pool_ttl - s.idle_time →
                ({ s with idle_time := s.idle_time + j + 1 } : od_server_t)
                    ∈ (od_periodic_expire_mark_route r).server_pool.idle
                  ∧ od_serverpool_state_of (od_periodic_expire_mark_route r).server_pool s.id
                    = OD_SIDLE)
            ∧ (j = route.scheme.pool_ttl - s.idle_time →
                ({ s with idle_time := route.scheme.pool_ttl, state := OD_SEXPIRE }
                    : od_server_t)
                    ∈ (od_periodic_expire_mark_route r).server_pool.expire
                  ∧ od_serverpool_state_of (od_periodic_expire_mark_route r).server_pool s.id
                    = OD_SEXPIRE))
      ∧ od_event_t.od_backend_close (od_server_closed s)
        ∈ (od_periodic_expire_ticks inst backend
            (route.scheme.pool_ttl - s.idle_time + 1) (router, [])).2 := by
  have key : ∀ j, j ≤ route.scheme.pool_ttl - s.idle_time →
      ∃ r ∈ (od_periodic_expire_ticks inst backend j (router, [])).1.route_pool.list,
        r.id = route.id ∧ r.scheme = route.scheme ∧ r.client_pool = route.client_pool
          ∧ od_serverpool_wf r.server_pool
          ∧ ({ s with idle_time := s.idle_time + j } : od_server_t)
            ∈ r.server_pool.idle := by
    intro j hj
    exact od_periodic_expire_idle_ticks inst backend j router [] route s hmem hwf hbusy hs
      (by omega)
  have hpass : ∀ (r : od_route_t) (j : Nat), r.scheme = route.scheme →
      r.client_pool = route.client_pool → od_serverpool_wf r.server_pool →
      ({ s with idle_time := s.idle_time + j } : od_server_t) ∈ r.server_pool.idle →
      (s.idle_time + j < route.scheme.pool_ttl →
          ({ s with idle_time := s.idle_time + j + 1 } : od_server_t)
            ∈ (od_periodic_expire_mark_route r).server_pool.idle)
        ∧ (route.scheme.pool_ttl ≤ s.idle_time + j →
          ({ s with idle_time := s.idle_time + j, state := OD_SEXPIRE } : od_server_t)
            ∈ (od_periodic_expire_mark_route r).server_pool.expire) := by
    intro r j hsch hcl hwfr hin
    have hb : r.scheme.is_obsolete = false ∨ 0 < od_clientpool_total r.client_pool := by
      rw [hsch, hcl]
      exact hbusy
    have := od_periodic_expire_mark_route_ttl r _ hwfr hb (by rw [hsch]; exact httl) hin
    rw [hsch] at this
    exact this
  constructor
  · intro j hj
    obtain ⟨r, hr, h1, h2, h3, h4, h5⟩ := key j hj
    obtain ⟨hp1, hp2⟩ := hpass r j h2 h3 h4 h5
    have hwfm := od_periodic_expire_mark_route_wf r h4
    refine ⟨r, hr, h1, h2, h3, h5, by omega, fun hlt => ?_, fun heq => ?_⟩
    · have hin := hp1 (by omega)
      exact ⟨hin, od_serverpool_state_of_idle _ hwfm
        { s with idle_time := s.idle_time + j + 1 } hin⟩
    · have hT : s.idle_time + j = route.scheme.pool_ttl := by omega
      have hin := hp2 (by omega)
      rw [hT] at hin
      exact ⟨hin, od_serverpool_state_of_expire _ hwfm
        { s with idle_time := route.scheme.pool_ttl, state := OD_SEXPIRE } hin⟩
  · obtain ⟨r, hr, h1, h2, h3, h4, h5⟩ := key (route.scheme.pool_ttl - s.idle_time)
      (le_refl _)
    obtain ⟨-, hp2⟩ := hpass r _ h2 h3 h4 h5
    have hexp := hp2 (by omega)
    rw [od_periodic_expire_ticks_succ]
    apply List.mem_append_right
    rw [od_periodic_expire_eq]
    have h2 := mem_od_routepool_expire_servers
      ((od_periodic_expire_ticks inst backend (route.scheme.pool_ttl - s.idle_time)
        (router, [])).1.route_pool.list.map od_periodic_expire_mark_route) _ _
      (List.mem_map.mpr ⟨r, hr, rfl⟩) hexp
    have h3 := od_sweep_trace_close inst backend _ _ h2
    exact h3

/-- C16, at a concrete input: on the busy route (pool_ttl = 3) the IDLE server with
idle_time = 1 is closed by tick 3 - 1 + 1 = 3 and is still IDLE, with idle_time 3,
after 2 ticks. -/
theorem od_periodic_expire_exact_tick_witness :
    od_route_busy ∈ od_router_busy.route_pool.list
      ∧ od_serverpool_wf od_route_busy.server_pool
      ∧ od_server_example 11 OD_SIDLE 1 1 ∈ od_route_busy.server_pool.idle
      ∧ od_event_t.od_backend_close (od_server_closed (od_server_example 11 OD_SIDLE 1 1))
        ∈ (od_periodic_expire_ticks od_instance_example od_backend_example 3
            (od_router_busy, [])).2
      ∧ (od_periodic_expire_ticks od_instance_example od_backend_example 2
            (od_router_busy, [])).1.route_pool.list.map
          (fun r => r.server_pool.idle.map (fun t => (t.id, t.idle_time)))
        = [[(11, 3)]] :=
  ⟨by decide, by decide, by decide,
    (od_periodic_expire_exact_tick od_instance_example od_backend_example od_router_busy
      od_route_busy (od_server_example 11 OD_SIDLE 1 1) (by decide) (by decide)
      (Or.inr (by decide)) (by decide) (by decide) (by decide)).2,
    by decide⟩

/-! ## Frame of the maintenance engines -/

/-- The routes that come out of a tick, on well-formed pools: each is the image of a
route of the pool, with the same ACTIVE bucket, with the IDLE servers the four rules
leave IDLE, an empty EXPIRE bucket and nothing else changed. -/
theorem od_periodic_expire_image (inst : od_instance_t) (backend : od_backend_t)
    (router : od_router_t)
    (hwf : ∀ r ∈ router.route_pool.list, od_serverpool_wf r.server_pool)
    (r1 : od_route_t)
    (hr1 : r1 ∈ (od_periodic_expire inst backend router).1.route_pool.list) :
    ∃ r ∈ router.route_pool.list,
      r1 = { r with server_pool :=
          { active := r.server_pool.active,
            idle := (r.server_pool.idle.map
              (od_mark_reference r.scheme (od_clientpool_total r.client_pool))).filter
                (fun t => t.state != OD_SEXPIRE),
            expire := [] } } := by
  rw [od_periodic_expire_eq] at hr1
  simp only [List.mem_filter, List.mem_map, exists_exists_and_eq_and] at hr1
  obtain ⟨⟨r, hr, hreq⟩, -⟩ := hr1
  refine ⟨r, hr, ?_⟩
  rw [← hreq, od_periodic_expire_mark_route_eq r (hwf r hr)]
  rfl

/-- The servers in EXPIRE after the mark phase, on well-formed pools: each was in
EXPIRE before, or is an idle server that the four rules moved. -/
theorem od_periodic_expire_marked_origin (router : od_router_t)
    (hwf : ∀ r ∈ router.route_pool.list, od_serverpool_wf r.server_pool)
    (s1 : od_server_t)
    (hs1 : s1 ∈ od_routepool_expire_servers
      (router.route_pool.list.map od_periodic_expire_mark_route)) :
    ∃ r ∈ router.route_pool.list,
      s1 ∈ r.server_pool.expire
        ∨ ∃ s ∈ r.server_pool.idle,
            s1 = od_mark_reference r.scheme (od_clientpool_total r.client_pool) s := by
  rw [mem_od_routepool_expire_servers_iff] at hs1
  obtain ⟨rm, hrm, hin⟩ := hs1
  obtain ⟨r, hr, rfl⟩ := List.mem_map.mp hrm
  rw [od_periodic_expire_mark_route_eq r (hwf r hr)] at hin
  simp only [List.mem_append, List.mem_filter, List.mem_map] at hin
  refine ⟨r, hr, ?_⟩
  rcases hin with h | ⟨⟨s, hs, hseq⟩, -⟩
  · exact Or.inl h
  · exact Or.inr ⟨s, hs, hseq.symm⟩

/-- C17: one call of od_periodic_expire, on well-formed pools, leaves every ACTIVE
server as it is (same value in the same bucket of its route, which stays in the pool),
changes no route's periodic_stats, periodic_stats_avg, scheme or clients, and changes
no statistics counters: every server still pooled, and every server closed, carries
the counters (and identifier) of a server of the pool before the call.  One call of
od_periodic_stats changes only the periodic_stats and periodic_stats_avg fields of the
routes: every server pool, with all its buckets and servers, is as before. -/
theorem od_maintenance_frame (inst : od_instance_t) (backend : od_backend_t)
    (router : od_router_t) :
    ((∀ r ∈ router.route_pool.list, od_serverpool_wf r.server_pool) →
        (∀ r ∈ router.route_pool.list, ∀ s ∈ r.server_pool.active,
          ∃ r1 ∈ (od_periodic_expire inst backend router).1.route_pool.list,
            r1.id = r.id ∧ r1.server_pool.active = r.server_pool.active
              ∧ s ∈ r1.server_pool.active)
          ∧ (∀ r1 ∈ (od_periodic_expire inst backend router).1.route_pool.list,
              ∃ r ∈ router.route_pool.list,
                r1 = { r with server_pool := r1.server_pool }
                  ∧ r1.server_pool.active = r.server_pool.active
                  ∧ ∀ s1 ∈ od_serverpool_servers r1.server_pool,
                      ∃ s ∈ od_serverpool_servers r.server_pool,
                        s1.id = s.id ∧ s1.stats = s.stats)
          ∧ (∀ c, od_event_t.od_backend_close c
                ∈ (od_periodic_expire inst backend router).2 →
              ∃ r ∈ router.route_pool.list, ∃ s ∈ od_serverpool_servers r.server_pool,
                c.id = s.id ∧ c.stats = s.stats))
      ∧ (∀ router1, od_periodic_stats inst router = some router1 →
          List.Forall₂ (fun r r1 =>
              r1 = { r with periodic_stats := r1.periodic_stats
                            periodic_stats_avg := r1.periodic_stats_avg })
            router.route_pool.list router1.route_pool.list) := by
  constructor
  · intro hwf
    refine ⟨?_, ?_, ?_⟩
    · intro r hr s hs
      refine ⟨od_route_clear_expire (od_periodic_expire_mark_route r), ?_, ?_, ?_, ?_⟩
      · rw [od_periodic_expire_eq]
        simp only [List.mem_filter, List.mem_map, exists_exists_and_eq_and]
        refine ⟨⟨r, hr, rfl⟩, ?_⟩
        rw [od_periodic_expire_mark_route_eq r (hwf r hr)]
        have hne : r.server_pool.active ≠ [] := by
          intro h0
          rw [h0] at hs
          cases hs
        simp [od_route_is_garbage, od_route_clear_expire, od_serverpool_total,
          od_serverpool_t.count_active, od_serverpool_t.count_idle,
          od_serverpool_t.count_expire, hne]
      · rw [od_periodic_expire_mark_route_eq r (hwf r hr)]
        rfl
      · rw [od_periodic_expire_mark_route_eq r (hwf r hr)]
        rfl
      · rw [od_periodic_expire_mark_route_eq r (hwf r hr)]
        exact hs
    · intro r1 hr1
      obtain ⟨r, hr, hreq⟩ := od_periodic_expire_image inst backend router hwf r1 hr1
      refine ⟨r, hr, ?_, ?_, ?_⟩
      · rw [hreq]
      · rw [hreq]
      · intro s1 hs1
        rw [hreq] at hs1
        simp only [od_serverpool_servers, List.append_nil, List.mem_append,
          List.mem_filter, List.mem_map] at hs1
        rcases hs1 with h | ⟨⟨s, hs, hseq⟩, -⟩
        · exact ⟨s1, by simp [od_serverpool_servers, h], rfl, rfl⟩
        · refine ⟨s, by simp [od_serverpool_servers, hs], ?_, ?_⟩
          · rw [← hseq, od_mark_reference_id]
          · rw [← hseq, od_mark_reference_stats]
    · intro c hc
      rw [od_periodic_expire_eq] at hc
      obtain ⟨s1, hs1, hcs⟩ := od_sweep_trace_close_inv inst backend _ c hc
      obtain ⟨r, hr, hor⟩ := od_periodic_expire_marked_origin router hwf s1 hs1
      refine ⟨r, hr, ?_⟩
      rcases hor with h | ⟨s, hs, hseq⟩
      · exact ⟨s1, by simp [od_serverpool_servers, h], by rw [hcs]; rfl, by rw [hcs]; rfl⟩
      · refine ⟨s, by simp [od_serverpool_servers, hs], ?_, ?_⟩
        · rw [hcs, hseq]
          exact od_mark_reference_id _ _ s
        · rw [hcs, hseq]
          exact od_mark_reference_stats _ _ s
  · intro router1 h
    refine (od_periodic_stats_visits inst router router1 h).imp ?_
    intro r r1 hr
    exact (od_periodic_stats_route_snapshot inst r r1 hr).2

/-- C17, at a concrete input: the pools of the router with the mixed route are
well-formed and its ACTIVE server (70) is in the ACTIVE bucket of the same route after
one tick, unchanged. -/
theorem od_maintenance_frame_witness :
    (∀ r ∈ od_router_mixed.route_pool.list, od_serverpool_wf r.server_pool)
      ∧ ∃ r1 ∈ (od_periodic_expire od_instance_example od_backend_example
            od_router_mixed).1.route_pool.list,
          r1.id = od_route_mixed.id
            ∧ r1.server_pool.active = od_route_mixed.server_pool.active
            ∧ od_server_example 70 OD_SACTIVE 7 0 ∈ r1.server_pool.active :=
  ⟨by decide,
    ((od_maintenance_frame od_instance_example od_backend_example od_router_mixed).1
      (by decide)).1 od_route_mixed (by decide) (od_server_example 70 OD_SACTIVE 7 0)
      (by decide)⟩

/-! ## The sanity gate -/

/-- C18: for every route whose summed count_request is smaller than the previous
snapshot's (the signed 64-bit difference is negative), od_periodic_stats stores 0 in
all four fields of periodic_stats_avg, whatever their previous values and whatever the
interval: the route body returns such a route, and in every run that returns, the
image of every such route has zero averages. -/
theorem od_periodic_stats_regression_zero (inst : od_instance_t) (route : od_route_t)
    (h : od_periodic_stats_sanity route < 0) :
    (∃ route1, od_periodic_stats_route inst route = some route1
        ∧ route1.periodic_stats_avg.count_request = 0
        ∧ route1.periodic_stats_avg.recv_client = 0
        ∧ route1.periodic_stats_avg.recv_server = 0
        ∧ route1.periodic_stats_avg.query_time = 0)
      ∧ (∀ router router1, od_periodic_stats inst router = some router1 →
          List.Forall₂ (fun r r1 =>
              od_periodic_stats_sanity r < 0 → r1.periodic_stats_avg = od_serverstat_zero)
            router.route_pool.list router1.route_pool.list) := by
  constructor
  · exact ⟨_, od_periodic_stats_route_regressed inst route h, rfl, rfl, rfl, rfl⟩
  · intro router router1 hrun
    refine (od_periodic_stats_visits inst router router1 hrun).imp ?_
    intro r r1 hr hneg
    rw [od_periodic_stats_route_regressed inst r hneg] at hr
    cases hr
    rfl

/-- C18, at scenario S5 (100, then 40): the signed difference is negative and the
averages, which stood at 7 requests per second, are stored as 0. -/
theorem od_periodic_stats_regression_zero_witness :
    od_periodic_stats_sanity od_route_s5 < 0
      ∧ od_route_s5.periodic_stats_avg.count_request = 7
      ∧ ∃ route1, od_periodic_stats_route od_instance_example od_route_s5 = some route1
          ∧ route1.periodic_stats_avg.count_request = 0
          ∧ route1.periodic_stats_avg.recv_client = 0
          ∧ route1.periodic_stats_avg.recv_server = 0
          ∧ route1.periodic_stats_avg.query_time = 0 :=
  ⟨by decide, rfl,
    (od_periodic_stats_regression_zero od_instance_example od_route_s5 (by decide)).1⟩

/-- The wrapping difference of a smaller and a larger value. -/
theorem u64_sub_wrap (x y : Nat) (h : x < y) :
    2 ^ 64 - y ≤ u64_sub x y ∧ (y < 2 ^ 64 → u64_sub x y = 2 ^ 64 + x - y) := by
  unfold u64_sub
  constructor
  · omega
  · intro hy
    omega

/-- C19, as stated, fails when the request count has grown by 2^63 or more: with
stats_interval = 1, count_request going from 0 to 2^63 (not decreased) and recv_client
from 1 to 0, the signed sanity difference is negative and the stored recv_client rate is
0, not the wrap-around value 2^64 - 1, and so below (2^64 - 1 / 1) / 1. -/
theorem od_periodic_stats_wrap_counterexample :
    od_route_wide_recv.periodic_stats.count_request
        ≤ (od_periodic_stats_gather od_route_wide_recv).count_request
      ∧ (od_periodic_stats_gather od_route_wide_recv).recv_client
          / od_instance_unit.stats_interval
        < od_route_wide_recv.periodic_stats.recv_client / od_instance_unit.stats_interval
      ∧ (od_periodic_stats_route od_instance_unit od_route_wide_recv).map
          (fun r => r.periodic_stats_avg.recv_client) = some 0
      ∧ u64_sub ((od_periodic_stats_gather od_route_wide_recv).recv_client
              / od_instance_unit.stats_interval)
            (od_route_wide_recv.periodic_stats.recv_client
              / od_instance_unit.stats_interval)
          / od_instance_unit.stats_interval = 2 ^ 64 - 1
      ∧ (2 ^ 64 - od_route_wide_recv.periodic_stats.recv_client
            / od_instance_unit.stats_interval) / od_instance_unit.stats_interval
          = 2 ^ 64 - 1 := by
  decide

/-- C19, amended: the sanity gate guards count_request only.  For stats_interval =
I >= 1 and every route on which the gate passes (the signed 64-bit difference of
count_request is not negative: count_request has not decreased and has grown by less
than 2^63), when curr.recv_client / I < prev.recv_client / I the stored rate is the
unsigned wrap-around value ((curr / I - prev / I) mod 2^64) / I, which is at least
(2^64 - prev / I) / I, and equals (2^64 + curr / I - prev / I) / I for a 64-bit prev;
likewise for recv_server. -/
theorem od_periodic_stats_wrap (inst : od_instance_t) (route : od_route_t)
    (hI : 1 ≤ inst.stats_interval)
    (hsan : 0 ≤ od_periodic_stats_sanity route) :
    ∃ route1, od_periodic_stats_route inst route = some route1
      ∧ ((od_periodic_stats_gather route).recv_client / inst.stats_interval
            < route.periodic_stats.recv_client / inst.stats_interval →
          route1.periodic_stats_avg.recv_client
              = u64_sub ((od_periodic_stats_gather route).recv_client / inst.stats_interval)
                  (route.periodic_stats.recv_client / inst.stats_interval)
                / inst.stats_interval
            ∧ (2 ^ 64 - route.periodic_stats.recv_client / inst.stats_interval)
                / inst.stats_interval
              ≤ route1.periodic_stats_avg.recv_client
            ∧ (route.periodic_stats.recv_client < 2 ^ 64 →
                route1.periodic_stats_avg.recv_client
                  = (2 ^ 64 + (od_periodic_stats_gather route).recv_client
                        / inst.stats_interval
                      - route.periodic_stats.recv_client / inst.stats_interval)
                    / inst.stats_interval))
      ∧ ((od_periodic_stats_gather route).recv_server / inst.stats_interval
            < route.periodic_stats.recv_server / inst.stats_interval →
          route1.periodic_stats_avg.recv_server
              = u64_sub ((od_periodic_stats_gather route).recv_server / inst.stats_interval)
                  (route.periodic_stats.recv_server / inst.stats_interval)
                / inst.stats_interval
            ∧ (2 ^ 64 - route.periodic_stats.recv_server / inst.stats_interval)
                / inst.stats_interval
              ≤ route1.periodic_stats_avg.recv_server
            ∧ (route.periodic_stats.recv_server < 2 ^ 64 →
                route1.periodic_stats_avg.recv_server
                  = (2 ^ 64 + (od_periodic_stats_gather route).recv_server
                        / inst.stats_interval
                      - route.periodic_stats.recv_server / inst.stats_interval)
                    / inst.stats_interval)) := by
  have hI0 : 0 < inst.stats_interval := hI
  have hrate : ∀ x y : Nat, x / inst.stats_interval < y / inst.stats_interval →
      (2 ^ 64 - y / inst.stats_interval) / inst.stats_interval
          ≤ u64_sub (x / inst.stats_interval) (y / inst.stats_interval)
            / inst.stats_interval
        ∧ (y < 2 ^ 64 →
            u64_sub (x / inst.stats_interval) (y / inst.stats_interval)
                / inst.stats_interval
              = (2 ^ 64 + x / inst.stats_interval - y / inst.stats_interval)
                / inst.stats_interval) := by
    intro x y hlt
    obtain ⟨h1, h2⟩ := u64_sub_wrap _ _ hlt
    refine ⟨Nat.div_le_div_right h1, fun hy => ?_⟩
    rw [h2 (lt_of_le_of_lt (Nat.div_le_self _ _) hy)]
  refine ⟨_, od_periodic_stats_route_passed inst route hsan hI0, ?_, ?_⟩
  · intro hlt
    exact ⟨rfl, (hrate _ _ hlt).1, (hrate _ _ hlt).2⟩
  · intro hlt
    exact ⟨rfl, (hrate _ _ hlt).1, (hrate _ _ hlt).2⟩

/-- C19 amended, at a concrete input: I = 1, count_request from 0 to 5, recv_client
from 1 to 0; the gate passes and the stored recv_client rate is 2^64 - 1. -/
theorem od_periodic_stats_wrap_witness :
    1 ≤ od_instance_unit.stats_interval
      ∧ 0 ≤ od_periodic_stats_sanity od_route_wrap
      ∧ (od_periodic_stats_route od_instance_unit od_route_wrap).map
          (fun r => r.periodic_stats_avg.recv_client) = some (2 ^ 64 - 1)
      ∧ ∃ route1, od_periodic_stats_route od_instance_unit od_route_wrap = some route1
          ∧ (2 ^ 64 - od_route_wrap.periodic_stats.recv_client
                / od_instance_unit.stats_interval) / od_instance_unit.stats_interval
            ≤ route1.periodic_stats_avg.recv_client :=
  ⟨by decide, by decide, by decide,
    (od_periodic_stats_wrap od_instance_unit od_route_wrap (by decide) (by decide)).imp
      (fun _ h => ⟨h.1, (h.2.1 (by decide)).2.1⟩)⟩

/-! ## Division safety -/

/-- With a zero interval the route body divides by zero as soon as the gate passes. -/
theorem od_periodic_stats_route_zero (inst : od_instance_t) (route : od_route_t)
    (hz : inst.stats_interval = 0) (hsan : 0 ≤ od_periodic_stats_sanity route) :
    od_periodic_stats_route inst route = none := by
  unfold od_periodic_stats_sanity at hsan
  unfold od_periodic_stats_route
  simp [if_pos hsan, u64_div, hz]

/-- The route loop fails as soon as the body fails on one route. -/
theorem od_periodic_stats_routes_none (inst : od_instance_t) (routes : List od_route_t)
    (route : od_route_t) (hmem : route ∈ routes)
    (hnone : od_periodic_stats_route inst route = none) :
    od_periodic_stats_routes inst routes = none := by
  induction routes with
  | nil => cases hmem
  | cons r rs ih =>
    unfold od_periodic_stats_routes
    rcases List.mem_cons.mp hmem with heq | hin
    · rw [← heq, hnone]
      rfl
    · cases hr : od_periodic_stats_route inst r with
      | none => rfl
      | some r1 => simp [ih hin]

/-- The route body fails exactly when one of the divisors it meets is zero. -/
theorem od_periodic_stats_route_none_iff (inst : od_instance_t) (route : od_route_t) :
    od_periodic_stats_route inst route = none
      ↔ (0 : Int) ∈ od_periodic_stats_divisors inst route := by
  unfold od_periodic_stats_divisors
  rcases lt_or_le (od_periodic_stats_sanity route) 0 with hneg | hpass
  · rw [od_periodic_stats_route_regressed inst route hneg, if_neg (not_le.mpr hneg)]
    simp
  · rw [if_pos hpass]
    rcases Nat.eq_zero_or_pos inst.stats_interval with hz | hI
    · rw [od_periodic_stats_route_zero inst route hz hpass]
      simp [hz, List.replicate]
    · rw [od_periodic_stats_route_passed inst route hpass hI]
      have hI1 : (inst.stats_interval : Int) ≠ 0 := by omega
      constructor
      · intro hc
        cases hc
      · intro hc
        exfalso
        simp only [List.mem_append, List.mem_replicate] at hc
        rcases hc with h | h
        · exact hI1 h.2.symm
        · split_ifs at h with hpos
          · rw [List.mem_singleton] at h
            omega
          · cases h

/-- C20: for every stats_interval >= 1 and every pool state od_periodic_stats never
divides by zero and returns.  For any interval, every divisor the route body meets is
stats_interval or the quantized request difference reqs_diff, the latter only when
reqs_diff > 0, and the body fails exactly when one of these divisors is zero.
Conversely, with stats_interval = 0 and at least one route whose request count has not
regressed (the sanity gate passes on it), the run reaches a division by zero. -/
theorem od_periodic_stats_division_safety (inst : od_instance_t) (router : od_router_t) :
    (1 ≤ inst.stats_interval →
        (∃ router1, od_periodic_stats inst router = some router1)
          ∧ ∀ route, (0 : Int) ∉ od_periodic_stats_divisors inst route)
      ∧ (∀ route, ∀ d ∈ od_periodic_stats_divisors inst route,
          d = (inst.stats_interval : Int)
            ∨ (d = od_periodic_stats_reqs_diff inst route ∧ 0 < d))
      ∧ (∀ route, od_periodic_stats_route inst route = none
          ↔ (0 : Int) ∈ od_periodic_stats_divisors inst route)
      ∧ (inst.stats_interval = 0 →
          (∃ route ∈ router.route_pool.list, 0 ≤ od_periodic_stats_sanity route) →
          od_periodic_stats inst router = none) := by
  refine ⟨?_, ?_, od_periodic_stats_route_none_iff inst, ?_⟩
  · intro hI
    refine ⟨od_periodic_stats_total inst router hI, ?_⟩
    intro route hmem
    obtain ⟨r1, hr1⟩ := od_periodic_stats_route_total inst route hI
    rw [← od_periodic_stats_route_none_iff, hr1] at hmem
    cases hmem
  · intro route d hd
    unfold od_periodic_stats_divisors at hd
    split_ifs at hd with hsan hpos
    · simp only [List.mem_append, List.mem_replicate, List.mem_singleton] at hd
      rcases hd with h | h
      · exact Or.inl h.2
      · exact Or.inr ⟨h, by rw [h]; exact hpos⟩
    · simp only [List.append_nil, List.mem_replicate] at hd
      exact Or.inl hd.2
    · cases hd
  · intro hz hex
    obtain ⟨route, hmem, hsan⟩ := hex
    have hnone := od_periodic_stats_route_zero inst route hz hsan
    have hcount : router.route_pool.count ≠ 0 := by
      unfold od_routepool_t.count
      intro h0
      rw [List.length_eq_zero.mp h0] at hmem
      cases hmem
    unfold od_periodic_stats
    rw [if_neg hcount, od_periodic_stats_routes_none inst _ route hmem hnone]
    rfl

/-- C20, at concrete inputs: with stats_interval = 2 the run on the router with the
routes of S5 and S4 returns; with stats_interval = 0 it divides by zero, the request
count of the route of S4 not having regressed. -/
theorem od_periodic_stats_division_safety_witness :
    1 ≤ od_instance_example.stats_interval
      ∧ (∃ router1, od_periodic_stats od_instance_example od_router_s45 = some router1)
      ∧ od_instance_zero.stats_interval = 0
      ∧ od_route_s4 ∈ od_router_s45.route_pool.list
      ∧ 0 ≤ od_periodic_stats_sanity od_route_s4
      ∧ od_periodic_stats od_instance_zero od_router_s45 = none :=
  ⟨by decide,
    ((od_periodic_stats_division_safety od_instance_example od_router_s45).1
      (by decide)).1,
    rfl, by decide, by decide,
    (od_periodic_stats_division_safety od_instance_zero od_router_s45).2.2.2 rfl
      ⟨od_route_s4, by decide, by decide⟩⟩

end Odyssey
